import Mathlib

/-!
Shallow embedding of the order execution engine of the stock-service
repository: the order gateway (`trader/order/service.py`), the Kafka
consumer (`trader/context/kafka/ctx.py`), the transaction decorator
(`trader/globals.py` together with `trader/context/db/ctx.py`), and the
data model (`trader/order/model.py`, `trader/portfolio/model.py`,
`trader/user/model.py`).

Modelling conventions:
* SQL rows become Lean structures; the database becomes `EngineState`,
  a record of row lists.  `select ... .first()` becomes `List.find?`,
  ORM attribute mutation becomes a keyed `List.map` update, and
  `session.add` becomes a list append.
* `Decimal` money values become `Rat` (the service builds them with
  `Decimal(str(...))`, and all comparisons are exact); `Integer`
  columns become `Int` (Python ints are unbounded and signed).
* `str(uuid.uuid4())` order ids are modelled as a monotone counter
  `next_id` (uuid collision freedom).
* Raised exceptions become `Except Err`; the API response objects carry
  no state and are omitted.
* `OrderService.send_to_order_queue` is literally `pass` in the source,
  so order creation never touches the queue; the `queue` field of the
  state is kept to make that observable.
* `trader/context/kafka/ctx.py` begins with `from select import select`,
  which binds the *Python standard library* `select` syscall wrapper,
  not `sqlalchemy.select`; under that import every query expression in
  the module (`select(Order).filter(...)` etc.) raises `TypeError` at
  runtime before touching the database.  The consumer definitions below
  embed the SQLAlchemy query semantics that the function bodies are
  written against; the import slip is recorded in the statuses of the
  claims it decides.
* `AccountTransaction` (in `trader/user/model.py`) has columns
  `user_id`, `type`, `amount`, `balance_after`, `description` and no
  `related_order_id` column, while the consumer constructs it with a
  `related_order_id=` keyword; the SQLAlchemy declarative constructor
  raises `TypeError` for an unknown keyword, so those construction
  sites are embedded as a raised `Err.typeError`, handled exactly as
  the surrounding `try/except` blocks dictate.
-/

namespace StockService

/-- `OrderStatus` enum from `trader/order/model.py`. -/
inductive OrderStatus where
  | initial
  | pending
  | success
  | failed
  | retrying
  | cancelled
deriving DecidableEq, Repr

/-- `OrderType` enum from `trader/order/model.py`. -/
inductive OrderType where
  | buy
  | sell
deriving DecidableEq, Repr

/-- `TransactionType` enum from `trader/user/model.py`. -/
inductive TransactionType where
  | deposit
  | withdrawal
  | order_payment
  | order_refund
  | sell_income
deriving DecidableEq, Repr

/-- A row of the `orders` table (`trader/order/model.py`). -/
structure Order where
  id : Nat
  user_id : Nat
  stock_id : Nat
  order_type : OrderType
  status : OrderStatus
  price : Rat
  quantity : Int
  filled_quantity : Int
  total_amount : Rat
  retry_count : Int
deriving DecidableEq, Repr

/-- A row of the `order_history` table. -/
structure OrderHistoryRow where
  order_id : Nat
  previous_status : Option OrderStatus
  current_status : OrderStatus
  note : String
deriving DecidableEq, Repr

/-- A row of the `transactions` (fill record) table. -/
structure TransactionRow where
  order_id : Nat
  user_id : Nat
  stock_id : Nat
  transaction_type : OrderType
  price : Rat
  quantity : Int
  amount : Rat
  is_complete : Bool
deriving DecidableEq, Repr

/-- A row of the `account_transactions` ledger table
(`trader/user/model.py`): `user_id`, `type`, `amount`, `balance_after`,
`description` are its only data columns — it has no `related_order_id`
column. -/
structure AccountTransactionRow where
  user_id : Nat
  type : TransactionType
  amount : Rat
  balance_after : Rat
  description : String
deriving DecidableEq, Repr

/-- A row of the `users` table (the fields the engine reads). -/
structure UserRow where
  id : Nat
  balance : Rat
  is_active : Bool
deriving DecidableEq, Repr

/-- A row of the `portfolio` table. -/
structure PortfolioRow where
  user_id : Nat
  stock_id : Nat
  quantity : Int
  avg_purchase_price : Rat
  total_purchase_amount : Rat
  hold_quantity : Int
deriving DecidableEq, Repr

/-- A row of the `stocks` table (the fields the engine reads). -/
structure StockRow where
  id : Nat
  company_name : String
  is_active : Bool
deriving DecidableEq, Repr

/-- A row of the `stock_prices` table (the fields the engine reads). -/
structure StockPriceRow where
  stock_id : Nat
  current_price : Rat
deriving DecidableEq, Repr

/-- The database state seen by the engine, plus the processing-request
queue (publishes to `orders.processing.requests`) and the uuid
counter. -/
structure EngineState where
  orders : List Order
  order_histories : List OrderHistoryRow
  transactions : List TransactionRow
  users : List UserRow
  account_transactions : List AccountTransactionRow
  portfolios : List PortfolioRow
  stocks : List StockRow
  stock_prices : List StockPriceRow
  queue : List Nat
  next_id : Nat
deriving DecidableEq, Repr

/-- The exception kinds raised by the embedded code
(`trader/exceptions.py`, plus Python's `TypeError`). -/
inductive Err where
  | invalidStock
  | invalidOrder
  | insufficientBalance
  | insufficientStock
  | orderProcessing
  | typeError
deriving DecidableEq, Repr

/-- `select(Order).filter(Order.id == oid)` + `.first()`. -/
def findOrder (s : EngineState) (oid : Nat) : Option Order :=
  s.orders.find? (fun o => o.id == oid)

/-- `select(User).filter(User.id == uid)` + `.first()`. -/
def findUser (s : EngineState) (uid : Nat) : Option UserRow :=
  s.users.find? (fun u => u.id == uid)

/-- `select(Stock).filter(Stock.id == sid)` + `.first()`. -/
def findStock (s : EngineState) (sid : Nat) : Option StockRow :=
  s.stocks.find? (fun st => st.id == sid)

/-- `select(StockPrice).filter(StockPrice.stock_id == sid)` + `.first()`. -/
def findStockPrice (s : EngineState) (sid : Nat) : Option StockPriceRow :=
  s.stock_prices.find? (fun p => p.stock_id == sid)

/-- `select(Portfolio).filter(Portfolio.user_id == uid,
Portfolio.stock_id == sid)` + `.first()`. -/
def findPortfolio (s : EngineState) (uid sid : Nat) : Option PortfolioRow :=
  s.portfolios.find? (fun p => p.user_id == uid && p.stock_id == sid)

/-- `select(Order, Stock).join(Stock, Order.stock_id == Stock.id)
.filter(Order.id == oid)` + `.first()`: the inner join yields a row only
when the stock row exists. -/
def findOrderStock (s : EngineState) (oid : Nat) : Option (Order × StockRow) :=
  match findOrder s oid with
  | none => none
  | some o =>
    match findStock s o.stock_id with
    | none => none
    | some st => some (o, st)

/-- The same join with the additional `Order.user_id == uid` ownership
filter used by `cancel_order` and `update_order`. -/
def findOrderStockOwned (s : EngineState) (oid uid : Nat) : Option (Order × StockRow) :=
  match findOrderStock s oid with
  | none => none
  | some (o, st) => if o.user_id == uid then some (o, st) else none

/-- ORM mutation of the order row fetched by id. -/
def updateOrderRow (s : EngineState) (oid : Nat) (f : Order → Order) : EngineState :=
  { s with orders := s.orders.map (fun o => if o.id == oid then f o else o) }

/-- ORM mutation of the user row fetched by id. -/
def updateUserRow (s : EngineState) (uid : Nat) (f : UserRow → UserRow) : EngineState :=
  { s with users := s.users.map (fun u => if u.id == uid then f u else u) }

/-- ORM mutation of the portfolio row fetched by (user, stock). -/
def updatePortfolioRow (s : EngineState) (uid sid : Nat) (f : PortfolioRow → PortfolioRow) :
    EngineState :=
  let ps := s.portfolios.map (fun p => if p.user_id == uid && p.stock_id == sid then f p else p)
  { s with portfolios := ps }

/-- `sql.session.add(OrderHistory(...))`. -/
def appendHistory (s : EngineState) (h : OrderHistoryRow) : EngineState :=
  { s with order_histories := s.order_histories ++ [h] }

/-- `sql.session.add(Transaction(...))`. -/
def appendTransaction (s : EngineState) (t : TransactionRow) : EngineState :=
  { s with transactions := s.transactions ++ [t] }

/-- `sql.session.add(AccountTransaction(...))`. -/
def appendAccountTransaction (s : EngineState) (t : AccountTransactionRow) : EngineState :=
  { s with account_transactions := s.account_transactions ++ [t] }

/-- `sql.session.add(Portfolio(...))` for a freshly created row. -/
def appendPortfolio (s : EngineState) (p : PortfolioRow) : EngineState :=
  { s with portfolios := s.portfolios ++ [p] }

namespace OrderService

/-- `OrderCreateRequest` (`trader/order/schema.py`); pydantic validates
`price > 0` (2 decimal places) and `quantity > 0` before the service
sees it. -/
structure OrderCreateRequest where
  stock_id : Nat
  price : Rat
  quantity : Int
deriving DecidableEq, Repr

/-- `OrderUpdateRequest`: optional new price / quantity, both validated
positive by pydantic when present. -/
structure OrderUpdateRequest where
  price : Option Rat
  quantity : Option Int
deriving DecidableEq, Repr

/-- `OrderService.check_stock_validity`: joins `Stock` with `StockPrice`
on `Stock.id == StockPrice.stock_id`, filtered to the given id and
`is_active == True`; raises `InvalidStockError` when no row results. -/
def check_stock_validity (s : EngineState) (stock_id : Nat) :
    Except Err (StockRow × StockPriceRow) :=
  match s.stocks.find? (fun st => st.id == stock_id && st.is_active) with
  | none => .error .invalidStock
  | some st =>
    match findStockPrice s stock_id with
    | none => .error .invalidStock
    | some pr => .ok (st, pr)

/-- `OrderService.check_user_balance`: raises `InvalidOrderError` when
the user is absent and `InsufficientBalanceError` when
`balance < required_amount`. -/
def check_user_balance (s : EngineState) (user_id : Nat) (required_amount : Rat) :
    Except Err UserRow :=
  match findUser s user_id with
  | none => .error .invalidOrder
  | some u =>
    if u.balance < required_amount then .error .insufficientBalance else .ok u

/-- `OrderService.check_user_holdings`: raises `InsufficientStockError`
when the portfolio row is absent or
`portfolio.quantity - portfolio.hold_quantity < quantity`. -/
def check_user_holdings (s : EngineState) (user_id stock_id : Nat) (quantity : Int) :
    Except Err PortfolioRow :=
  match findPortfolio s user_id stock_id with
  | none => .error .insufficientStock
  | some p =>
    if p.quantity - p.hold_quantity < quantity then .error .insufficientStock else .ok p

/-- `OrderService.create_buy_order` (without its `@transaction`
wrapper): validates the stock, computes `order_amount`, checks the
balance, inserts the order (`INITIAL`, then set to `PENDING`), two
history rows, debits the user's balance, and calls
`send_to_order_queue` — which is `pass` in the source, so the queue is
untouched.  No `AccountTransaction` row is created anywhere in this
function. -/
def create_buy_order (s : EngineState) (user_id : Nat) (req : OrderCreateRequest) :
    Except Err EngineState :=
  match check_stock_validity s req.stock_id with
  | .error e => .error e
  | .ok _ =>
    let order_amount : Rat := req.price * (req.quantity : Rat)
    match check_user_balance s user_id order_amount with
    | .error e => .error e
    | .ok _ =>
      let order_id := s.next_id
      let order : Order :=
        { id := order_id, user_id := user_id, stock_id := req.stock_id,
          order_type := .buy, status := .initial, price := req.price,
          quantity := req.quantity, filled_quantity := 0,
          total_amount := order_amount, retry_count := 0 }
      let s1 := { s with orders := s.orders ++ [order], next_id := s.next_id + 1 }
      let s2 := appendHistory s1
        { order_id := order_id, previous_status := none,
          current_status := .initial, note := "Buy order created" }
      let s3 := updateUserRow s2 user_id
        (fun u => { u with balance := u.balance - order_amount })
      let s4 := updateOrderRow s3 order_id (fun o => { o with status := .pending })
      let s5 := appendHistory s4
        { order_id := order_id, previous_status := some .initial,
          current_status := .pending, note := "Processing buy order" }
      .ok s5

/-- `OrderService.create_sell_order` (without its `@transaction`
wrapper): validates the stock, checks holdings availability, inserts
the order and history rows, and raises `hold_quantity` by the requested
quantity; the queue publish is again the `pass` stub. -/
def create_sell_order (s : EngineState) (user_id : Nat) (req : OrderCreateRequest) :
    Except Err EngineState :=
  match check_stock_validity s req.stock_id with
  | .error e => .error e
  | .ok _ =>
    let order_amount : Rat := req.price * (req.quantity : Rat)
    match check_user_holdings s user_id req.stock_id req.quantity with
    | .error e => .error e
    | .ok _ =>
      let order_id := s.next_id
      let order : Order :=
        { id := order_id, user_id := user_id, stock_id := req.stock_id,
          order_type := .sell, status := .initial, price := req.price,
          quantity := req.quantity, filled_quantity := 0,
          total_amount := order_amount, retry_count := 0 }
      let s1 := { s with orders := s.orders ++ [order], next_id := s.next_id + 1 }
      let s2 := appendHistory s1
        { order_id := order_id, previous_status := none,
          current_status := .initial, note := "Sell order created" }
      let s3 := updatePortfolioRow s2 user_id req.stock_id
        (fun p => { p with hold_quantity := p.hold_quantity + req.quantity })
      let s4 := updateOrderRow s3 order_id (fun o => { o with status := .pending })
      let s5 := appendHistory s4
        { order_id := order_id, previous_status := some .initial,
          current_status := .pending, note := "Processing sell order" }
      .ok s5

/-- `OrderService.cancel_order` (without its `@transaction` wrapper):
raises `InvalidOrderError` when the (order, stock) join filtered by
owner yields nothing or when the status is not cancelable; for BUY it
refunds `price * (quantity - filled_quantity)` to the user's balance
when the user row exists (no ledger row is written); for SELL it
releases the unfilled hold only when the portfolio row exists and
`hold_quantity >= release_quantity`; finally sets the status to
`CANCELLED` and appends one history row. -/
def cancel_order (s : EngineState) (order_id user_id : Nat) : Except Err EngineState :=
  match findOrderStockOwned s order_id user_id with
  | none => .error .invalidOrder
  | some (order, _stock) =>
    if order.status == .initial || order.status == .pending ||
        order.status == .failed || order.status == .retrying then
      let previous_status := order.status
      let s1 :=
        match order.order_type with
        | .buy =>
          let refund_quantity := order.quantity - order.filled_quantity
          let refund_amount := order.price * (refund_quantity : Rat)
          match findUser s user_id with
          | some _ =>
            updateUserRow s user_id (fun u => { u with balance := u.balance + refund_amount })
          | none => s
        | .sell =>
          let release_quantity := order.quantity - order.filled_quantity
          match findPortfolio s user_id order.stock_id with
          | some p =>
            if p.hold_quantity ≥ release_quantity then
              updatePortfolioRow s user_id order.stock_id
                (fun q => { q with hold_quantity := q.hold_quantity - release_quantity })
            else s
          | none => s
      let s2 := updateOrderRow s1 order_id (fun o => { o with status := .cancelled })
      let s3 := appendHistory s2
        { order_id := order_id, previous_status := some previous_status,
          current_status := .cancelled, note := "Order cancelled by user" }
      .ok s3
    else .error .invalidOrder

/-- `OrderService.update_order` (without its `@transaction` wrapper).
Guards: joined owner lookup, updatable status, `filled_quantity == 0`.
When a new price or quantity is given: for BUY the balance is charged
by `new_total - old_total` when positive (raising
`InsufficientBalanceError` when the user is missing or short) and
refunded when negative (skipped silently when the user row is
missing); for SELL the hold is raised by the delta only when the new
quantity strictly exceeds the old one (raising
`InsufficientStockError` when the portfolio is missing or
`quantity - hold_quantity + old_quantity < new_quantity`) — a shrink
leaves the hold untouched.  The order row then takes the new price,
quantity and total, and one history row is appended. -/
def update_order (s : EngineState) (order_id user_id : Nat) (request : OrderUpdateRequest) :
    Except Err EngineState :=
  match findOrderStockOwned s order_id user_id with
  | none => .error .invalidOrder
  | some (order, _stock) =>
    if !(order.status == .initial || order.status == .pending ||
        order.status == .failed || order.status == .retrying) then .error .invalidOrder
    else if order.filled_quantity > 0 then .error .invalidOrder
    else if request.price.isSome || request.quantity.isSome then
      let old_price := order.price
      let old_quantity := order.quantity
      let old_total := order.total_amount
      let new_price := request.price.getD old_price
      let new_quantity := request.quantity.getD old_quantity
      let new_total := new_price * (new_quantity : Rat)
      let afterFunds : Except Err EngineState :=
        match order.order_type with
        | .buy =>
          let additional_amount := new_total - old_total
          if additional_amount > 0 then
            match findUser s user_id with
            | none => .error .insufficientBalance
            | some u =>
              if u.balance < additional_amount then .error .insufficientBalance
              else .ok (updateUserRow s user_id
                (fun v => { v with balance := v.balance - additional_amount }))
          else if additional_amount < 0 then
            match findUser s user_id with
            | some _ => .ok (updateUserRow s user_id
                (fun v => { v with balance := v.balance - additional_amount }))
            | none => .ok s
          else .ok s
        | .sell =>
          match request.quantity with
          | some rq =>
            if rq > old_quantity then
              let additional_quantity := rq - old_quantity
              match findPortfolio s user_id order.stock_id with
              | none => .error .insufficientStock
              | some p =>
                let available_quantity := p.quantity - p.hold_quantity + old_quantity
                if available_quantity < rq then .error .insufficientStock
                else .ok (updatePortfolioRow s user_id order.stock_id
                  (fun q => { q with hold_quantity := q.hold_quantity + additional_quantity }))
            else .ok s
          | none => .ok s
      match afterFunds with
      | .error e => .error e
      | .ok s1 =>
        let s2 := updateOrderRow s1 order_id
          (fun o => { o with
                      price := new_price, quantity := new_quantity,
                      total_amount := new_total })
        let s3 := appendHistory s2
          { order_id := order_id, previous_status := some order.status,
            current_status := order.status,
            note := "Order updated: price=" ++ toString new_price ++
              ", quantity=" ++ toString new_quantity }
        .ok s3
    else .ok s

/-- `OrderService.process_order` (without its `@transaction` wrapper).
Raises `InvalidOrderError` when the joined lookup fails or the status
is not in `{PENDING, RETRYING}`.  With no price row: marks the order
`FAILED`, bumps `retry_count`, appends history, and cascades into
`cancel_order` when the bumped count reaches 3.  With a price row: a
fill is eligible when BUY and `price >= current` or SELL and
`price <= current`; an eligible fill writes one `Transaction` row,
updates or creates the portfolio (BUY) or decrements quantity and hold
and credits the balance when the user row exists (SELL — with *no*
ledger row), adds the executed quantity to `filled_quantity`, and on
full fill sets `SUCCESS` and appends a history row whose
`previous_status` reads the already-updated status (hence `SUCCESS`).
An ineligible fill bumps `retry_count` and either cascades into
`cancel_order` (count ≥ 3) or marks `RETRYING` with history. -/
def process_order (s : EngineState) (order_id : Nat) : Except Err EngineState :=
  match findOrderStock s order_id with
  | none => .error .invalidOrder
  | some (order, _stock) =>
    if !(order.status == .pending || order.status == .retrying) then .error .invalidOrder
    else
      match findStockPrice s order.stock_id with
      | none =>
        let s1 := updateOrderRow s order_id
          (fun o => { o with status := .failed, retry_count := o.retry_count + 1 })
        let s2 := appendHistory s1
          { order_id := order_id,
            previous_status := some (if order.retry_count + 1 == 1 then .pending else .retrying),
            current_status := .failed,
            note := "Failed to process order: price information not available" }
        if order.retry_count + 1 ≥ 3 then cancel_order s2 order_id order.user_id
        else .ok s2
      | some price_data =>
        let current_price := price_data.current_price
        let order_executed : Bool :=
          (order.order_type == .buy && decide (order.price ≥ current_price)) ||
          (order.order_type == .sell && decide (order.price ≤ current_price))
        if order_executed then
          let executed_quantity := order.quantity - order.filled_quantity
          let execution_price := current_price
          let execution_amount := execution_price * (executed_quantity : Rat)
          let s1 := appendTransaction s
            { order_id := order_id, user_id := order.user_id, stock_id := order.stock_id,
              transaction_type := order.order_type, price := execution_price,
              quantity := executed_quantity, amount := execution_amount, is_complete := true }
          let s2 :=
            match order.order_type with
            | .buy =>
              match findPortfolio s1 order.user_id order.stock_id with
              | none =>
                appendPortfolio s1
                  { user_id := order.user_id, stock_id := order.stock_id,
                    quantity := executed_quantity, avg_purchase_price := execution_price,
                    total_purchase_amount := execution_amount, hold_quantity := 0 }
              | some p =>
                let total_quantity := p.quantity + executed_quantity
                let total_amount := p.total_purchase_amount + execution_amount
                updatePortfolioRow s1 order.user_id order.stock_id
                  (fun q => { q with
                              quantity := total_quantity,
                              total_purchase_amount := total_amount,
                              avg_purchase_price := total_amount / (total_quantity : Rat) })
            | .sell =>
              match findPortfolio s1 order.user_id order.stock_id with
              | some _ =>
                let s2a := updatePortfolioRow s1 order.user_id order.stock_id
                  (fun p => { p with
                              quantity := p.quantity - executed_quantity,
                              hold_quantity := p.hold_quantity - executed_quantity })
                match findUser s2a order.user_id with
                | some _ => updateUserRow s2a order.user_id
                    (fun u => { u with balance := u.balance + execution_amount })
                | none => s2a
              | none => s1
          let s3 := updateOrderRow s2 order_id
            (fun o => { o with filled_quantity := o.filled_quantity + executed_quantity })
          if order.filled_quantity + executed_quantity ≥ order.quantity then
            let s4 := updateOrderRow s3 order_id (fun o => { o with status := .success })
            let s5 := appendHistory s4
              { order_id := order_id, previous_status := some .success,
                current_status := .success,
                note := "Order fully executed at price " ++ toString execution_price }
            .ok s5
          else .ok s3
        else
          let retry := order.retry_count + 1
          let s1 := updateOrderRow s order_id
            (fun o => { o with retry_count := o.retry_count + 1 })
          if retry ≥ 3 then cancel_order s1 order_id order.user_id
          else
            let s2 := updateOrderRow s1 order_id (fun o => { o with status := .retrying })
            let s3 := appendHistory s2
              { order_id := order_id,
                previous_status := some (if retry == 1 then .pending else .retrying),
                current_status := .retrying,
                note := "Retry " ++ toString retry ++ ": Order price " ++
                  toString order.price ++ " does not match market price " ++
                  toString current_price }
            .ok s3

end OrderService

namespace KafkaConsumerContext

/-- `KafkaConsumerContext.auto_cancel_order` (`trader/context/kafka/ctx.py`,
lines 389-462).  It runs inside the session opened by `process_order`,
whose transaction-start state is `s0`; `s` is the current (pending)
state.  No status guard: for BUY it refunds the unfilled amount when
the user row exists and then constructs
`AccountTransaction(..., related_order_id=order_id)` — a keyword the
model does not define, so the declarative constructor raises
`TypeError`, which the function's own `except Exception` handler turns
into `session.rollback()`, discarding every pending write back to `s0`
and returning normally.  When the user row is absent (BUY), or for
SELL (which conditionally releases the hold and writes no ledger row),
it sets `CANCELLED`, appends history and commits. -/
def auto_cancel_order (s0 s : EngineState) (order_id : Nat) : EngineState :=
  match findOrderStock s order_id with
  | none => s
  | some (order, _stock) =>
    let previous_status := order.status
    let finish : EngineState → EngineState := fun sf =>
      let sc := updateOrderRow sf order_id (fun o => { o with status := .cancelled })
      appendHistory sc
        { order_id := order_id, previous_status := some previous_status,
          current_status := .cancelled,
          note := "Order auto-cancelled after maximum retry attempts" }
    match order.order_type with
    | .buy =>
      match findUser s order.user_id with
      | some _ => s0
      | none => finish s
    | .sell =>
      let release_quantity := order.quantity - order.filled_quantity
      match findPortfolio s order.user_id order.stock_id with
      | some p =>
        if p.hold_quantity ≥ release_quantity then
          finish (updatePortfolioRow s order.user_id order.stock_id
            (fun q => { q with hold_quantity := q.hold_quantity - release_quantity }))
        else finish s
      | none => finish s

/-- `KafkaConsumerContext.process_order` (`trader/context/kafka/ctx.py`,
lines 226-387, `@transaction`-wrapped; `s` is also the transaction-start
state).  Unlike the service copy it *returns* silently when the joined
lookup fails or the status is outside `{PENDING, RETRYING}`.  The
missing-price and ineligible paths mirror the service copy except that
the retry-threshold cascade calls `auto_cancel_order`.  The eligible
SELL fill additionally constructs
`AccountTransaction(..., related_order_id=order_id)` after crediting
the balance; that constructor call raises `TypeError` (unknown
keyword), which only the `except SQLAlchemyError` clause could catch,
so it propagates out of the function and the enclosing transaction is
rolled back.  The full-fill history here records
`PENDING`/`RETRYING` as the previous status (not `SUCCESS` as in the
service copy). -/
def process_order (s : EngineState) (order_id : Nat) : Except Err EngineState :=
  match findOrderStock s order_id with
  | none => .ok s
  | some (order, _stock) =>
    if !(order.status == .pending || order.status == .retrying) then .ok s
    else
      match findStockPrice s order.stock_id with
      | none =>
        let s1 := updateOrderRow s order_id
          (fun o => { o with status := .failed, retry_count := o.retry_count + 1 })
        let s2 := appendHistory s1
          { order_id := order_id,
            previous_status := some (if order.retry_count + 1 == 1 then .pending else .retrying),
            current_status := .failed,
            note := "Failed to process order: price information not available" }
        if order.retry_count + 1 ≥ 3 then .ok (auto_cancel_order s s2 order_id)
        else .ok s2
      | some price_data =>
        let current_price := price_data.current_price
        let order_executed : Bool :=
          (order.order_type == .buy && decide (order.price ≥ current_price)) ||
          (order.order_type == .sell && decide (order.price ≤ current_price))
        if order_executed then
          let executed_quantity := order.quantity - order.filled_quantity
          let execution_price := current_price
          let execution_amount := execution_price * (executed_quantity : Rat)
          let s1 := appendTransaction s
            { order_id := order_id, user_id := order.user_id, stock_id := order.stock_id,
              transaction_type := order.order_type, price := execution_price,
              quantity := executed_quantity, amount := execution_amount, is_complete := true }
          let holdings : Except Err EngineState :=
            match order.order_type with
            | .buy =>
              match findPortfolio s1 order.user_id order.stock_id with
              | none =>
                .ok (appendPortfolio s1
                  { user_id := order.user_id, stock_id := order.stock_id,
                    quantity := executed_quantity, avg_purchase_price := execution_price,
                    total_purchase_amount := execution_amount, hold_quantity := 0 })
              | some p =>
                let total_quantity := p.quantity + executed_quantity
                let total_amount := p.total_purchase_amount + execution_amount
                .ok (updatePortfolioRow s1 order.user_id order.stock_id
                  (fun q => { q with
                              quantity := total_quantity,
                              total_purchase_amount := total_amount,
                              avg_purchase_price := total_amount / (total_quantity : Rat) }))
            | .sell =>
              match findPortfolio s1 order.user_id order.stock_id with
              | some _ =>
                let s2a := updatePortfolioRow s1 order.user_id order.stock_id
                  (fun p => { p with
                              quantity := p.quantity - executed_quantity,
                              hold_quantity := p.hold_quantity - executed_quantity })
                match findUser s2a order.user_id with
                | some _ => .error .typeError
                | none => .ok s2a
              | none => .ok s1
          match holdings with
          | .error e => .error e
          | .ok s2 =>
            let s3 := updateOrderRow s2 order_id
              (fun o => { o with filled_quantity := o.filled_quantity + executed_quantity })
            if order.filled_quantity + executed_quantity ≥ order.quantity then
              let s4 := updateOrderRow s3 order_id (fun o => { o with status := .success })
              let s5 := appendHistory s4
                { order_id := order_id,
                  previous_status := some (if order.retry_count == 0 then .pending else .retrying),
                  current_status := .success,
                  note := "Order fully executed at price " ++ toString execution_price }
              .ok s5
            else .ok s3
        else
          let retry := order.retry_count + 1
          let s1 := updateOrderRow s order_id
            (fun o => { o with retry_count := o.retry_count + 1 })
          if retry ≥ 3 then .ok (auto_cancel_order s s1 order_id)
          else
            let s2 := updateOrderRow s1 order_id (fun o => { o with status := .retrying })
            let s3 := appendHistory s2
              { order_id := order_id,
                previous_status := some (if retry == 1 then .pending else .retrying),
                current_status := .retrying,
                note := "Retry " ++ toString retry ++ ": Order price " ++
                  toString order.price ++ " does not match market price " ++
                  toString current_price }
            .ok s3

/-- `KafkaConsumerContext.reset_order_processing` (`order.update` event,
`@transaction`-wrapped): returns silently when the order is absent or
not in `{PENDING, RETRYING}`; otherwise zeroes `retry_count`, sets
`PENDING`, and appends a history row whose `previous_status` reads
`order.status` *after* the `PENDING` assignment, hence is always
`PENDING`. -/
def reset_order_processing (s : EngineState) (order_id : Nat) : Except Err EngineState :=
  match findOrder s order_id with
  | none => .ok s
  | some order =>
    if order.status == .pending || order.status == .retrying then
      let s1 := updateOrderRow s order_id
        (fun o => { o with retry_count := 0, status := .pending })
      .ok (appendHistory s1
        { order_id := order_id, previous_status := some .pending,
          current_status := .pending, note := "Order processing reset after update" })
    else .ok s

end KafkaConsumerContext

/-- Session state of `trader/context/db/ctx.py`: the database state
already committed, and the pending state holding the session's
uncommitted writes. -/
structure DBSession where
  committed : EngineState
  pending : EngineState
deriving DecidableEq, Repr

/-- `AsyncSession.rollback()`: pending writes are discarded. -/
def sessionRollback (ss : DBSession) : DBSession :=
  { ss with pending := ss.committed }

/-- `AsyncSession.commit()`: pending writes become committed. -/
def sessionCommit (ss : DBSession) : DBSession :=
  { ss with committed := ss.pending }

/-- `Session.__aexit__` as used by the `transaction` decorator
(`commit_on_exit=True`): when an exception is in flight the session is
first rolled back; then, unconditionally, `commit_on_exit` commits —
after a rollback this commits the now-empty transaction, so an errored
unit of work leaves the committed state untouched. -/
def sessionAexit (errored : Bool) (ss : DBSession) : DBSession :=
  let ss1 := if errored then sessionRollback ss else ss
  sessionCommit ss1

/-- The `transaction` decorator of `trader/globals.py`: the wrapped
coroutine runs inside `async with sql.run_session(commit_on_exit=True)`;
the result is the propagated exception (if any) together with the
committed database state after `__aexit__`. -/
def transactionRun (f : EngineState → Except Err EngineState) (db : EngineState) :
    Option Err × EngineState :=
  match f db with
  | .error e => (some e, (sessionAexit true { committed := db, pending := db }).committed)
  | .ok s2 => (none, (sessionAexit false { committed := db, pending := s2 }).committed)

/-- Committed state after delivering one processing request to
`OrderService.process_order` through its `@transaction` wrapper. -/
def runService (s : EngineState) (oid : Nat) : EngineState :=
  (transactionRun (fun st => OrderService.process_order st oid) s).2

/-- Committed state after delivering one processing request to
`KafkaConsumerContext.process_order` through its `@transaction`
wrapper (the consumer's `run` loop swallows the propagated exception
without acknowledging the message). -/
def runCtx (s : EngineState) (oid : Nat) : EngineState :=
  (transactionRun (fun st => KafkaConsumerContext.process_order st oid) s).2

/-- The state with the history log erased: the observable part compared
by the refinement claim (order rows, fill records, users, ledger,
portfolios, reference data, queue, id counter). -/
def projState (s : EngineState) : EngineState :=
  { s with order_histories := [] }

/-- One externally triggered engine operation: the gateway calls
(create buy/sell, cancel, update), a processing request delivered to
either copy of `process_order`, and the `order.update` event handler. -/
inductive EngineOp where
  | createBuy (user_id : Nat) (req : OrderService.OrderCreateRequest)
  | createSell (user_id : Nat) (req : OrderService.OrderCreateRequest)
  | cancel (order_id user_id : Nat)
  | update (order_id user_id : Nat) (req : OrderService.OrderUpdateRequest)
  | processService (order_id : Nat)
  | processConsumer (order_id : Nat)
  | resetProcessing (order_id : Nat)
deriving DecidableEq, Repr

/-- Committed state after one engine operation through its
`@transaction` wrapper (an operation that raises commits nothing). -/
def stepOp (s : EngineState) (op : EngineOp) : EngineState :=
  match op with
  | .createBuy uid req =>
    (transactionRun (fun st => OrderService.create_buy_order st uid req) s).2
  | .createSell uid req =>
    (transactionRun (fun st => OrderService.create_sell_order st uid req) s).2
  | .cancel oid uid =>
    (transactionRun (fun st => OrderService.cancel_order st oid uid) s).2
  | .update oid uid req =>
    (transactionRun (fun st => OrderService.update_order st oid uid req) s).2
  | .processService oid => runService s oid
  | .processConsumer oid => runCtx s oid
  | .resetProcessing oid =>
    (transactionRun (fun st => KafkaConsumerContext.reset_order_processing st oid) s).2

/-- Committed state after a sequence of engine operations. -/
def runOps (s : EngineState) (ops : List EngineOp) : EngineState :=
  ops.foldl stepOp s

/-- The pydantic bounds on `OrderCreateRequest`
(`price: gt=0`, `quantity: gt=0`). -/
def WFCreate (req : OrderService.OrderCreateRequest) : Prop :=
  0 < req.price ∧ 0 < req.quantity

/-- The pydantic bounds on `OrderUpdateRequest` (both fields optional,
positive when present). -/
def WFUpdate (req : OrderService.OrderUpdateRequest) : Prop :=
  (∀ p, req.price = some p → 0 < p) ∧ (∀ q, req.quantity = some q → 0 < q)

/-- An engine operation whose request payload passed schema
validation. -/
def WFOp : EngineOp → Prop
  | .createBuy _ req => WFCreate req
  | .createSell _ req => WFCreate req
  | .update _ _ req => WFUpdate req
  | _ => True

/-- A non-terminal order status (everything except `SUCCESS` and
`CANCELLED`): such an order still owns its reservation. -/
def isActiveStatus (st : OrderStatus) : Bool :=
  st == .initial || st == .pending || st == .failed || st == .retrying

/-- The hold contributed by one order to the (user, stock) pair: the
unfilled quantity of a non-terminal sell order, else 0. -/
def sellTerm (uid sid : Nat) (o : Order) : Int :=
  if o.user_id == uid && o.stock_id == sid && o.order_type == .sell &&
      isActiveStatus o.status
  then o.quantity - o.filled_quantity else 0

/-- Total unfilled quantity of non-terminal sell orders for a
(user, stock) pair, over an order list. -/
def outstandingL (orders : List Order) (uid sid : Nat) : Int :=
  (orders.map (sellTerm uid sid)).sum

/-- Total unfilled quantity of non-terminal sell orders for a
(user, stock) pair. -/
def outstanding (s : EngineState) (uid sid : Nat) : Int :=
  outstandingL s.orders uid sid

/-- The hold bound of the claim (also the table constraint
`chk_valid_hold_quantity`): every portfolio row has
`0 <= hold_quantity <= quantity`. -/
def HoldBound (s : EngineState) : Prop :=
  ∀ p ∈ s.portfolios, 0 ≤ p.hold_quantity ∧ p.hold_quantity ≤ p.quantity

/-- The inductive invariant over the order and portfolio tables and the
id counter: the hold bound, holds covering the outstanding sell
reservations, order fill bounds (`chk_valid_filled_quantity`), active
sell orders backed by a portfolio row, id freshness/uniqueness, and
uniqueness of the (user, stock) portfolio key
(`uq_user_stock_portfolio`). -/
def InvD (orders : List Order) (portfolios : List PortfolioRow) (nid : Nat) : Prop :=
  (∀ p ∈ portfolios,
      0 ≤ p.hold_quantity ∧ p.hold_quantity ≤ p.quantity ∧
      outstandingL orders p.user_id p.stock_id ≤ p.hold_quantity) ∧
  (∀ o ∈ orders, 0 ≤ o.filled_quantity ∧ o.filled_quantity ≤ o.quantity) ∧
  (∀ o ∈ orders, o.order_type = .sell → isActiveStatus o.status →
      (portfolios.find? (fun p => p.user_id == o.user_id && p.stock_id == o.stock_id)).isSome) ∧
  (∀ o ∈ orders, o.id < nid) ∧
  orders.Pairwise (fun a b => a.id ≠ b.id) ∧
  portfolios.Pairwise (fun a b => ¬(a.user_id = b.user_id ∧ a.stock_id = b.stock_id))

/-- The invariant of a database state. -/
def Inv (s : EngineState) : Prop :=
  InvD s.orders s.portfolios s.next_id

/-! Concrete scenario states used by counterexamples and witnesses.
All of them involve user 1, stock 7 and order 5. -/

/-- A minimal database: one active stock (id 7), the given orders,
users, portfolios and price rows, empty logs, uuid counter 100. -/
def mkState (orders : List Order) (users : List UserRow)
    (portfolios : List PortfolioRow) (prices : List StockPriceRow) : EngineState :=
  { orders := orders, order_histories := [], transactions := [], users := users,
    account_transactions := [], portfolios := portfolios,
    stocks := [{ id := 7, company_name := "ACME", is_active := true }],
    stock_prices := prices, queue := [], next_id := 100 }

/-- A pending buy order: 10 shares limit 100, nothing filled. -/
def buyPending : Order :=
  { id := 5, user_id := 1, stock_id := 7, order_type := .buy, status := .pending,
    price := 100, quantity := 10, filled_quantity := 0, total_amount := 1000,
    retry_count := 0 }

/-- A pending sell order: 5 shares limit 100, nothing filled. -/
def sellPending : Order :=
  { id := 5, user_id := 1, stock_id := 7, order_type := .sell, status := .pending,
    price := 100, quantity := 5, filled_quantity := 0, total_amount := 500,
    retry_count := 0 }

/-- User 1 with the given balance. -/
def user1 (b : Rat) : UserRow := { id := 1, balance := b, is_active := true }

/-- A portfolio row of user 1 in stock 7 (bought for 500 in total). -/
def pf17 (q h : Int) : PortfolioRow :=
  { user_id := 1, stock_id := 7, quantity := q, avg_purchase_price := 100,
    total_purchase_amount := 500, hold_quantity := h }

/-- The price snapshot of stock 7 at 100. -/
def price100 : StockPriceRow := { stock_id := 7, current_price := 100 }

/-! Helper lemmas about the embedded query and update primitives. -/

theorem findOrderStock_elim {s : EngineState} {oid : Nat} {o : Order} {st : StockRow}
    (h : findOrderStock s oid = some (o, st)) :
    findOrder s oid = some o ∧ findStock s o.stock_id = some st := by
  unfold findOrderStock at h
  split at h
  · simp at h
  · rename_i o1 h1
    split at h
    · simp at h
    · rename_i st1 h2
      simp only [Option.some.injEq, Prod.mk.injEq] at h
      obtain ⟨rfl, rfl⟩ := h
      exact ⟨h1, h2⟩

theorem findOrderStockOwned_elim {s : EngineState} {oid uid : Nat} {o : Order} {st : StockRow}
    (h : findOrderStockOwned s oid uid = some (o, st)) :
    findOrder s oid = some o ∧ findStock s o.stock_id = some st ∧ o.user_id = uid := by
  unfold findOrderStockOwned at h
  split at h
  · simp at h
  · rename_i o1 st1 h1
    split at h
    · rename_i hu
      simp only [Option.some.injEq, Prod.mk.injEq] at h
      obtain ⟨rfl, rfl⟩ := h
      exact ⟨(findOrderStock_elim h1).1, (findOrderStock_elim h1).2, by simpa using hu⟩
    · simp at h

theorem findOrderStockOwned_intro {s : EngineState} {oid uid : Nat} {o : Order} {st : StockRow}
    (ho : findOrder s oid = some o) (hst : findStock s o.stock_id = some st)
    (hu : o.user_id = uid) :
    findOrderStockOwned s oid uid = some (o, st) := by
  unfold findOrderStockOwned findOrderStock
  rw [ho]
  dsimp only
  rw [hst]
  simp [hu]

theorem find?_map_update {α : Type} (l : List α) (key : α → Bool) (f : α → α)
    (hf : ∀ x, key x = true → key (f x) = true) :
    (l.map (fun x => if key x then f x else x)).find? key = (l.find? key).map f := by
  induction l with
  | nil => simp
  | cons x l ih =>
    by_cases hx : key x
    · simp [hx, hf x hx]
    · simp [hx, ih]

theorem find?_map_other {α : Type} (l : List α) (key upd : α → Bool) (f : α → α)
    (hf : ∀ x, key (f x) = key x) :
    (l.map (fun x => if upd x then f x else x)).find? key =
      (l.find? key).map (fun x => if upd x then f x else x) := by
  induction l with
  | nil => simp
  | cons x l ih =>
    by_cases hx : key x
    · by_cases hu : upd x
      · simp [hx, hu, hf x, hx]
      · simp [hx, hu]
    · by_cases hu : upd x
      · have : key (f x) = false := by rw [hf]; exact (Bool.not_eq_true _).mp hx
        simp [hx, hu, this, ih]
      · simp [hx, hu, ih]

theorem findUser_updateUserRow_self (s : EngineState) (uid : Nat) (f : UserRow → UserRow)
    (hf : ∀ u, (f u).id = u.id) :
    findUser (updateUserRow s uid f) uid = (findUser s uid).map f := by
  unfold findUser updateUserRow
  exact find?_map_update s.users (fun u => u.id == uid) f (by intro u hu; simpa [hf u] using hu)

theorem findOrder_updateOrderRow_self (s : EngineState) (oid : Nat) (f : Order → Order)
    (hf : ∀ o, (f o).id = o.id) :
    findOrder (updateOrderRow s oid f) oid = (findOrder s oid).map f := by
  unfold findOrder updateOrderRow
  exact find?_map_update s.orders (fun o => o.id == oid) f (by intro o ho; simpa [hf o] using ho)

theorem findPortfolio_updatePortfolioRow_self (s : EngineState) (uid sid : Nat)
    (f : PortfolioRow → PortfolioRow)
    (hf : ∀ p, (f p).user_id = p.user_id ∧ (f p).stock_id = p.stock_id) :
    findPortfolio (updatePortfolioRow s uid sid f) uid sid =
      (findPortfolio s uid sid).map f := by
  unfold findPortfolio updatePortfolioRow
  exact find?_map_update s.portfolios (fun p => p.user_id == uid && p.stock_id == sid) f
    (by intro p hp; simpa [(hf p).1, (hf p).2] using hp)

theorem find?_append_none {α : Type} (l : List α) (x : α) (key : α → Bool)
    (h : l.find? key = none) : (l ++ [x]).find? key = if key x then some x else none := by
  induction l with
  | nil =>
    simp only [List.nil_append, List.find?]
    cases hx : key x <;> simp [hx]
  | cons y l ih =>
    simp only [List.find?] at h ⊢
    cases hy : key y with
    | true => rw [hy] at h; exact absurd h (by simp)
    | false =>
      rw [hy] at h
      simpa using ih h

/-! Lookups are unaffected by writes to other tables: one `rfl` lemma
per (query, writer) pair used below. -/

theorem findOrder_appendHistory (s : EngineState) (h : OrderHistoryRow) (oid : Nat) :
    findOrder (appendHistory s h) oid = findOrder s oid := rfl

theorem findOrder_appendTransaction (s : EngineState) (t : TransactionRow) (oid : Nat) :
    findOrder (appendTransaction s t) oid = findOrder s oid := rfl

theorem findOrder_appendAccountTransaction (s : EngineState) (t : AccountTransactionRow)
    (oid : Nat) : findOrder (appendAccountTransaction s t) oid = findOrder s oid := rfl

theorem findOrder_appendPortfolio (s : EngineState) (p : PortfolioRow) (oid : Nat) :
    findOrder (appendPortfolio s p) oid = findOrder s oid := rfl

theorem findOrder_updateUserRow (s : EngineState) (uid : Nat) (f : UserRow → UserRow)
    (oid : Nat) : findOrder (updateUserRow s uid f) oid = findOrder s oid := rfl

theorem findOrder_updatePortfolioRow (s : EngineState) (uid sid : Nat)
    (f : PortfolioRow → PortfolioRow) (oid : Nat) :
    findOrder (updatePortfolioRow s uid sid f) oid = findOrder s oid := rfl

theorem findUser_appendHistory (s : EngineState) (h : OrderHistoryRow) (uid : Nat) :
    findUser (appendHistory s h) uid = findUser s uid := rfl

theorem findUser_appendTransaction (s : EngineState) (t : TransactionRow) (uid : Nat) :
    findUser (appendTransaction s t) uid = findUser s uid := rfl

theorem findUser_appendAccountTransaction (s : EngineState) (t : AccountTransactionRow)
    (uid : Nat) : findUser (appendAccountTransaction s t) uid = findUser s uid := rfl

theorem findUser_appendPortfolio (s : EngineState) (p : PortfolioRow) (uid : Nat) :
    findUser (appendPortfolio s p) uid = findUser s uid := rfl

theorem findUser_updateOrderRow (s : EngineState) (oid : Nat) (f : Order → Order)
    (uid : Nat) : findUser (updateOrderRow s oid f) uid = findUser s uid := rfl

theorem findUser_updatePortfolioRow (s : EngineState) (puid sid : Nat)
    (f : PortfolioRow → PortfolioRow) (uid : Nat) :
    findUser (updatePortfolioRow s puid sid f) uid = findUser s uid := rfl

theorem findStock_appendHistory (s : EngineState) (h : OrderHistoryRow) (sid : Nat) :
    findStock (appendHistory s h) sid = findStock s sid := rfl

theorem findStock_appendTransaction (s : EngineState) (t : TransactionRow) (sid : Nat) :
    findStock (appendTransaction s t) sid = findStock s sid := rfl

theorem findStock_updateOrderRow (s : EngineState) (oid : Nat) (f : Order → Order)
    (sid : Nat) : findStock (updateOrderRow s oid f) sid = findStock s sid := rfl

theorem findStock_updateUserRow (s : EngineState) (uid : Nat) (f : UserRow → UserRow)
    (sid : Nat) : findStock (updateUserRow s uid f) sid = findStock s sid := rfl

theorem findStock_updatePortfolioRow (s : EngineState) (uid psid : Nat)
    (f : PortfolioRow → PortfolioRow) (sid : Nat) :
    findStock (updatePortfolioRow s uid psid f) sid = findStock s sid := rfl

theorem findStockPrice_appendHistory (s : EngineState) (h : OrderHistoryRow) (sid : Nat) :
    findStockPrice (appendHistory s h) sid = findStockPrice s sid := rfl

theorem findStockPrice_updateOrderRow (s : EngineState) (oid : Nat) (f : Order → Order)
    (sid : Nat) : findStockPrice (updateOrderRow s oid f) sid = findStockPrice s sid := rfl

theorem findPortfolio_appendHistory (s : EngineState) (h : OrderHistoryRow) (uid sid : Nat) :
    findPortfolio (appendHistory s h) uid sid = findPortfolio s uid sid := rfl

theorem findPortfolio_appendTransaction (s : EngineState) (t : TransactionRow)
    (uid sid : Nat) : findPortfolio (appendTransaction s t) uid sid = findPortfolio s uid sid :=
  rfl

theorem findPortfolio_updateOrderRow (s : EngineState) (oid : Nat) (f : Order → Order)
    (uid sid : Nat) : findPortfolio (updateOrderRow s oid f) uid sid =
    findPortfolio s uid sid := rfl

theorem findPortfolio_updateUserRow (s : EngineState) (wuid : Nat) (f : UserRow → UserRow)
    (uid sid : Nat) : findPortfolio (updateUserRow s wuid f) uid sid =
    findPortfolio s uid sid := rfl

/-- C3: delivering a processing request for an order whose status is
outside {PENDING, RETRYING} (in particular SUCCESS or CANCELLED) makes
the consumer's `process_order` return without raising and without any
mutation of the state — orders, holdings, ledger and history included —
and the committed state after the transaction wrapper is unchanged, so
any number of redeliveries leaves the state fixed. -/
theorem c3_terminal_redelivery_noop (s : EngineState) (oid : Nat) (o : Order) (st : StockRow)
    (hfind : findOrderStock s oid = some (o, st))
    (hp : o.status ≠ .pending) (hr : o.status ≠ .retrying) :
    KafkaConsumerContext.process_order s oid = .ok s ∧ runCtx s oid = s := by
  have hguard : (o.status == .pending || o.status == .retrying) = false := by
    simp [hp, hr]
  have h1 : KafkaConsumerContext.process_order s oid = .ok s := by
    unfold KafkaConsumerContext.process_order
    rw [hfind]
    simp [hguard]
  refine ⟨h1, ?_⟩
  unfold runCtx transactionRun
  simp only [h1]
  simp [sessionAexit, sessionCommit, sessionRollback]

/-- Witness for C3 at a concrete state: a SUCCESS buy order, redelivery
is an error-free no-op. -/
theorem c3_witness :
    KafkaConsumerContext.process_order
        (mkState [{ buyPending with status := .success }] [user1 0] [] [price100]) 5 =
      .ok (mkState [{ buyPending with status := .success }] [user1 0] [] [price100]) ∧
    runCtx (mkState [{ buyPending with status := .success }] [user1 0] [] [price100]) 5 =
      mkState [{ buyPending with status := .success }] [user1 0] [] [price100] :=
  c3_terminal_redelivery_noop _ 5 { buyPending with status := .success }
    { id := 7, company_name := "ACME", is_active := true }
    (by decide) (by decide) (by decide)

/-- C5 (amended): any error raised inside an operation wrapped by the
`transaction` decorator rolls the enclosing database transaction back
in full — `Session.__aexit__` rolls back and then commits an empty
transaction, so the committed state is exactly the state at entry and
nothing (no Order, OrderHistory, balance or holdings change) becomes
visible; in particular an errored `create_buy_order` commits nothing.
(The publish step `send_to_order_queue` is a no-op stub in the source,
so the enqueue-coupling clause of the original claim is not
established; see the counterexample.) -/
theorem c5_transaction_rolls_back_on_error :
    (∀ (db p : EngineState), (sessionAexit true { committed := db, pending := p }).committed = db) ∧
    (∀ (f : EngineState → Except Err EngineState) (db : EngineState) (e : Err),
        f db = .error e → transactionRun f db = (some e, db)) ∧
    (∀ (s : EngineState) (uid : Nat) (req : OrderService.OrderCreateRequest) (e : Err),
        OrderService.create_buy_order s uid req = .error e →
        stepOp s (.createBuy uid req) = s) := by
  refine ⟨?_, ?_, ?_⟩
  · intro db p
    simp [sessionAexit, sessionRollback, sessionCommit]
  · intro f db e h
    unfold transactionRun
    simp only [h]
    simp [sessionAexit, sessionRollback, sessionCommit]
  · intro s uid req e h
    unfold stepOp transactionRun
    simp only [h]
    simp [sessionAexit, sessionRollback, sessionCommit]

/-- Witness for C5: a buy order from a user with balance 0 fails with
`InsufficientBalanceError` and the committed state is exactly the
entry state. -/
theorem c5_witness :
    transactionRun
        (fun st => OrderService.create_buy_order st 1
          { stock_id := 7, price := 100, quantity := 10 })
        (mkState [] [user1 0] [] [price100]) =
      (some .insufficientBalance, mkState [] [user1 0] [] [price100]) :=
  c5_transaction_rolls_back_on_error.2.1 _ _ .insufficientBalance (by
    norm_num [OrderService.create_buy_order, OrderService.check_stock_validity,
      OrderService.check_user_balance, findUser, findStockPrice, mkState, user1, price100])

/-- Counterexample for C5 as stated: after a *successful*
`create_buy_order` the committed state contains the new order (id 100)
while the processing-request queue is empty — `send_to_order_queue` is
`pass` in the source — so an order does exist without its processing
request having been enqueued. -/
theorem c5_counterexample :
    (findOrder (stepOp (mkState [] [user1 1000] [] [price100])
        (.createBuy 1 { stock_id := 7, price := 100, quantity := 10 })) 100).isSome = true ∧
    (stepOp (mkState [] [user1 1000] [] [price100])
        (.createBuy 1 { stock_id := 7, price := 100, quantity := 10 })).queue = [] := by
  norm_num [stepOp, transactionRun, OrderService.create_buy_order,
    OrderService.check_stock_validity, OrderService.check_user_balance,
    findUser, findStockPrice, findOrder, mkState, user1, price100,
    updateUserRow, updateOrderRow, appendHistory, sessionAexit, sessionCommit,
    sessionRollback]

/-- C2 (amended): a successful `create_buy_order` debits the owner's
balance by exactly `price * quantity` while appending *no*
AccountTransaction ledger entry — the engine never writes an
`ORDER_PAYMENT` ledger row — so replaying a user's ledger entries does
not reproduce the balance. -/
theorem c2_buy_debits_balance_without_ledger_entry
    (s : EngineState) (uid : Nat) (req : OrderService.OrderCreateRequest) (s2 : EngineState)
    (h : OrderService.create_buy_order s uid req = .ok s2) :
    s2.account_transactions = s.account_transactions ∧
    findUser s2 uid = (findUser s uid).map
      (fun u => { u with balance := u.balance - req.price * (req.quantity : Rat) }) := by
  unfold OrderService.create_buy_order at h
  split at h
  · exact absurd h (by simp)
  · dsimp only at h
    split at h
    · exact absurd h (by simp)
    · simp only [Except.ok.injEq] at h
      subst h
      constructor
      · simp [appendHistory, updateOrderRow, updateUserRow]
      · simp only [findUser, appendHistory, updateOrderRow, updateUserRow]
        exact find?_map_update s.users _ _ (by intro u hu; simpa using hu)

/-- Witness for C2 at a concrete state: buying 10 shares at 100 debits
the balance from 1000 to 0 and leaves the (empty) ledger empty. -/
theorem c2_witness :
    ∃ s2, OrderService.create_buy_order (mkState [] [user1 1000] [] [price100]) 1
        { stock_id := 7, price := 100, quantity := 10 } = .ok s2 ∧
      s2.account_transactions = (mkState [] [user1 1000] [] [price100]).account_transactions ∧
      findUser s2 1 = (findUser (mkState [] [user1 1000] [] [price100]) 1).map
        (fun u => { u with balance := u.balance - (100 : Rat) * ((10 : Int) : Rat) }) := by
  have hok : ∃ s2, OrderService.create_buy_order (mkState [] [user1 1000] [] [price100]) 1
      { stock_id := 7, price := 100, quantity := 10 } = .ok s2 := by
    norm_num [OrderService.create_buy_order, OrderService.check_stock_validity,
      OrderService.check_user_balance, findUser, findStockPrice, mkState, user1, price100]
  obtain ⟨s2, hrun⟩ := hok
  have h := c2_buy_debits_balance_without_ledger_entry _ 1 _ s2 hrun
  exact ⟨s2, hrun, h.1, h.2⟩

/-- Counterexample for C2 as stated: a concrete `CreateBuyOrder` run
mutates the balance (1000 to 0) while the ledger stays empty — no
`ORDER_PAYMENT` (or any) AccountTransaction row is appended. -/
theorem c2_counterexample :
    (stepOp (mkState [] [user1 1000] [] [price100])
        (.createBuy 1 { stock_id := 7, price := 100, quantity := 10 })).account_transactions
      = [] ∧
    findUser (stepOp (mkState [] [user1 1000] [] [price100])
        (.createBuy 1 { stock_id := 7, price := 100, quantity := 10 })) 1 = some (user1 0) := by
  norm_num [stepOp, transactionRun, OrderService.create_buy_order,
    OrderService.check_stock_validity, OrderService.check_user_balance,
    findUser, findStockPrice, mkState, user1, price100,
    updateUserRow, updateOrderRow, appendHistory, sessionAexit, sessionCommit,
    sessionRollback]

/-- C1: evaluating the consumer at the claim's scenario — a pending buy
order (funds already reserved: balance 0 after the 1000 debit) whose
security has no price snapshot, with the processing request delivered
three times.  The first delivery marks the order `FAILED` with
`retry_count = 1`; `FAILED` is outside the `{PENDING, RETRYING}` guard,
so the second and third deliveries change nothing.  The order never
reaches `CANCELLED`, the balance is never refunded, and no ledger row
is written — against the claimed
`PENDING→FAILED→FAILED→FAILED→CANCELLED` with a full refund. -/
theorem c1_missing_price_order_stuck_failed :
    findOrder (runCtx (runCtx (runCtx (mkState [buyPending] [user1 0] [] []) 5) 5) 5) 5 =
      some { buyPending with status := .failed, retry_count := 1 } ∧
    runCtx (runCtx (mkState [buyPending] [user1 0] [] []) 5) 5 =
      runCtx (mkState [buyPending] [user1 0] [] []) 5 ∧
    runCtx (runCtx (runCtx (mkState [buyPending] [user1 0] [] []) 5) 5) 5 =
      runCtx (mkState [buyPending] [user1 0] [] []) 5 ∧
    findUser (runCtx (runCtx (runCtx (mkState [buyPending] [user1 0] [] []) 5) 5) 5) 1 =
      some (user1 0) ∧
    (runCtx (runCtx (runCtx (mkState [buyPending] [user1 0] [] []) 5) 5) 5).account_transactions
      = [] := by
  decide

/-- C10: cancellation transitions the order to CANCELLED even when its
compensation cannot be applied, without raising: in `cancel_order`, a
BUY order whose owner's User row is absent is cancelled with the user
table untouched (no refund), and a SELL order whose portfolio row is
absent or whose `hold_quantity` is smaller than the unfilled quantity
is cancelled with the portfolio table untouched (the release is
all-or-nothing); `auto_cancel_order` behaves the same way in those
cases. -/
theorem c10_cancel_without_compensation :
    (∀ (s : EngineState) (oid uid : Nat) (o : Order) (st : StockRow),
      findOrderStockOwned s oid uid = some (o, st) →
      (o.status = .initial ∨ o.status = .pending ∨ o.status = .failed ∨ o.status = .retrying) →
      o.order_type = .buy → findUser s uid = none →
      ∃ s2, OrderService.cancel_order s oid uid = .ok s2 ∧
        s2.users = s.users ∧ s2.portfolios = s.portfolios ∧
        findOrder s2 oid = some { o with status := .cancelled }) ∧
    (∀ (s : EngineState) (oid uid : Nat) (o : Order) (st : StockRow),
      findOrderStockOwned s oid uid = some (o, st) →
      (o.status = .initial ∨ o.status = .pending ∨ o.status = .failed ∨ o.status = .retrying) →
      o.order_type = .sell →
      (findPortfolio s uid o.stock_id = none ∨
        ∃ p, findPortfolio s uid o.stock_id = some p ∧
          p.hold_quantity < o.quantity - o.filled_quantity) →
      ∃ s2, OrderService.cancel_order s oid uid = .ok s2 ∧
        s2.users = s.users ∧ s2.portfolios = s.portfolios ∧
        findOrder s2 oid = some { o with status := .cancelled }) ∧
    (∀ (s0 s : EngineState) (oid : Nat) (o : Order) (st : StockRow),
      findOrderStock s oid = some (o, st) →
      o.order_type = .buy → findUser s o.user_id = none →
      (KafkaConsumerContext.auto_cancel_order s0 s oid).users = s.users ∧
      findOrder (KafkaConsumerContext.auto_cancel_order s0 s oid) oid =
        some { o with status := .cancelled }) ∧
    (∀ (s0 s : EngineState) (oid : Nat) (o : Order) (st : StockRow),
      findOrderStock s oid = some (o, st) →
      o.order_type = .sell →
      (findPortfolio s o.user_id o.stock_id = none ∨
        ∃ p, findPortfolio s o.user_id o.stock_id = some p ∧
          p.hold_quantity < o.quantity - o.filled_quantity) →
      (KafkaConsumerContext.auto_cancel_order s0 s oid).portfolios = s.portfolios ∧
      findOrder (KafkaConsumerContext.auto_cancel_order s0 s oid) oid =
        some { o with status := .cancelled }) := by
  have hcanc : ∀ (o : Order),
      (o.status = .initial ∨ o.status = .pending ∨ o.status = .failed ∨ o.status = .retrying) →
      (o.status == .initial || o.status == .pending ||
        o.status == .failed || o.status == .retrying) = true := by
    intro o h
    rcases h with h | h | h | h <;> simp [h]
  have hfindOrd : ∀ (s : EngineState) (oid : Nat) (o : Order),
      findOrder s oid = some o →
      ∀ h : OrderHistoryRow,
      findOrder (appendHistory (updateOrderRow s oid
        (fun v => { v with status := .cancelled })) h) oid =
        some { o with status := .cancelled } := by
    intro s oid o hfind h
    have hmap := find?_map_update s.orders (fun v => v.id == oid)
      (fun v => { v with status := OrderStatus.cancelled }) (by intro v hv; simpa using hv)
    simp only [findOrder, appendHistory, updateOrderRow] at hfind ⊢
    rw [hmap, hfind]
    rfl
  refine ⟨?_, ?_, ?_, ?_⟩
  · intro s oid uid o st hfind hst hbuy huser
    obtain ⟨ho, hstk, hu⟩ := findOrderStockOwned_elim hfind
    have hbody : OrderService.cancel_order s oid uid = .ok (appendHistory (updateOrderRow s oid
        (fun v => { v with status := .cancelled }))
        { order_id := oid, previous_status := some o.status,
          current_status := .cancelled, note := "Order cancelled by user" }) := by
      unfold OrderService.cancel_order
      rw [hfind]
      dsimp only
      rw [if_pos (hcanc o hst), hbuy]
      dsimp only
      rw [huser]
    refine ⟨_, hbody, ?_, ?_, ?_⟩
    · simp [appendHistory, updateOrderRow]
    · simp [appendHistory, updateOrderRow]
    · exact hfindOrd s oid o ho _
  · intro s oid uid o st hfind hst hsell hpf
    obtain ⟨ho, hstk, hu⟩ := findOrderStockOwned_elim hfind
    have hbody : OrderService.cancel_order s oid uid = .ok (appendHistory (updateOrderRow s oid
        (fun v => { v with status := .cancelled }))
        { order_id := oid, previous_status := some o.status,
          current_status := .cancelled, note := "Order cancelled by user" }) := by
      unfold OrderService.cancel_order
      rw [hfind]
      dsimp only
      rw [if_pos (hcanc o hst), hsell]
      dsimp only
      rcases hpf with hnone | ⟨p, hp, hlt⟩
      · rw [hnone]
      · rw [hp]
        dsimp only
        rw [if_neg (by simpa using not_le.mpr hlt)]
    refine ⟨_, hbody, ?_, ?_, ?_⟩
    · simp [appendHistory, updateOrderRow]
    · simp [appendHistory, updateOrderRow]
    · exact hfindOrd s oid o ho _
  · intro s0 s oid o st hfind hbuy huser
    obtain ⟨ho, hstk⟩ := findOrderStock_elim hfind
    have hbody : KafkaConsumerContext.auto_cancel_order s0 s oid =
        appendHistory (updateOrderRow s oid (fun v => { v with status := .cancelled }))
          { order_id := oid, previous_status := some o.status, current_status := .cancelled,
            note := "Order auto-cancelled after maximum retry attempts" } := by
      unfold KafkaConsumerContext.auto_cancel_order
      rw [hfind]
      dsimp only
      rw [hbuy]
      dsimp only
      rw [huser]
    rw [hbody]
    exact ⟨by simp [appendHistory, updateOrderRow], hfindOrd s oid o ho _⟩
  · intro s0 s oid o st hfind hsell hpf
    obtain ⟨ho, hstk⟩ := findOrderStock_elim hfind
    have hbody : KafkaConsumerContext.auto_cancel_order s0 s oid =
        appendHistory (updateOrderRow s oid (fun v => { v with status := .cancelled }))
          { order_id := oid, previous_status := some o.status, current_status := .cancelled,
            note := "Order auto-cancelled after maximum retry attempts" } := by
      unfold KafkaConsumerContext.auto_cancel_order
      rw [hfind]
      dsimp only
      rw [hsell]
      dsimp only
      rcases hpf with hnone | ⟨p, hp, hlt⟩
      · rw [hnone]
      · rw [hp]
        dsimp only
        rw [if_neg (by simpa using not_le.mpr hlt)]
    rw [hbody]
    exact ⟨by simp [appendHistory, updateOrderRow], hfindOrd s oid o ho _⟩

/-- Witness for C10: a pending BUY order with no user row is cancelled
with no refund by both cancellation paths, and a pending SELL order
over a portfolio holding only 2 of the 5 unfilled shares is cancelled
with the hold untouched by both paths. -/
theorem c10_witness :
    (∃ s2, OrderService.cancel_order (mkState [buyPending] [] [] []) 5 1 = .ok s2 ∧
      s2.users = (mkState [buyPending] [] [] []).users ∧
      s2.portfolios = (mkState [buyPending] [] [] []).portfolios ∧
      findOrder s2 5 = some { buyPending with status := .cancelled }) ∧
    (∃ s2, OrderService.cancel_order (mkState [sellPending] [user1 0] [pf17 5 2] []) 5 1 =
        .ok s2 ∧
      s2.users = (mkState [sellPending] [user1 0] [pf17 5 2] []).users ∧
      s2.portfolios = (mkState [sellPending] [user1 0] [pf17 5 2] []).portfolios ∧
      findOrder s2 5 = some { sellPending with status := .cancelled }) ∧
    ((KafkaConsumerContext.auto_cancel_order (mkState [buyPending] [] [] [])
        (mkState [buyPending] [] [] []) 5).users = (mkState [buyPending] [] [] []).users ∧
      findOrder (KafkaConsumerContext.auto_cancel_order (mkState [buyPending] [] [] [])
        (mkState [buyPending] [] [] []) 5) 5 =
        some { buyPending with status := .cancelled }) ∧
    ((KafkaConsumerContext.auto_cancel_order (mkState [sellPending] [user1 0] [pf17 5 2] [])
        (mkState [sellPending] [user1 0] [pf17 5 2] []) 5).portfolios =
        (mkState [sellPending] [user1 0] [pf17 5 2] []).portfolios ∧
      findOrder (KafkaConsumerContext.auto_cancel_order
        (mkState [sellPending] [user1 0] [pf17 5 2] [])
        (mkState [sellPending] [user1 0] [pf17 5 2] []) 5) 5 =
        some { sellPending with status := .cancelled }) := by
  refine ⟨?_, ?_, ?_, ?_⟩
  · exact c10_cancel_without_compensation.1 _ 5 1 buyPending
      { id := 7, company_name := "ACME", is_active := true }
      (by decide) (Or.inr (Or.inl rfl)) rfl (by decide)
  · exact c10_cancel_without_compensation.2.1 _ 5 1 sellPending
      { id := 7, company_name := "ACME", is_active := true }
      (by decide) (Or.inr (Or.inl rfl)) rfl
      (Or.inr ⟨pf17 5 2, by decide, by decide⟩)
  · exact c10_cancel_without_compensation.2.2.1 _ _ 5 buyPending
      { id := 7, company_name := "ACME", is_active := true }
      (by decide) rfl (by decide)
  · exact c10_cancel_without_compensation.2.2.2 _ _ 5 sellPending
      { id := 7, company_name := "ACME", is_active := true }
      (by decide) rfl (Or.inr ⟨pf17 5 2, by decide, by decide⟩)

/-- C6: `cancel_order` fails with `InvalidOrderError` ("not found")
when the owner-filtered join yields nothing; fails with
`InvalidOrderError` ("invalid state") unless the status is in
{INITIAL, PENDING, FAILED, RETRYING}; otherwise, for BUY with the
owner's user row present it refunds exactly
`price * (quantity - filled_quantity)` to the balance, for SELL with a
sufficiently held portfolio it releases `quantity - filled_quantity`
from the hold; the order becomes CANCELLED and cancelling it again
fails with the invalid-state error. -/
theorem c6_cancel_order_semantics :
    (∀ (s : EngineState) (oid uid : Nat),
      findOrderStockOwned s oid uid = none →
      OrderService.cancel_order s oid uid = .error .invalidOrder) ∧
    (∀ (s : EngineState) (oid uid : Nat) (o : Order) (st : StockRow),
      findOrderStockOwned s oid uid = some (o, st) →
      o.status ≠ .initial → o.status ≠ .pending → o.status ≠ .failed → o.status ≠ .retrying →
      OrderService.cancel_order s oid uid = .error .invalidOrder) ∧
    (∀ (s : EngineState) (oid uid : Nat) (o : Order) (st : StockRow) (u : UserRow),
      findOrderStockOwned s oid uid = some (o, st) →
      (o.status = .initial ∨ o.status = .pending ∨ o.status = .failed ∨ o.status = .retrying) →
      o.order_type = .buy → findUser s uid = some u →
      ∃ s2, OrderService.cancel_order s oid uid = .ok s2 ∧
        findUser s2 uid = some { u with balance :=
          u.balance + o.price * ((o.quantity - o.filled_quantity : Int) : Rat) } ∧
        findOrder s2 oid = some { o with status := .cancelled } ∧
        OrderService.cancel_order s2 oid uid = .error .invalidOrder) ∧
    (∀ (s : EngineState) (oid uid : Nat) (o : Order) (st : StockRow) (p : PortfolioRow),
      findOrderStockOwned s oid uid = some (o, st) →
      (o.status = .initial ∨ o.status = .pending ∨ o.status = .failed ∨ o.status = .retrying) →
      o.order_type = .sell → findPortfolio s uid o.stock_id = some p →
      o.quantity - o.filled_quantity ≤ p.hold_quantity →
      ∃ s2, OrderService.cancel_order s oid uid = .ok s2 ∧
        findPortfolio s2 uid o.stock_id = some { p with hold_quantity :=
          p.hold_quantity - (o.quantity - o.filled_quantity) } ∧
        findOrder s2 oid = some { o with status := .cancelled } ∧
        OrderService.cancel_order s2 oid uid = .error .invalidOrder) := by
  have hcanc : ∀ (o : Order),
      (o.status = .initial ∨ o.status = .pending ∨ o.status = .failed ∨ o.status = .retrying) →
      (o.status == .initial || o.status == .pending ||
        o.status == .failed || o.status == .retrying) = true := by
    intro o h
    rcases h with h | h | h | h <;> simp [h]
  refine ⟨?_, ?_, ?_, ?_⟩
  · intro s oid uid hnone
    unfold OrderService.cancel_order
    rw [hnone]
  · intro s oid uid o st hfind h1 h2 h3 h4
    unfold OrderService.cancel_order
    rw [hfind]
    dsimp only
    rw [if_neg (by simp [h1, h2, h3, h4])]
  · intro s oid uid o st u hfind hst hbuy huser
    obtain ⟨ho, hstk, hu⟩ := findOrderStockOwned_elim hfind
    obtain ⟨s2, hrun⟩ : ∃ s2, OrderService.cancel_order s oid uid = .ok s2 := by
      unfold OrderService.cancel_order
      rw [hfind]
      dsimp only
      rw [if_pos (hcanc o hst), hbuy]
      dsimp only
      rw [huser]
      exact ⟨_, rfl⟩
    obtain ⟨hus, hord, hstks⟩ :
        s2.users = s.users.map (fun v => if v.id == uid then { v with balance :=
          v.balance + o.price * ((o.quantity - o.filled_quantity : Int) : Rat) } else v) ∧
        s2.orders = s.orders.map (fun v => if v.id == oid then
          { v with status := OrderStatus.cancelled } else v) ∧
        s2.stocks = s.stocks := by
      have h2 := hrun
      unfold OrderService.cancel_order at h2
      rw [hfind] at h2
      dsimp only at h2
      rw [if_pos (hcanc o hst), hbuy] at h2
      dsimp only at h2
      rw [huser] at h2
      simp only [Except.ok.injEq] at h2
      subst h2
      refine ⟨?_, ?_, ?_⟩ <;> simp [appendHistory, updateOrderRow, updateUserRow]
    have hfu : findUser s2 uid = some { u with balance :=
        u.balance + o.price * ((o.quantity - o.filled_quantity : Int) : Rat) } := by
      have hmap := find?_map_update s.users (fun v => v.id == uid)
        (fun v => { v with balance :=
          v.balance + o.price * ((o.quantity - o.filled_quantity : Int) : Rat) })
        (by intro v hv; simpa using hv)
      simp only [findUser] at huser ⊢
      rw [hus, hmap, huser]
      rfl
    have hfo : findOrder s2 oid = some { o with status := .cancelled } := by
      have hmap := find?_map_update s.orders (fun v => v.id == oid)
        (fun v => { v with status := OrderStatus.cancelled }) (by intro v hv; simpa using hv)
      simp only [findOrder] at ho ⊢
      rw [hord, hmap, ho]
      rfl
    refine ⟨s2, hrun, hfu, hfo, ?_⟩
    have hstk2 : findStock s2 o.stock_id = some st := by
      simp only [findStock] at hstk ⊢
      rw [hstks]
      exact hstk
    have hfind2 := findOrderStockOwned_intro hfo hstk2 hu
    unfold OrderService.cancel_order
    rw [hfind2]
    dsimp only
    rw [if_neg (by simp)]
  · intro s oid uid o st p hfind hst hsell hpf hle
    obtain ⟨ho, hstk, hu⟩ := findOrderStockOwned_elim hfind
    obtain ⟨s2, hrun⟩ : ∃ s2, OrderService.cancel_order s oid uid = .ok s2 := by
      unfold OrderService.cancel_order
      rw [hfind]
      dsimp only
      rw [if_pos (hcanc o hst), hsell]
      dsimp only
      rw [hpf]
      dsimp only
      rw [if_pos hle]
      exact ⟨_, rfl⟩
    obtain ⟨hpfs, hord, hstks⟩ :
        s2.portfolios = s.portfolios.map
          (fun q => if q.user_id == uid && q.stock_id == o.stock_id then
            { q with hold_quantity :=
              q.hold_quantity - (o.quantity - o.filled_quantity) } else q) ∧
        s2.orders = s.orders.map (fun v => if v.id == oid then
          { v with status := OrderStatus.cancelled } else v) ∧
        s2.stocks = s.stocks := by
      have h2 := hrun
      unfold OrderService.cancel_order at h2
      rw [hfind] at h2
      dsimp only at h2
      rw [if_pos (hcanc o hst), hsell] at h2
      dsimp only at h2
      rw [hpf] at h2
      dsimp only at h2
      rw [if_pos hle] at h2
      simp only [Except.ok.injEq] at h2
      subst h2
      refine ⟨?_, ?_, ?_⟩ <;> simp [appendHistory, updateOrderRow, updatePortfolioRow]
    have hfp : findPortfolio s2 uid o.stock_id = some { p with hold_quantity :=
        p.hold_quantity - (o.quantity - o.filled_quantity) } := by
      have hmap := find?_map_update s.portfolios
        (fun q => q.user_id == uid && q.stock_id == o.stock_id)
        (fun q => { q with hold_quantity :=
          q.hold_quantity - (o.quantity - o.filled_quantity) })
        (by intro q hq; simpa using hq)
      simp only [findPortfolio] at hpf ⊢
      rw [hpfs, hmap, hpf]
      rfl
    have hfo : findOrder s2 oid = some { o with status := .cancelled } := by
      have hmap := find?_map_update s.orders (fun v => v.id == oid)
        (fun v => { v with status := OrderStatus.cancelled }) (by intro v hv; simpa using hv)
      simp only [findOrder] at ho ⊢
      rw [hord, hmap, ho]
      rfl
    refine ⟨s2, hrun, hfp, hfo, ?_⟩
    have hstk2 : findStock s2 o.stock_id = some st := by
      simp only [findStock] at hstk ⊢
      rw [hstks]
      exact hstk
    have hfind2 := findOrderStockOwned_intro hfo hstk2 hu
    unfold OrderService.cancel_order
    rw [hfind2]
    dsimp only
    rw [if_neg (by simp)]

/-- Witness for C6: cancelling a pending BUY order (price 100, qty 10,
owner present with balance 0) refunds 1000 and cancels; cancelling a
pending SELL order (qty 5, hold 5) releases the full hold and cancels;
a second cancel of each fails; and the not-found / bad-status guards
fire at concrete inputs. -/
theorem c6_witness :
    OrderService.cancel_order (mkState [] [] [] []) 5 1 = .error .invalidOrder ∧
    OrderService.cancel_order
      (mkState [{ buyPending with status := .success }] [user1 0] [] []) 5 1 =
      .error .invalidOrder ∧
    (∃ s2, OrderService.cancel_order (mkState [buyPending] [user1 0] [] []) 5 1 = .ok s2 ∧
      findUser s2 1 = some { user1 0 with balance :=
        (user1 0).balance + (100 : Rat) * ((buyPending.quantity -
          buyPending.filled_quantity : Int) : Rat) } ∧
      findOrder s2 5 = some { buyPending with status := .cancelled } ∧
      OrderService.cancel_order s2 5 1 = .error .invalidOrder) ∧
    (∃ s2, OrderService.cancel_order (mkState [sellPending] [user1 0] [pf17 5 5] []) 5 1 =
        .ok s2 ∧
      findPortfolio s2 1 7 = some { pf17 5 5 with hold_quantity :=
        (pf17 5 5).hold_quantity - (sellPending.quantity - sellPending.filled_quantity) } ∧
      findOrder s2 5 = some { sellPending with status := .cancelled } ∧
      OrderService.cancel_order s2 5 1 = .error .invalidOrder) := by
  refine ⟨?_, ?_, ?_, ?_⟩
  · exact c6_cancel_order_semantics.1 _ 5 1 (by decide)
  · exact c6_cancel_order_semantics.2.1 _ 5 1 { buyPending with status := .success }
      { id := 7, company_name := "ACME", is_active := true }
      (by decide) (by decide) (by decide) (by decide) (by decide)
  · exact c6_cancel_order_semantics.2.2.1 _ 5 1 buyPending
      { id := 7, company_name := "ACME", is_active := true } (user1 0)
      (by decide) (Or.inr (Or.inl rfl)) rfl (by decide)
  · exact c6_cancel_order_semantics.2.2.2 _ 5 1 sellPending
      { id := 7, company_name := "ACME", is_active := true } (pf17 5 5)
      (by decide) (Or.inr (Or.inl rfl)) rfl (by decide) (by decide)

/-- C7 (amended): `update_order` fails with `InvalidOrderError` unless
the status is updatable and `filled_quantity = 0`; for BUY it charges
the balance by `new_price * new_quantity - old_price * old_quantity`
when positive (requiring sufficient balance) and refunds it when
negative; for SELL it raises the hold by the quantity delta *only when
the new quantity strictly exceeds the old*, failing
`InsufficientStockError` when the portfolio is missing or the new
quantity exceeds `quantity - hold_quantity + old_quantity`; when the
quantity shrinks (or only the price changes) the hold and portfolio are
left untouched. -/
theorem c7_update_order_semantics :
    (∀ (s : EngineState) (oid uid : Nat) (o : Order) (st : StockRow)
        (request : OrderService.OrderUpdateRequest),
      findOrderStockOwned s oid uid = some (o, st) →
      o.status ≠ .initial → o.status ≠ .pending → o.status ≠ .failed → o.status ≠ .retrying →
      OrderService.update_order s oid uid request = .error .invalidOrder) ∧
    (∀ (s : EngineState) (oid uid : Nat) (o : Order) (st : StockRow)
        (request : OrderService.OrderUpdateRequest),
      findOrderStockOwned s oid uid = some (o, st) →
      (o.status = .initial ∨ o.status = .pending ∨ o.status = .failed ∨ o.status = .retrying) →
      o.filled_quantity > 0 →
      OrderService.update_order s oid uid request = .error .invalidOrder) ∧
    (∀ (s : EngineState) (oid uid : Nat) (o : Order) (st : StockRow)
        (request : OrderService.OrderUpdateRequest) (u : UserRow),
      findOrderStockOwned s oid uid = some (o, st) →
      (o.status = .initial ∨ o.status = .pending ∨ o.status = .failed ∨ o.status = .retrying) →
      o.filled_quantity = 0 →
      (request.price.isSome || request.quantity.isSome) = true →
      o.order_type = .buy →
      o.total_amount = o.price * (o.quantity : Rat) →
      (request.price.getD o.price) * ((request.quantity.getD o.quantity : Int) : Rat) -
        o.total_amount > 0 →
      findUser s uid = some u →
      ¬ u.balance < (request.price.getD o.price) *
        ((request.quantity.getD o.quantity : Int) : Rat) - o.total_amount →
      ∃ s2, OrderService.update_order s oid uid request = .ok s2 ∧
        findUser s2 uid = some { u with balance := u.balance -
          ((request.price.getD o.price) * ((request.quantity.getD o.quantity : Int) : Rat) -
            o.price * (o.quantity : Rat)) } ∧
        findOrder s2 oid = some { o with
          price := request.price.getD o.price,
          quantity := request.quantity.getD o.quantity,
          total_amount := (request.price.getD o.price) *
            ((request.quantity.getD o.quantity : Int) : Rat) } ∧
        s2.portfolios = s.portfolios) ∧
    (∀ (s : EngineState) (oid uid : Nat) (o : Order) (st : StockRow)
        (request : OrderService.OrderUpdateRequest) (u : UserRow),
      findOrderStockOwned s oid uid = some (o, st) →
      (o.status = .initial ∨ o.status = .pending ∨ o.status = .failed ∨ o.status = .retrying) →
      o.filled_quantity = 0 →
      (request.price.isSome || request.quantity.isSome) = true →
      o.order_type = .buy →
      o.total_amount = o.price * (o.quantity : Rat) →
      (request.price.getD o.price) * ((request.quantity.getD o.quantity : Int) : Rat) -
        o.total_amount < 0 →
      findUser s uid = some u →
      ∃ s2, OrderService.update_order s oid uid request = .ok s2 ∧
        findUser s2 uid = some { u with balance := u.balance -
          ((request.price.getD o.price) * ((request.quantity.getD o.quantity : Int) : Rat) -
            o.price * (o.quantity : Rat)) } ∧
        findOrder s2 oid = some { o with
          price := request.price.getD o.price,
          quantity := request.quantity.getD o.quantity,
          total_amount := (request.price.getD o.price) *
            ((request.quantity.getD o.quantity : Int) : Rat) } ∧
        s2.portfolios = s.portfolios) ∧
    (∀ (s : EngineState) (oid uid : Nat) (o : Order) (st : StockRow)
        (request : OrderService.OrderUpdateRequest) (rq : Int) (p : PortfolioRow),
      findOrderStockOwned s oid uid = some (o, st) →
      (o.status = .initial ∨ o.status = .pending ∨ o.status = .failed ∨ o.status = .retrying) →
      o.filled_quantity = 0 →
      request.quantity = some rq →
      rq > o.quantity →
      o.order_type = .sell →
      findPortfolio s uid o.stock_id = some p →
      ¬ p.quantity - p.hold_quantity + o.quantity < rq →
      ∃ s2, OrderService.update_order s oid uid request = .ok s2 ∧
        findPortfolio s2 uid o.stock_id =
          some { p with hold_quantity := p.hold_quantity + (rq - o.quantity) } ∧
        findOrder s2 oid = some { o with
          price := request.price.getD o.price, quantity := rq,
          total_amount := (request.price.getD o.price) * ((rq : Int) : Rat) } ∧
        s2.users = s.users) ∧
    (∀ (s : EngineState) (oid uid : Nat) (o : Order) (st : StockRow)
        (request : OrderService.OrderUpdateRequest) (rq : Int),
      findOrderStockOwned s oid uid = some (o, st) →
      (o.status = .initial ∨ o.status = .pending ∨ o.status = .failed ∨ o.status = .retrying) →
      o.filled_quantity = 0 →
      request.quantity = some rq →
      rq > o.quantity →
      o.order_type = .sell →
      (findPortfolio s uid o.stock_id = none ∨
        ∃ p, findPortfolio s uid o.stock_id = some p ∧
          p.quantity - p.hold_quantity + o.quantity < rq) →
      OrderService.update_order s oid uid request = .error .insufficientStock) ∧
    (∀ (s : EngineState) (oid uid : Nat) (o : Order) (st : StockRow)
        (request : OrderService.OrderUpdateRequest) (rq : Int),
      findOrderStockOwned s oid uid = some (o, st) →
      (o.status = .initial ∨ o.status = .pending ∨ o.status = .failed ∨ o.status = .retrying) →
      o.filled_quantity = 0 →
      request.quantity = some rq →
      ¬ rq > o.quantity →
      o.order_type = .sell →
      ∃ s2, OrderService.update_order s oid uid request = .ok s2 ∧
        s2.portfolios = s.portfolios ∧ s2.users = s.users ∧
        findOrder s2 oid = some { o with
          price := request.price.getD o.price, quantity := rq,
          total_amount := (request.price.getD o.price) * ((rq : Int) : Rat) }) := by
  have hupd : ∀ (o : Order),
      (o.status = .initial ∨ o.status = .pending ∨ o.status = .failed ∨ o.status = .retrying) →
      (o.status == .initial || o.status == .pending ||
        o.status == .failed || o.status == .retrying) = true := by
    intro o h
    rcases h with h | h | h | h <;> simp [h]
  refine ⟨?_, ?_, ?_, ?_, ?_, ?_, ?_⟩
  · intro s oid uid o st request hfind h1 h2 h3 h4
    unfold OrderService.update_order
    rw [hfind]
    dsimp only
    rw [if_pos (by simp [h1, h2, h3, h4])]
  · intro s oid uid o st request hfind hst hfq
    unfold OrderService.update_order
    rw [hfind]
    dsimp only
    rw [if_neg (by simp [hupd o hst]), if_pos hfq]
  · intro s oid uid o st request u hfind hst hfq hsome hbuy htot hpos huser hnlt
    obtain ⟨ho, hstk, hu⟩ := findOrderStockOwned_elim hfind
    obtain ⟨s2, hrun⟩ : ∃ s2, OrderService.update_order s oid uid request = .ok s2 := by
      unfold OrderService.update_order
      rw [hfind]
      dsimp only
      rw [if_neg (by simp [hupd o hst]), if_neg (by simp [hfq]), if_pos hsome, hbuy]
      dsimp only
      rw [if_pos hpos, huser]
      dsimp only
      rw [if_neg hnlt]
      exact ⟨_, rfl⟩
    obtain ⟨hus, hord, hpfs⟩ :
        s2.users = s.users.map (fun v => if v.id == uid then { v with balance :=
          v.balance - ((request.price.getD o.price) *
            ((request.quantity.getD o.quantity : Int) : Rat) - o.total_amount) } else v) ∧
        s2.orders = s.orders.map (fun v => if v.id == oid then { v with
          price := request.price.getD o.price,
          quantity := request.quantity.getD o.quantity,
          total_amount := (request.price.getD o.price) *
            ((request.quantity.getD o.quantity : Int) : Rat) } else v) ∧
        s2.portfolios = s.portfolios := by
      have h2 := hrun
      unfold OrderService.update_order at h2
      rw [hfind] at h2
      dsimp only at h2
      rw [if_neg (by simp [hupd o hst]), if_neg (by simp [hfq]), if_pos hsome, hbuy] at h2
      dsimp only at h2
      rw [if_pos hpos, huser] at h2
      dsimp only at h2
      rw [if_neg hnlt] at h2
      simp only [Except.ok.injEq] at h2
      subst h2
      refine ⟨?_, ?_, ?_⟩ <;> simp [appendHistory, updateOrderRow, updateUserRow]
    have hfu : findUser s2 uid = some { u with balance := u.balance -
        ((request.price.getD o.price) * ((request.quantity.getD o.quantity : Int) : Rat) -
          o.price * (o.quantity : Rat)) } := by
      have hmap := find?_map_update s.users (fun v => v.id == uid)
        (fun v => { v with balance := v.balance - ((request.price.getD o.price) *
          ((request.quantity.getD o.quantity : Int) : Rat) - o.total_amount) })
        (by intro v hv; simpa using hv)
      simp only [findUser] at huser ⊢
      rw [hus, hmap, huser, htot]
      rfl
    have hfo : findOrder s2 oid = some { o with
        price := request.price.getD o.price,
        quantity := request.quantity.getD o.quantity,
        total_amount := (request.price.getD o.price) *
          ((request.quantity.getD o.quantity : Int) : Rat) } := by
      have hmap := find?_map_update s.orders (fun v => v.id == oid)
        (fun v => { v with
          price := request.price.getD o.price,
          quantity := request.quantity.getD o.quantity,
          total_amount := (request.price.getD o.price) *
            ((request.quantity.getD o.quantity : Int) : Rat) })
        (by intro v hv; simpa using hv)
      simp only [findOrder] at ho ⊢
      rw [hord, hmap, ho]
      rfl
    exact ⟨s2, hrun, hfu, hfo, hpfs⟩
  · intro s oid uid o st request u hfind hst hfq hsome hbuy htot hneg huser
    obtain ⟨ho, hstk, hu⟩ := findOrderStockOwned_elim hfind
    have hnpos : ¬ (request.price.getD o.price) *
        ((request.quantity.getD o.quantity : Int) : Rat) - o.total_amount > 0 := by
      intro hcon
      exact absurd hneg (not_lt.mpr (le_of_lt hcon))
    obtain ⟨s2, hrun⟩ : ∃ s2, OrderService.update_order s oid uid request = .ok s2 := by
      unfold OrderService.update_order
      rw [hfind]
      dsimp only
      rw [if_neg (by simp [hupd o hst]), if_neg (by simp [hfq]), if_pos hsome, hbuy]
      dsimp only
      rw [if_neg hnpos, if_pos hneg, huser]
      exact ⟨_, rfl⟩
    obtain ⟨hus, hord, hpfs⟩ :
        s2.users = s.users.map (fun v => if v.id == uid then { v with balance :=
          v.balance - ((request.price.getD o.price) *
            ((request.quantity.getD o.quantity : Int) : Rat) - o.total_amount) } else v) ∧
        s2.orders = s.orders.map (fun v => if v.id == oid then { v with
          price := request.price.getD o.price,
          quantity := request.quantity.getD o.quantity,
          total_amount := (request.price.getD o.price) *
            ((request.quantity.getD o.quantity : Int) : Rat) } else v) ∧
        s2.portfolios = s.portfolios := by
      have h2 := hrun
      unfold OrderService.update_order at h2
      rw [hfind] at h2
      dsimp only at h2
      rw [if_neg (by simp [hupd o hst]), if_neg (by simp [hfq]), if_pos hsome, hbuy] at h2
      dsimp only at h2
      rw [if_neg hnpos, if_pos hneg, huser] at h2
      simp only [Except.ok.injEq] at h2
      subst h2
      refine ⟨?_, ?_, ?_⟩ <;> simp [appendHistory, updateOrderRow, updateUserRow]
    have hfu : findUser s2 uid = some { u with balance := u.balance -
        ((request.price.getD o.price) * ((request.quantity.getD o.quantity : Int) : Rat) -
          o.price * (o.quantity : Rat)) } := by
      have hmap := find?_map_update s.users (fun v => v.id == uid)
        (fun v => { v with balance := v.balance - ((request.price.getD o.price) *
          ((request.quantity.getD o.quantity : Int) : Rat) - o.total_amount) })
        (by intro v hv; simpa using hv)
      simp only [findUser] at huser ⊢
      rw [hus, hmap, huser, htot]
      rfl
    have hfo : findOrder s2 oid = some { o with
        price := request.price.getD o.price,
        quantity := request.quantity.getD o.quantity,
        total_amount := (request.price.getD o.price) *
          ((request.quantity.getD o.quantity : Int) : Rat) } := by
      have hmap := find?_map_update s.orders (fun v => v.id == oid)
        (fun v => { v with
          price := request.price.getD o.price,
          quantity := request.quantity.getD o.quantity,
          total_amount := (request.price.getD o.price) *
            ((request.quantity.getD o.quantity : Int) : Rat) })
        (by intro v hv; simpa using hv)
      simp only [findOrder] at ho ⊢
      rw [hord, hmap, ho]
      rfl
    exact ⟨s2, hrun, hfu, hfo, hpfs⟩
  · intro s oid uid o st request rq p hfind hst hfq hrq hgt hsell hpf hnav
    obtain ⟨ho, hstk, hu⟩ := findOrderStockOwned_elim hfind
    have hsome : (request.price.isSome || request.quantity.isSome) = true := by
      simp [hrq]
    obtain ⟨s2, hrun⟩ : ∃ s2, OrderService.update_order s oid uid request = .ok s2 := by
      unfold OrderService.update_order
      rw [hfind]
      dsimp only
      rw [if_neg (by simp [hupd o hst]), if_neg (by simp [hfq]), if_pos hsome, hsell]
      dsimp only
      rw [hrq]
      dsimp only
      rw [if_pos hgt, hpf]
      dsimp only
      rw [if_neg hnav]
      exact ⟨_, rfl⟩
    obtain ⟨hpfs, hord, hus⟩ :
        s2.portfolios = s.portfolios.map
          (fun q => if q.user_id == uid && q.stock_id == o.stock_id then
            { q with hold_quantity := q.hold_quantity + (rq - o.quantity) } else q) ∧
        s2.orders = s.orders.map (fun v => if v.id == oid then { v with
          price := request.price.getD o.price,
          quantity := request.quantity.getD o.quantity,
          total_amount := (request.price.getD o.price) *
            ((request.quantity.getD o.quantity : Int) : Rat) } else v) ∧
        s2.users = s.users := by
      have h2 := hrun
      unfold OrderService.update_order at h2
      rw [hfind] at h2
      dsimp only at h2
      rw [if_neg (by simp [hupd o hst]), if_neg (by simp [hfq]), if_pos hsome, hsell] at h2
      dsimp only at h2
      rw [hrq] at h2
      dsimp only at h2
      rw [if_pos hgt, hpf] at h2
      dsimp only at h2
      rw [if_neg hnav] at h2
      simp only [Except.ok.injEq] at h2
      subst h2
      refine ⟨?_, ?_, ?_⟩ <;> simp [appendHistory, updateOrderRow, updatePortfolioRow, hrq]
    have hfp : findPortfolio s2 uid o.stock_id =
        some { p with hold_quantity := p.hold_quantity + (rq - o.quantity) } := by
      have hmap := find?_map_update s.portfolios
        (fun q => q.user_id == uid && q.stock_id == o.stock_id)
        (fun q => { q with hold_quantity := q.hold_quantity + (rq - o.quantity) })
        (by intro q hq; simpa using hq)
      simp only [findPortfolio] at hpf ⊢
      rw [hpfs, hmap, hpf]
      rfl
    have hfo : findOrder s2 oid = some { o with
        price := request.price.getD o.price, quantity := rq,
        total_amount := (request.price.getD o.price) * ((rq : Int) : Rat) } := by
      have hmap := find?_map_update s.orders (fun v => v.id == oid)
        (fun v => { v with
          price := request.price.getD o.price,
          quantity := request.quantity.getD o.quantity,
          total_amount := (request.price.getD o.price) *
            ((request.quantity.getD o.quantity : Int) : Rat) })
        (by intro v hv; simpa using hv)
      simp only [findOrder] at ho ⊢
      rw [hord, hmap, ho, hrq]
      rfl
    exact ⟨s2, hrun, hfp, hfo, hus⟩
  · intro s oid uid o st request rq hfind hst hfq hrq hgt hsell hpfbad
    have hsome : (request.price.isSome || request.quantity.isSome) = true := by
      simp [hrq]
    unfold OrderService.update_order
    rw [hfind]
    dsimp only
    rw [if_neg (by simp [hupd o hst]), if_neg (by simp [hfq]), if_pos hsome, hsell]
    dsimp only
    rw [hrq]
    dsimp only
    rw [if_pos hgt]
    rcases hpfbad with hnone | ⟨p, hp, hlt⟩
    · rw [hnone]
    · rw [hp]
      dsimp only
      rw [if_pos hlt]
  · intro s oid uid o st request rq hfind hst hfq hrq hngt hsell
    obtain ⟨ho, hstk, hu⟩ := findOrderStockOwned_elim hfind
    have hsome : (request.price.isSome || request.quantity.isSome) = true := by
      simp [hrq]
    obtain ⟨s2, hrun⟩ : ∃ s2, OrderService.update_order s oid uid request = .ok s2 := by
      unfold OrderService.update_order
      rw [hfind]
      dsimp only
      rw [if_neg (by simp [hupd o hst]), if_neg (by simp [hfq]), if_pos hsome, hsell]
      dsimp only
      rw [hrq]
      dsimp only
      rw [if_neg hngt]
      exact ⟨_, rfl⟩
    obtain ⟨hpfs, hord, hus⟩ :
        s2.portfolios = s.portfolios ∧
        s2.orders = s.orders.map (fun v => if v.id == oid then { v with
          price := request.price.getD o.price,
          quantity := request.quantity.getD o.quantity,
          total_amount := (request.price.getD o.price) *
            ((request.quantity.getD o.quantity : Int) : Rat) } else v) ∧
        s2.users = s.users := by
      have h2 := hrun
      unfold OrderService.update_order at h2
      rw [hfind] at h2
      dsimp only at h2
      rw [if_neg (by simp [hupd o hst]), if_neg (by simp [hfq]), if_pos hsome, hsell] at h2
      dsimp only at h2
      rw [hrq] at h2
      dsimp only at h2
      rw [if_neg hngt] at h2
      simp only [Except.ok.injEq] at h2
      subst h2
      refine ⟨?_, ?_, ?_⟩ <;> simp [appendHistory, updateOrderRow, hrq]
    have hfo : findOrder s2 oid = some { o with
        price := request.price.getD o.price, quantity := rq,
        total_amount := (request.price.getD o.price) * ((rq : Int) : Rat) } := by
      have hmap := find?_map_update s.orders (fun v => v.id == oid)
        (fun v => { v with
          price := request.price.getD o.price,
          quantity := request.quantity.getD o.quantity,
          total_amount := (request.price.getD o.price) *
            ((request.quantity.getD o.quantity : Int) : Rat) })
        (by intro v hv; simpa using hv)
      simp only [findOrder] at ho ⊢
      rw [hord, hmap, ho, hrq]
      rfl
    exact ⟨s2, hrun, hpfs, hus, hfo⟩

/-- Witness for C7: growing a pending BUY order (100 x 10, balance 500)
to 15 shares charges the 500 delta; shrinking a pending SELL order from
10 to 5 shares succeeds but leaves the portfolio (hold 10) untouched. -/
theorem c7_witness :
    (∃ s2, OrderService.update_order (mkState [buyPending] [user1 500] [] []) 5 1
        { price := none, quantity := some 15 } = .ok s2 ∧
      findUser s2 1 = some { user1 500 with balance := (user1 500).balance -
        ((({ price := none, quantity := some 15 } :
            OrderService.OrderUpdateRequest).price.getD buyPending.price) *
          ((({ price := none, quantity := some 15 } :
            OrderService.OrderUpdateRequest).quantity.getD buyPending.quantity : Int) : Rat) -
          buyPending.price * (buyPending.quantity : Rat)) } ∧
      findOrder s2 5 = some { buyPending with
        price := ({ price := none, quantity := some 15 } :
          OrderService.OrderUpdateRequest).price.getD buyPending.price,
        quantity := ({ price := none, quantity := some 15 } :
          OrderService.OrderUpdateRequest).quantity.getD buyPending.quantity,
        total_amount := (({ price := none, quantity := some 15 } :
            OrderService.OrderUpdateRequest).price.getD buyPending.price) *
          ((({ price := none, quantity := some 15 } :
            OrderService.OrderUpdateRequest).quantity.getD buyPending.quantity : Int) : Rat) } ∧
      s2.portfolios = (mkState [buyPending] [user1 500] [] []).portfolios) ∧
    (∃ s2, OrderService.update_order
        (mkState [{ sellPending with quantity := 10, total_amount := 1000 }]
          [user1 0] [pf17 10 10] []) 5 1 { price := none, quantity := some 5 } = .ok s2 ∧
      s2.portfolios = (mkState [{ sellPending with quantity := 10, total_amount := 1000 }]
          [user1 0] [pf17 10 10] []).portfolios ∧
      s2.users = (mkState [{ sellPending with quantity := 10, total_amount := 1000 }]
          [user1 0] [pf17 10 10] []).users ∧
      findOrder s2 5 = some { { sellPending with quantity := 10, total_amount := 1000 } with
        price := ({ price := none, quantity := some 5 } :
          OrderService.OrderUpdateRequest).price.getD
            { sellPending with quantity := 10, total_amount := 1000 }.price,
        quantity := 5,
        total_amount := (({ price := none, quantity := some 5 } :
            OrderService.OrderUpdateRequest).price.getD
            { sellPending with quantity := 10, total_amount := 1000 }.price) *
          ((5 : Int) : Rat) }) := by
  constructor
  · exact c7_update_order_semantics.2.2.1 _ 5 1 buyPending
      { id := 7, company_name := "ACME", is_active := true }
      { price := none, quantity := some 15 } (user1 500)
      (by decide) (Or.inr (Or.inl rfl)) (by decide) (by decide) rfl
      (by norm_num [buyPending]) (by norm_num [buyPending]) (by decide)
      (by norm_num [buyPending, user1])
  · exact c7_update_order_semantics.2.2.2.2.2.2 _ 5 1
      { sellPending with quantity := 10, total_amount := 1000 }
      { id := 7, company_name := "ACME", is_active := true }
      { price := none, quantity := some 5 } 5
      (by decide) (Or.inr (Or.inl rfl)) (by decide) rfl (by decide) rfl

/-- Counterexample for C7 as stated: shrinking a pending SELL order
from 10 to 5 shares succeeds and rewrites the order row, but the
portfolio's `hold_quantity` stays 10 — the unfilled hold is *not*
released by the quantity delta as the claim requires. -/
theorem c7_counterexample :
    findPortfolio (stepOp
      (mkState [{ sellPending with quantity := 10, total_amount := 1000 }]
        [user1 0] [pf17 10 10] [])
      (.update 5 1 { price := none, quantity := some 5 })) 1 7 = some (pf17 10 10) ∧
    findOrder (stepOp
      (mkState [{ sellPending with quantity := 10, total_amount := 1000 }]
        [user1 0] [pf17 10 10] [])
      (.update 5 1 { price := none, quantity := some 5 })) 5 =
      some { sellPending with quantity := 5, total_amount := 500 } ∧
    (pf17 10 10).hold_quantity = 10 := by
  refine ⟨?_, ?_, rfl⟩ <;>
    norm_num [stepOp, transactionRun, OrderService.update_order, findOrderStockOwned,
      findOrderStock, findOrder, findStock, findUser, findPortfolio, mkState, user1,
      price100, sellPending, pf17, updateOrderRow, updatePortfolioRow, appendHistory,
      sessionAexit, sessionCommit, sessionRollback]

/-- C9: on an eligible BUY fill into an existing portfolio row, both
copies of `process_order` recompute the average purchase price as
`(old_total_purchase_amount + execution_amount) / (old_quantity +
matched_quantity)` from the pre-update totals, whose divisor is
non-zero whenever the matched quantity is positive (given the
non-negative stored quantity); on a first buy (no existing row) the new
row carries `avg_purchase_price = execution_price` with no division. -/
theorem c9_avg_price_uses_pre_update_totals :
    (∀ (s : EngineState) (oid : Nat) (o : Order) (st : StockRow) (pr : StockPriceRow)
        (p : PortfolioRow),
      findOrderStock s oid = some (o, st) →
      (o.status = .pending ∨ o.status = .retrying) →
      findStockPrice s o.stock_id = some pr →
      o.order_type = .buy →
      o.price ≥ pr.current_price →
      findPortfolio s o.user_id o.stock_id = some p →
      0 ≤ p.quantity → 0 < o.quantity - o.filled_quantity →
      ((p.quantity + (o.quantity - o.filled_quantity) : Int) ≠ 0 ∧
       ∃ s2, OrderService.process_order s oid = .ok s2 ∧
        findPortfolio s2 o.user_id o.stock_id = some { p with
          quantity := p.quantity + (o.quantity - o.filled_quantity),
          total_purchase_amount := p.total_purchase_amount +
            pr.current_price * ((o.quantity - o.filled_quantity : Int) : Rat),
          avg_purchase_price := (p.total_purchase_amount +
            pr.current_price * ((o.quantity - o.filled_quantity : Int) : Rat)) /
            ((p.quantity + (o.quantity - o.filled_quantity) : Int) : Rat) })) ∧
    (∀ (s : EngineState) (oid : Nat) (o : Order) (st : StockRow) (pr : StockPriceRow),
      findOrderStock s oid = some (o, st) →
      (o.status = .pending ∨ o.status = .retrying) →
      findStockPrice s o.stock_id = some pr →
      o.order_type = .buy →
      o.price ≥ pr.current_price →
      findPortfolio s o.user_id o.stock_id = none →
      ∃ s2, OrderService.process_order s oid = .ok s2 ∧
        findPortfolio s2 o.user_id o.stock_id = some
          { user_id := o.user_id, stock_id := o.stock_id,
            quantity := o.quantity - o.filled_quantity,
            avg_purchase_price := pr.current_price,
            total_purchase_amount :=
              pr.current_price * ((o.quantity - o.filled_quantity : Int) : Rat),
            hold_quantity := 0 }) ∧
    (∀ (s : EngineState) (oid : Nat) (o : Order) (st : StockRow) (pr : StockPriceRow)
        (p : PortfolioRow),
      findOrderStock s oid = some (o, st) →
      (o.status = .pending ∨ o.status = .retrying) →
      findStockPrice s o.stock_id = some pr →
      o.order_type = .buy →
      o.price ≥ pr.current_price →
      findPortfolio s o.user_id o.stock_id = some p →
      0 ≤ p.quantity → 0 < o.quantity - o.filled_quantity →
      ((p.quantity + (o.quantity - o.filled_quantity) : Int) ≠ 0 ∧
       ∃ s2, KafkaConsumerContext.process_order s oid = .ok s2 ∧
        findPortfolio s2 o.user_id o.stock_id = some { p with
          quantity := p.quantity + (o.quantity - o.filled_quantity),
          total_purchase_amount := p.total_purchase_amount +
            pr.current_price * ((o.quantity - o.filled_quantity : Int) : Rat),
          avg_purchase_price := (p.total_purchase_amount +
            pr.current_price * ((o.quantity - o.filled_quantity : Int) : Rat)) /
            ((p.quantity + (o.quantity - o.filled_quantity) : Int) : Rat) })) ∧
    (∀ (s : EngineState) (oid : Nat) (o : Order) (st : StockRow) (pr : StockPriceRow),
      findOrderStock s oid = some (o, st) →
      (o.status = .pending ∨ o.status = .retrying) →
      findStockPrice s o.stock_id = some pr →
      o.order_type = .buy →
      o.price ≥ pr.current_price →
      findPortfolio s o.user_id o.stock_id = none →
      ∃ s2, KafkaConsumerContext.process_order s oid = .ok s2 ∧
        findPortfolio s2 o.user_id o.stock_id = some
          { user_id := o.user_id, stock_id := o.stock_id,
            quantity := o.quantity - o.filled_quantity,
            avg_purchase_price := pr.current_price,
            total_purchase_amount :=
              pr.current_price * ((o.quantity - o.filled_quantity : Int) : Rat),
            hold_quantity := 0 }) := by
  have hguard : ∀ (o : Order), (o.status = .pending ∨ o.status = .retrying) →
      ¬ (!(o.status == OrderStatus.pending || o.status == OrderStatus.retrying)) = true := by
    intro o h
    rcases h with h | h <;> simp [h]
  have hfull : ∀ (o : Order),
      o.filled_quantity + (o.quantity - o.filled_quantity) ≥ o.quantity := by
    intro o; omega
  refine ⟨?_, ?_, ?_, ?_⟩
  · intro s oid o st pr p hfind hstat hpr hbuy hel hpf hq hmatched
    have hexec : ((o.order_type == OrderType.buy && decide (o.price ≥ pr.current_price)) ||
        (o.order_type == OrderType.sell && decide (o.price ≤ pr.current_price))) = true := by
      simp [hbuy, decide_eq_true_eq, hel]
    refine ⟨by omega, ?_⟩
    obtain ⟨s2, hrun⟩ : ∃ s2, OrderService.process_order s oid = .ok s2 := by
      unfold OrderService.process_order
      rw [hfind]
      try dsimp only
      rw [if_neg (hguard o hstat), hpr]
      try dsimp only
      rw [if_pos hexec]
      try dsimp only
      rw [hbuy]
      try dsimp only
      rw [findPortfolio_appendTransaction, hpf]
      try dsimp only
      rw [if_pos (hfull o)]
      exact ⟨_, rfl⟩
    refine ⟨s2, hrun, ?_⟩
    obtain hpfs : s2.portfolios = s.portfolios.map
        (fun q => if q.user_id == o.user_id && q.stock_id == o.stock_id then { q with
          quantity := p.quantity + (o.quantity - o.filled_quantity),
          total_purchase_amount := p.total_purchase_amount +
            pr.current_price * ((o.quantity - o.filled_quantity : Int) : Rat),
          avg_purchase_price := (p.total_purchase_amount +
            pr.current_price * ((o.quantity - o.filled_quantity : Int) : Rat)) /
            ((p.quantity + (o.quantity - o.filled_quantity) : Int) : Rat) } else q) := by
      have h2 := hrun
      unfold OrderService.process_order at h2
      rw [hfind] at h2
      try dsimp only at h2
      rw [if_neg (hguard o hstat), hpr] at h2
      try dsimp only at h2
      rw [if_pos hexec] at h2
      try dsimp only at h2
      rw [hbuy] at h2
      try dsimp only at h2
      rw [findPortfolio_appendTransaction, hpf] at h2
      try dsimp only at h2
      rw [if_pos (hfull o)] at h2
      simp only [Except.ok.injEq] at h2
      subst h2
      simp [appendHistory, appendTransaction, updateOrderRow, updatePortfolioRow]
    have hmap := find?_map_update s.portfolios
      (fun q => q.user_id == o.user_id && q.stock_id == o.stock_id)
      (fun q => { q with
        quantity := p.quantity + (o.quantity - o.filled_quantity),
        total_purchase_amount := p.total_purchase_amount +
          pr.current_price * ((o.quantity - o.filled_quantity : Int) : Rat),
        avg_purchase_price := (p.total_purchase_amount +
          pr.current_price * ((o.quantity - o.filled_quantity : Int) : Rat)) /
          ((p.quantity + (o.quantity - o.filled_quantity) : Int) : Rat) })
      (by intro q hq2; simpa using hq2)
    simp only [findPortfolio] at hpf ⊢
    rw [hpfs, hmap, hpf]
    rfl
  · intro s oid o st pr hfind hstat hpr hbuy hel hpf
    have hexec : ((o.order_type == OrderType.buy && decide (o.price ≥ pr.current_price)) ||
        (o.order_type == OrderType.sell && decide (o.price ≤ pr.current_price))) = true := by
      simp [hbuy, decide_eq_true_eq, hel]
    obtain ⟨s2, hrun⟩ : ∃ s2, OrderService.process_order s oid = .ok s2 := by
      unfold OrderService.process_order
      rw [hfind]
      try dsimp only
      rw [if_neg (hguard o hstat), hpr]
      try dsimp only
      rw [if_pos hexec]
      try dsimp only
      rw [hbuy]
      try dsimp only
      rw [findPortfolio_appendTransaction, hpf]
      try dsimp only
      rw [if_pos (hfull o)]
      exact ⟨_, rfl⟩
    refine ⟨s2, hrun, ?_⟩
    obtain hpfs : s2.portfolios = s.portfolios ++
        [{ user_id := o.user_id, stock_id := o.stock_id,
           quantity := o.quantity - o.filled_quantity,
           avg_purchase_price := pr.current_price,
           total_purchase_amount :=
             pr.current_price * ((o.quantity - o.filled_quantity : Int) : Rat),
           hold_quantity := 0 }] := by
      have h2 := hrun
      unfold OrderService.process_order at h2
      rw [hfind] at h2
      try dsimp only at h2
      rw [if_neg (hguard o hstat), hpr] at h2
      try dsimp only at h2
      rw [if_pos hexec] at h2
      try dsimp only at h2
      rw [hbuy] at h2
      try dsimp only at h2
      rw [findPortfolio_appendTransaction, hpf] at h2
      try dsimp only at h2
      rw [if_pos (hfull o)] at h2
      simp only [Except.ok.injEq] at h2
      subst h2
      simp [appendHistory, appendTransaction, appendPortfolio, updateOrderRow]
    simp only [findPortfolio] at hpf ⊢
    rw [hpfs, find?_append_none _ _ _ hpf]
    simp
  · intro s oid o st pr p hfind hstat hpr hbuy hel hpf hq hmatched
    have hexec : ((o.order_type == OrderType.buy && decide (o.price ≥ pr.current_price)) ||
        (o.order_type == OrderType.sell && decide (o.price ≤ pr.current_price))) = true := by
      simp [hbuy, decide_eq_true_eq, hel]
    refine ⟨by omega, ?_⟩
    obtain ⟨s2, hrun⟩ : ∃ s2, KafkaConsumerContext.process_order s oid = .ok s2 := by
      unfold KafkaConsumerContext.process_order
      rw [hfind]
      try dsimp only
      rw [if_neg (by simpa using hguard o hstat), hpr]
      try dsimp only
      rw [if_pos hexec]
      try dsimp only
      rw [hbuy]
      try dsimp only
      rw [findPortfolio_appendTransaction, hpf]
      try dsimp only
      rw [if_pos (hfull o)]
      exact ⟨_, rfl⟩
    refine ⟨s2, hrun, ?_⟩
    obtain hpfs : s2.portfolios = s.portfolios.map
        (fun q => if q.user_id == o.user_id && q.stock_id == o.stock_id then { q with
          quantity := p.quantity + (o.quantity - o.filled_quantity),
          total_purchase_amount := p.total_purchase_amount +
            pr.current_price * ((o.quantity - o.filled_quantity : Int) : Rat),
          avg_purchase_price := (p.total_purchase_amount +
            pr.current_price * ((o.quantity - o.filled_quantity : Int) : Rat)) /
            ((p.quantity + (o.quantity - o.filled_quantity) : Int) : Rat) } else q) := by
      have h2 := hrun
      unfold KafkaConsumerContext.process_order at h2
      rw [hfind] at h2
      try dsimp only at h2
      rw [if_neg (by simpa using hguard o hstat), hpr] at h2
      try dsimp only at h2
      rw [if_pos hexec] at h2
      try dsimp only at h2
      rw [hbuy] at h2
      try dsimp only at h2
      rw [findPortfolio_appendTransaction, hpf] at h2
      try dsimp only at h2
      rw [if_pos (hfull o)] at h2
      simp only [Except.ok.injEq] at h2
      subst h2
      simp [appendHistory, appendTransaction, updateOrderRow, updatePortfolioRow]
    have hmap := find?_map_update s.portfolios
      (fun q => q.user_id == o.user_id && q.stock_id == o.stock_id)
      (fun q => { q with
        quantity := p.quantity + (o.quantity - o.filled_quantity),
        total_purchase_amount := p.total_purchase_amount +
          pr.current_price * ((o.quantity - o.filled_quantity : Int) : Rat),
        avg_purchase_price := (p.total_purchase_amount +
          pr.current_price * ((o.quantity - o.filled_quantity : Int) : Rat)) /
          ((p.quantity + (o.quantity - o.filled_quantity) : Int) : Rat) })
      (by intro q hq2; simpa using hq2)
    simp only [findPortfolio] at hpf ⊢
    rw [hpfs, hmap, hpf]
    rfl
  · intro s oid o st pr hfind hstat hpr hbuy hel hpf
    have hexec : ((o.order_type == OrderType.buy && decide (o.price ≥ pr.current_price)) ||
        (o.order_type == OrderType.sell && decide (o.price ≤ pr.current_price))) = true := by
      simp [hbuy, decide_eq_true_eq, hel]
    obtain ⟨s2, hrun⟩ : ∃ s2, KafkaConsumerContext.process_order s oid = .ok s2 := by
      unfold KafkaConsumerContext.process_order
      rw [hfind]
      try dsimp only
      rw [if_neg (by simpa using hguard o hstat), hpr]
      try dsimp only
      rw [if_pos hexec]
      try dsimp only
      rw [hbuy]
      try dsimp only
      rw [findPortfolio_appendTransaction, hpf]
      try dsimp only
      rw [if_pos (hfull o)]
      exact ⟨_, rfl⟩
    refine ⟨s2, hrun, ?_⟩
    obtain hpfs : s2.portfolios = s.portfolios ++
        [{ user_id := o.user_id, stock_id := o.stock_id,
           quantity := o.quantity - o.filled_quantity,
           avg_purchase_price := pr.current_price,
           total_purchase_amount :=
             pr.current_price * ((o.quantity - o.filled_quantity : Int) : Rat),
           hold_quantity := 0 }] := by
      have h2 := hrun
      unfold KafkaConsumerContext.process_order at h2
      rw [hfind] at h2
      try dsimp only at h2
      rw [if_neg (by simpa using hguard o hstat), hpr] at h2
      try dsimp only at h2
      rw [if_pos hexec] at h2
      try dsimp only at h2
      rw [hbuy] at h2
      try dsimp only at h2
      rw [findPortfolio_appendTransaction, hpf] at h2
      try dsimp only at h2
      rw [if_pos (hfull o)] at h2
      simp only [Except.ok.injEq] at h2
      subst h2
      simp [appendHistory, appendTransaction, appendPortfolio, updateOrderRow]
    simp only [findPortfolio] at hpf ⊢
    rw [hpfs, find?_append_none _ _ _ hpf]
    simp

/-- Witness for C9: filling a pending BUY (10 shares at market 100)
into a portfolio of 5 shares bought for 500 gives a non-zero divisor 15
and the pre-update-totals average; a first buy creates the row at the
execution price. -/
theorem c9_witness :
    ((((pf17 5 0).quantity + (buyPending.quantity - buyPending.filled_quantity) : Int) ≠ 0) ∧
     ∃ s2, OrderService.process_order
        (mkState [buyPending] [user1 0] [pf17 5 0] [price100]) 5 = .ok s2 ∧
      findPortfolio s2 buyPending.user_id buyPending.stock_id = some { pf17 5 0 with
        quantity := (pf17 5 0).quantity + (buyPending.quantity - buyPending.filled_quantity),
        total_purchase_amount := (pf17 5 0).total_purchase_amount +
          price100.current_price *
            ((buyPending.quantity - buyPending.filled_quantity : Int) : Rat),
        avg_purchase_price := ((pf17 5 0).total_purchase_amount +
          price100.current_price *
            ((buyPending.quantity - buyPending.filled_quantity : Int) : Rat)) /
          (((pf17 5 0).quantity +
            (buyPending.quantity - buyPending.filled_quantity) : Int) : Rat) }) ∧
    (∃ s2, OrderService.process_order (mkState [buyPending] [user1 0] [] [price100]) 5 =
        .ok s2 ∧
      findPortfolio s2 buyPending.user_id buyPending.stock_id = some
        { user_id := buyPending.user_id, stock_id := buyPending.stock_id,
          quantity := buyPending.quantity - buyPending.filled_quantity,
          avg_purchase_price := price100.current_price,
          total_purchase_amount := price100.current_price *
            ((buyPending.quantity - buyPending.filled_quantity : Int) : Rat),
          hold_quantity := 0 }) := by
  constructor
  · exact c9_avg_price_uses_pre_update_totals.1 _ 5 buyPending
      { id := 7, company_name := "ACME", is_active := true } price100 (pf17 5 0)
      (by decide) (Or.inl rfl) (by decide) rfl (by norm_num [buyPending, price100])
      (by decide) (by decide) (by decide)
  · exact c9_avg_price_uses_pre_update_totals.2.1 _ 5 buyPending
      { id := 7, company_name := "ACME", is_active := true } price100
      (by decide) (Or.inl rfl) (by decide) rfl (by norm_num [buyPending, price100])
      (by decide)

theorem findOrderStock_intro {s : EngineState} {oid : Nat} {o : Order} {st : StockRow}
    (ho : findOrder s oid = some o) (hst : findStock s o.stock_id = some st) :
    findOrderStock s oid = some (o, st) := by
  unfold findOrderStock
  rw [ho]
  dsimp only
  rw [hst]

theorem runService_eq (s : EngineState) (oid : Nat) :
    runService s oid = match OrderService.process_order s oid with
      | .ok s2 => s2
      | .error _ => s := by
  unfold runService transactionRun sessionAexit sessionCommit sessionRollback
  cases h : OrderService.process_order s oid <;> simp [h]

theorem runCtx_eq (s : EngineState) (oid : Nat) :
    runCtx s oid = match KafkaConsumerContext.process_order s oid with
      | .ok s2 => s2
      | .error _ => s := by
  unfold runCtx transactionRun sessionAexit sessionCommit sessionRollback
  cases h : KafkaConsumerContext.process_order s oid <;> simp [h]

/-- When the order's owner has no user row, the service's `cancel_order`
(run from the retry cascade, then committed by the transaction wrapper)
and the consumer's `auto_cancel_order` produce the same state up to
history rows: the BUY refund is skipped on both sides and the SELL
release runs the same conditional. -/
theorem cancel_matches_auto_cancel (s0 sf sb : EngineState) (oid uid : Nat) (o2 : Order)
    (st : StockRow)
    (hfind : findOrderStock sb oid = some (o2, st))
    (huid : o2.user_id = uid)
    (hcanc : (o2.status == OrderStatus.initial || o2.status == OrderStatus.pending ||
      o2.status == OrderStatus.failed || o2.status == OrderStatus.retrying) = true)
    (hu : findUser sb uid = none) :
    projState (match OrderService.cancel_order sb oid uid with
      | .ok s2 => s2
      | .error _ => sf) =
    projState (KafkaConsumerContext.auto_cancel_order s0 sb oid) := by
  subst huid
  have hfindOwned : findOrderStockOwned sb oid o2.user_id = some (o2, st) :=
    findOrderStockOwned_intro (findOrderStock_elim hfind).1 (findOrderStock_elim hfind).2 rfl
  unfold OrderService.cancel_order KafkaConsumerContext.auto_cancel_order
  rw [hfindOwned, hfind]
  dsimp only
  rw [if_pos hcanc]
  cases htype : o2.order_type with
  | buy =>
    dsimp only
    rw [hu]
    simp [projState, appendHistory, updateOrderRow]
  | sell =>
    dsimp only
    cases hpf : findPortfolio sb o2.user_id o2.stock_id with
    | none =>
      dsimp only
      simp [projState, appendHistory, updateOrderRow]
    | some p =>
      dsimp only
      by_cases hhold : p.hold_quantity ≥ o2.quantity - o2.filled_quantity
      · rw [if_pos hhold, if_pos hhold]
        simp [projState, appendHistory, updateOrderRow, updatePortfolioRow]
      · rw [if_neg hhold, if_neg hhold]
        simp [projState, appendHistory, updateOrderRow]

/-- C4 (amended): when the order's owner has no User row — so neither
copy can construct the (ill-typed) AccountTransaction — delivering a
processing request to `OrderService.process_order` and to
`KafkaConsumerContext.process_order` commits identical states up to
OrderHistory rows: same order rows, fill records, users, ledger,
portfolios, queue and id counter.  (Raised-versus-returned behaviour
and history contents still differ; with a User row present the two
diverge outright — see the counterexample.) -/
theorem c4_state_agreement (s : EngineState) (oid : Nat)
    (huser : ∀ o, findOrder s oid = some o → findUser s o.user_id = none) :
    projState (runService s oid) = projState (runCtx s oid) := by
  rw [runService_eq, runCtx_eq]
  unfold OrderService.process_order KafkaConsumerContext.process_order
  cases hfind : findOrderStock s oid with
  | none => rfl
  | some ost =>
    obtain ⟨o, st⟩ := ost
    obtain ⟨ho, hstk⟩ := findOrderStock_elim hfind
    have hu : findUser s o.user_id = none := huser o ho
    try dsimp only
    cases hguard : (o.status == OrderStatus.pending || o.status == OrderStatus.retrying) with
    | false => simp
    | true =>
      have hcond : ¬ ((false : Bool) = true) := by simp
      simp only [Bool.not_true]
      rw [if_neg hcond, if_neg hcond]
      cases hpr : findStockPrice s o.stock_id with
      | none =>
        try dsimp only
        by_cases hth : o.retry_count + 1 ≥ 3
        · rw [if_pos hth, if_pos hth]
          try dsimp only
          refine cancel_matches_auto_cancel s s _ oid o.user_id
            { o with status := .failed, retry_count := o.retry_count + 1 } st ?_ rfl
            (by simp) ?_
          · refine findOrderStock_intro ?_ ?_
            · rw [findOrder_appendHistory, findOrder_updateOrderRow_self s oid
                (fun v => { v with status := OrderStatus.failed, retry_count := v.retry_count + 1 })
                (fun _ => rfl), ho]
              rfl
            · exact hstk
          · exact hu
        · rw [if_neg hth, if_neg hth]
      | some pr =>
        try dsimp only
        cases hex : ((o.order_type == OrderType.buy && decide (o.price ≥ pr.current_price)) ||
            (o.order_type == OrderType.sell && decide (o.price ≤ pr.current_price))) with
        | false =>
          rw [if_neg hcond, if_neg hcond]
          try dsimp only
          by_cases hth : o.retry_count + 1 ≥ 3
          · rw [if_pos hth, if_pos hth]
            try dsimp only
            refine cancel_matches_auto_cancel s s _ oid o.user_id
              { o with retry_count := o.retry_count + 1 } st ?_ rfl ?_ ?_
            · refine findOrderStock_intro ?_ ?_
              · rw [findOrder_updateOrderRow_self s oid
                  (fun v => { v with retry_count := v.retry_count + 1 }) (fun _ => rfl), ho]
                rfl
              · exact hstk
            · simp only [Bool.or_eq_true] at hguard ⊢
              rcases hguard with h | h
              · exact Or.inl (Or.inl (Or.inr (by simpa using h)))
              · exact Or.inr (by simpa using h)
            · exact hu
          · rw [if_neg hth, if_neg hth]
        | true =>
          rw [if_pos rfl, if_pos rfl]
          try dsimp only
          have hfull : o.filled_quantity + (o.quantity - o.filled_quantity) ≥ o.quantity := by
            omega
          cases htype : o.order_type with
          | buy =>
            try dsimp only
            rw [findPortfolio_appendTransaction]
            cases hpf2 : findPortfolio s o.user_id o.stock_id with
            | none =>
              try dsimp only
              rw [if_pos hfull, if_pos hfull]
              simp [projState, appendHistory, appendTransaction, appendPortfolio,
                updateOrderRow]
            | some p =>
              try dsimp only
              rw [if_pos hfull, if_pos hfull]
              simp [projState, appendHistory, appendTransaction, updatePortfolioRow,
                updateOrderRow]
          | sell =>
            try dsimp only
            rw [findPortfolio_appendTransaction]
            cases hpf2 : findPortfolio s o.user_id o.stock_id with
            | none =>
              try dsimp only
              rw [if_pos hfull, if_pos hfull]
              simp [projState, appendHistory, appendTransaction, updateOrderRow]
            | some p =>
              try dsimp only
              rw [findUser_updatePortfolioRow, findUser_appendTransaction, hu]
              try dsimp only
              rw [if_pos hfull, if_pos hfull]
              simp [projState, appendHistory, appendTransaction, updatePortfolioRow,
                updateOrderRow]

/-- Witness for C4 at a concrete state: a pending BUY order whose owner
has no user row is processed to the same observable state by both
implementations. -/
theorem c4_witness :
    projState (runService (mkState [buyPending] [] [] [price100]) 5) =
      projState (runCtx (mkState [buyPending] [] [] [price100]) 5) := by
  apply c4_state_agreement
  intro o h
  have hb : findOrder (mkState [buyPending] [] [] [price100]) 5 = some buyPending := by
    decide
  rw [hb] at h
  injection h with h
  subst h
  decide

/-- Counterexample for C4 as stated, in three parts.  (i) For a missing
order the service raises `InvalidOrderError` while the consumer returns
silently.  (ii) On an eligible SELL fill with the owner's user row
present the service commits the fill (balance 0 becomes 500) while the
consumer's `AccountTransaction(..., related_order_id=...)` construction
raises and rolls the whole step back (balance stays 0) — the resulting
states differ.  (iii) Even on an identical BUY fill the history rows
differ: the service records `previous_status = SUCCESS` (it reads the
already-updated status), the consumer records `PENDING`. -/
theorem c4_counterexample :
    (OrderService.process_order (mkState [] [] [] []) 9 = .error .invalidOrder ∧
     KafkaConsumerContext.process_order (mkState [] [] [] []) 9 = .ok (mkState [] [] [] [])) ∧
    (findUser (runService (mkState [sellPending] [user1 0] [pf17 5 5] [price100]) 5) 1 =
        some (user1 500) ∧
     findUser (runCtx (mkState [sellPending] [user1 0] [pf17 5 5] [price100]) 5) 1 =
        some (user1 0)) ∧
    ((runService (mkState [buyPending] [] [] [price100]) 5).order_histories.map
        (fun h => h.previous_status) = [some .success] ∧
     (runCtx (mkState [buyPending] [] [] [price100]) 5).order_histories.map
        (fun h => h.previous_status) = [some .pending]) := by
  refine ⟨⟨?_, ?_⟩, ⟨?_, ?_⟩, ⟨?_, ?_⟩⟩ <;>
    norm_num [runService, runCtx, transactionRun, OrderService.process_order,
      KafkaConsumerContext.process_order, KafkaConsumerContext.auto_cancel_order,
      OrderService.cancel_order, findOrderStock, findOrderStockOwned, findOrder,
      findStock, findStockPrice, findUser, findPortfolio, appendTransaction,
      appendHistory, appendPortfolio, appendAccountTransaction, updateOrderRow,
      updateUserRow, updatePortfolioRow, sessionAexit, sessionCommit, sessionRollback,
      mkState, buyPending, sellPending, user1, pf17, price100]

/-! Toolkit for the hold-bound invariant: arithmetic of `sellTerm` and
`outstandingL` under the row updates the engine performs. -/

theorem sellTerm_nonneg (uid sid : Nat) (o : Order)
    (h : 0 ≤ o.filled_quantity ∧ o.filled_quantity ≤ o.quantity) :
    0 ≤ sellTerm uid sid o := by
  unfold sellTerm
  split
  · omega
  · exact le_refl 0

theorem sellTerm_of_buy (uid sid : Nat) (o : Order) (h : o.order_type = .buy) :
    sellTerm uid sid o = 0 := by
  unfold sellTerm
  split
  · rename_i hc
    rw [h] at hc
    simp at hc
  · rfl

theorem sellTerm_of_inactive (uid sid : Nat) (o : Order)
    (h : isActiveStatus o.status = false) :
    sellTerm uid sid o = 0 := by
  unfold sellTerm
  split
  · rename_i hc
    rw [h] at hc
    simp at hc
  · rfl

theorem sellTerm_of_ne_pair (uid sid : Nat) (o : Order)
    (h : ¬(o.user_id = uid ∧ o.stock_id = sid)) :
    sellTerm uid sid o = 0 := by
  unfold sellTerm
  split
  · rename_i hc
    simp only [Bool.and_eq_true, beq_iff_eq] at hc
    exact absurd ⟨hc.1.1.1, hc.1.1.2⟩ h
  · rfl

theorem sellTerm_of_sell_active (uid sid : Nat) (o : Order)
    (hsell : o.order_type = .sell) (hact : isActiveStatus o.status = true)
    (hpair : o.user_id = uid ∧ o.stock_id = sid) :
    sellTerm uid sid o = o.quantity - o.filled_quantity := by
  unfold sellTerm
  rw [if_pos (by simp [hsell, hact, hpair.1, hpair.2])]

theorem outstandingL_nonneg (orders : List Order) (uid sid : Nat)
    (hb : ∀ o ∈ orders, 0 ≤ o.filled_quantity ∧ o.filled_quantity ≤ o.quantity) :
    0 ≤ outstandingL orders uid sid := by
  unfold outstandingL
  induction orders with
  | nil => simp
  | cons o l ih =>
    simp only [List.map_cons, List.sum_cons]
    have h1 := sellTerm_nonneg uid sid o (hb o (by simp))
    have h2 := ih (fun x hx => hb x (by simp [hx]))
    unfold outstandingL at h2
    omega

theorem sellTerm_le_outstandingL (orders : List Order) (uid sid : Nat) (o : Order)
    (ho : o ∈ orders)
    (hb : ∀ x ∈ orders, 0 ≤ x.filled_quantity ∧ x.filled_quantity ≤ x.quantity) :
    sellTerm uid sid o ≤ outstandingL orders uid sid := by
  unfold outstandingL
  induction orders with
  | nil => simp at ho
  | cons x l ih =>
    simp only [List.map_cons, List.sum_cons]
    rcases List.mem_cons.mp ho with h | h
    · subst h
      have h2 : 0 ≤ outstandingL l uid sid :=
        outstandingL_nonneg l uid sid (fun y hy => hb y (by simp [hy]))
      unfold outstandingL at h2
      omega
    · have h1 := sellTerm_nonneg uid sid x (hb x (by simp))
      have h2 := ih h (fun y hy => hb y (by simp [hy]))
      omega

theorem outstandingL_append (orders : List Order) (o : Order) (uid sid : Nat) :
    outstandingL (orders ++ [o]) uid sid =
      outstandingL orders uid sid + sellTerm uid sid o := by
  unfold outstandingL
  simp

theorem outstandingL_zero (orders : List Order) (uid sid : Nat)
    (h : ∀ o ∈ orders, sellTerm uid sid o = 0) :
    outstandingL orders uid sid = 0 := by
  unfold outstandingL
  induction orders with
  | nil => simp
  | cons x l ih =>
    simp only [List.map_cons, List.sum_cons]
    rw [h x (by simp), ih (fun y hy => h y (by simp [hy]))]
    simp

theorem update_map_eq_of_no_match (l : List Order) (oid : Nat) (f : Order → Order)
    (h : ∀ x ∈ l, x.id ≠ oid) :
    l.map (fun x => if x.id == oid then f x else x) = l := by
  induction l with
  | nil => rfl
  | cons x l ih =>
    have hx : (x.id == oid) = false := by simpa using h x (by simp)
    simp only [List.map_cons, hx, if_false, List.cons.injEq]
    exact ⟨rfl, ih (fun y hy => h y (by simp [hy]))⟩

theorem outstandingL_update (l : List Order) (oid : Nat) (f : Order → Order)
    (uid sid : Nat)
    (hnd : l.Pairwise (fun a b => a.id ≠ b.id)) (o0 : Order)
    (hfind : l.find? (fun x => x.id == oid) = some o0) :
    outstandingL (l.map (fun x => if x.id == oid then f x else x)) uid sid =
      outstandingL l uid sid - sellTerm uid sid o0 + sellTerm uid sid (f o0) := by
  induction l with
  | nil => simp at hfind
  | cons x l ih =>
    rw [List.pairwise_cons] at hnd
    by_cases hx : x.id = oid
    · have hbx : (x.id == oid) = true := by simpa using hx
      have hxo : x = o0 := by
        simp only [List.find?, hbx] at hfind
        exact Option.some.injEq _ _ ▸ hfind.symm ▸ rfl
      have htail : l.map (fun y => if y.id == oid then f y else y) = l :=
        update_map_eq_of_no_match l oid f
          (fun y hy => by rw [← hx]; exact (hnd.1 y hy).symm)
      subst hxo
      unfold outstandingL
      simp only [List.map_cons, List.sum_cons, hbx, if_true, htail]
      omega
    · have hbx : (x.id == oid) = false := by simpa using hx
      have hfind2 : l.find? (fun y => y.id == oid) = some o0 := by
        simpa only [List.find?, hbx] using hfind
      have hrec := ih hnd.2 hfind2
      unfold outstandingL at hrec ⊢
      simp only [List.map_cons, List.sum_cons, if_neg (by simp [hx] :
        ¬ ((x.id == oid) = true))]
      omega

theorem eq_of_mem_of_same_id (l : List Order)
    (hnd : l.Pairwise (fun a b => a.id ≠ b.id))
    (x y : Order) (hx : x ∈ l) (hy : y ∈ l) (hid : x.id = y.id) : x = y := by
  induction l with
  | nil => simp at hx
  | cons a l ih =>
    rw [List.pairwise_cons] at hnd
    rcases List.mem_cons.mp hx with h1 | h1 <;> rcases List.mem_cons.mp hy with h2 | h2
    · rw [h1, h2]
    · subst h1
      exact absurd hid (hnd.1 y h2)
    · subst h2
      exact absurd hid.symm (hnd.1 x h1)
    · exact ih hnd.2 h1 h2

theorem pairwise_ids_update (l : List Order) (oid : Nat) (f : Order → Order)
    (hf : ∀ x, (f x).id = x.id)
    (h : l.Pairwise (fun a b => a.id ≠ b.id)) :
    (l.map (fun x => if x.id == oid then f x else x)).Pairwise
      (fun a b => a.id ≠ b.id) := by
  rw [List.pairwise_map]
  refine h.imp ?_
  intro a b hab
  have ha : (if a.id == oid then f a else a).id = a.id := by
    split
    · exact hf a
    · rfl
  have hb : (if b.id == oid then f b else b).id = b.id := by
    split
    · exact hf b
    · rfl
  rw [ha, hb]
  exact hab

theorem pairwise_keys_update (l : List PortfolioRow) (uid sid : Nat)
    (f : PortfolioRow → PortfolioRow)
    (hf : ∀ x, (f x).user_id = x.user_id ∧ (f x).stock_id = x.stock_id)
    (h : l.Pairwise (fun a b => ¬(a.user_id = b.user_id ∧ a.stock_id = b.stock_id))) :
    (l.map (fun x => if x.user_id == uid && x.stock_id == sid then f x else x)).Pairwise
      (fun a b => ¬(a.user_id = b.user_id ∧ a.stock_id = b.stock_id)) := by
  rw [List.pairwise_map]
  refine h.imp ?_
  intro a b hab
  have ha1 : (if a.user_id == uid && a.stock_id == sid then f a else a).user_id = a.user_id := by
    split
    · exact (hf a).1
    · rfl
  have ha2 : (if a.user_id == uid && a.stock_id == sid then f a else a).stock_id = a.stock_id := by
    split
    · exact (hf a).2
    · rfl
  have hb1 : (if b.user_id == uid && b.stock_id == sid then f b else b).user_id = b.user_id := by
    split
    · exact (hf b).1
    · rfl
  have hb2 : (if b.user_id == uid && b.stock_id == sid then f b else b).stock_id = b.stock_id := by
    split
    · exact (hf b).2
    · rfl
  rw [ha1, ha2, hb1, hb2]
  exact hab

theorem find?_append_some {α : Type} (l : List α) (x : α) (key : α → Bool) (y : α)
    (h : l.find? key = some y) : (l ++ [x]).find? key = some y := by
  induction l with
  | nil => simp at h
  | cons a l ih =>
    simp only [List.cons_append, List.find?] at h ⊢
    cases ha : key a with
    | true => rw [ha] at h; exact h
    | false =>
      rw [ha] at h
      exact ih h

theorem sellTerm_le_of_fields (uid sid : Nat) (o o2 : Order)
    (hu : o2.user_id = o.user_id) (hs : o2.stock_id = o.stock_id)
    (ht : o2.order_type = o.order_type)
    (hst : isActiveStatus o2.status = isActiveStatus o.status)
    (hle : o2.quantity - o2.filled_quantity ≤ o.quantity - o.filled_quantity) :
    sellTerm uid sid o2 ≤ sellTerm uid sid o := by
  unfold sellTerm
  rw [hu, hs, ht, hst]
  by_cases hc : (o.user_id == uid && o.stock_id == sid && o.order_type == OrderType.sell &&
      isActiveStatus o.status) = true
  · rw [if_pos hc, if_pos hc]
    exact hle
  · rw [if_neg hc, if_neg hc]

theorem sellTerm_le_of_buy (uid sid : Nat) (o o2 : Order)
    (ht : o2.order_type = o.order_type) (hbuy : o.order_type = .buy) :
    sellTerm uid sid o2 ≤ sellTerm uid sid o := by
  rw [sellTerm_of_buy uid sid o2 (ht.trans hbuy), sellTerm_of_buy uid sid o hbuy]

theorem eq_of_mem_of_same_key (l : List PortfolioRow)
    (hnd : l.Pairwise (fun a b => ¬(a.user_id = b.user_id ∧ a.stock_id = b.stock_id)))
    (x y : PortfolioRow) (hx : x ∈ l) (hy : y ∈ l)
    (h1 : x.user_id = y.user_id) (h2 : x.stock_id = y.stock_id) : x = y := by
  induction l with
  | nil => simp at hx
  | cons a l ih =>
    rw [List.pairwise_cons] at hnd
    rcases List.mem_cons.mp hx with g1 | g1 <;> rcases List.mem_cons.mp hy with g2 | g2
    · rw [g1, g2]
    · subst g1
      exact absurd ⟨h1, h2⟩ (hnd.1 y g2)
    · subst g2
      exact absurd ⟨h1.symm, h2.symm⟩ (hnd.1 x g1)
    · exact ih hnd.2 g1 g2

theorem findKey_isSome_map (l : List PortfolioRow) (g : PortfolioRow → PortfolioRow)
    (hk : ∀ x, (g x).user_id = x.user_id ∧ (g x).stock_id = x.stock_id) (uid sid : Nat) :
    ((l.map g).find? (fun p => p.user_id == uid && p.stock_id == sid)).isSome =
      (l.find? (fun p => p.user_id == uid && p.stock_id == sid)).isSome := by
  induction l with
  | nil => rfl
  | cons a l ih =>
    simp only [List.map_cons, List.find?]
    have hg : ((g a).user_id == uid && (g a).stock_id == sid) =
        (a.user_id == uid && a.stock_id == sid) := by rw [(hk a).1, (hk a).2]
    rw [hg]
    cases hc : (a.user_id == uid && a.stock_id == sid) with
    | true => rfl
    | false => exact ih

theorem updateOrder_map_map (l : List Order) (oid : Nat) (f g : Order → Order)
    (hf : ∀ x, (f x).id = x.id) :
    (l.map (fun x => if x.id == oid then f x else x)).map
        (fun x => if x.id == oid then g x else x) =
      l.map (fun x => if x.id == oid then g (f x) else x) := by
  rw [List.map_map]
  apply List.map_congr_left
  intro x _
  dsimp only [Function.comp]
  by_cases hx : (x.id == oid) = true
  · simp [hx, hf x]
  · simp [hx]

theorem transactionRun_snd_error (f : EngineState → Except Err EngineState)
    (db : EngineState) (e : Err) (h : f db = .error e) :
    (transactionRun f db).2 = db := by
  unfold transactionRun
  rw [h]
  rfl

theorem transactionRun_snd_ok (f : EngineState → Except Err EngineState)
    (db s2 : EngineState) (h : f db = .ok s2) :
    (transactionRun f db).2 = s2 := by
  unfold transactionRun
  rw [h]
  rfl

/-- Invariant transfer for an order-row-only update that does not
increase the order's sell reservation (status transitions, retry
bumps, fills, shrinking updates): portfolios untouched. -/
theorem InvD_update_order (orders : List Order) (pfs : List PortfolioRow) (nid : Nat)
    (oid : Nat) (f : Order → Order) (o0 : Order)
    (hinv : InvD orders pfs nid)
    (hfind : orders.find? (fun x => x.id == oid) = some o0)
    (hids : ∀ x, (f x).id = x.id)
    (huser : (f o0).user_id = o0.user_id) (hstock : (f o0).stock_id = o0.stock_id)
    (hbounds : 0 ≤ (f o0).filled_quantity ∧ (f o0).filled_quantity ≤ (f o0).quantity)
    (hterm : ∀ uid sid, sellTerm uid sid (f o0) ≤ sellTerm uid sid o0)
    (hact : (f o0).order_type = .sell → isActiveStatus (f o0).status = true →
      o0.order_type = .sell ∧ isActiveStatus o0.status = true) :
    InvD (orders.map (fun x => if x.id == oid then f x else x)) pfs nid := by
  obtain ⟨hP1, hP2, hP3, hP4, hP5, hP6⟩ := hinv
  have ho0mem : o0 ∈ orders := List.mem_of_find?_eq_some hfind
  have ho0id : o0.id = oid := by simpa using List.find?_some hfind
  have hmem : ∀ x ∈ orders, (x.id == oid) = true → x = o0 := by
    intro x hx hxid
    refine eq_of_mem_of_same_id orders hP5 x o0 hx ho0mem ?_
    simp only [beq_iff_eq] at hxid
    rw [hxid, ho0id]
  refine ⟨?_, ?_, ?_, ?_, ?_, hP6⟩
  · intro p hp
    obtain ⟨h1, h2, h3⟩ := hP1 p hp
    refine ⟨h1, h2, ?_⟩
    rw [outstandingL_update orders oid f p.user_id p.stock_id hP5 o0 hfind]
    have := hterm p.user_id p.stock_id
    omega
  · intro o2 ho2
    rw [List.mem_map] at ho2
    obtain ⟨x, hx, rfl⟩ := ho2
    by_cases hxid : (x.id == oid) = true
    · rw [if_pos hxid, hmem x hx hxid]
      exact hbounds
    · rw [if_neg hxid]
      exact hP2 x hx
  · intro o2 ho2 hsell hactive
    rw [List.mem_map] at ho2
    obtain ⟨x, hx, rfl⟩ := ho2
    by_cases hxid : (x.id == oid) = true
    · rw [if_pos hxid, hmem x hx hxid] at hsell hactive ⊢
      obtain ⟨hs0, ha0⟩ := hact hsell hactive
      rw [huser, hstock]
      exact hP3 o0 ho0mem hs0 ha0
    · rw [if_neg hxid] at hsell hactive ⊢
      exact hP3 x hx hsell hactive
  · intro o2 ho2
    rw [List.mem_map] at ho2
    obtain ⟨x, hx, rfl⟩ := ho2
    by_cases hxid : (x.id == oid) = true
    · rw [if_pos hxid, hids x]
      exact hP4 x hx
    · rw [if_neg hxid]
      exact hP4 x hx
  · exact pairwise_ids_update orders oid f hids hP5

/-- Variant of `InvD_update_order` for updates that may enlarge the
reservation (the growing SELL update): the post-update hold coverage is
supplied directly. -/
theorem InvD_update_order_gen (orders : List Order) (pfs : List PortfolioRow) (nid : Nat)
    (oid : Nat) (f : Order → Order) (o0 : Order)
    (hinv : InvD orders pfs nid)
    (hfind : orders.find? (fun x => x.id == oid) = some o0)
    (hids : ∀ x, (f x).id = x.id)
    (huser : (f o0).user_id = o0.user_id) (hstock : (f o0).stock_id = o0.stock_id)
    (hbounds : 0 ≤ (f o0).filled_quantity ∧ (f o0).filled_quantity ≤ (f o0).quantity)
    (hout : ∀ p ∈ pfs,
      outstandingL (orders.map (fun x => if x.id == oid then f x else x))
        p.user_id p.stock_id ≤ p.hold_quantity)
    (hact : (f o0).order_type = .sell → isActiveStatus (f o0).status = true →
      o0.order_type = .sell ∧ isActiveStatus o0.status = true) :
    InvD (orders.map (fun x => if x.id == oid then f x else x)) pfs nid := by
  obtain ⟨hP1, hP2, hP3, hP4, hP5, hP6⟩ := hinv
  have ho0mem : o0 ∈ orders := List.mem_of_find?_eq_some hfind
  have ho0id : o0.id = oid := by simpa using List.find?_some hfind
  have hmem : ∀ x ∈ orders, (x.id == oid) = true → x = o0 := by
    intro x hx hxid
    refine eq_of_mem_of_same_id orders hP5 x o0 hx ho0mem ?_
    simp only [beq_iff_eq] at hxid
    rw [hxid, ho0id]
  refine ⟨?_, ?_, ?_, ?_, ?_, hP6⟩
  · intro p hp
    obtain ⟨h1, h2, _⟩ := hP1 p hp
    exact ⟨h1, h2, hout p hp⟩
  · intro o2 ho2
    rw [List.mem_map] at ho2
    obtain ⟨x, hx, rfl⟩ := ho2
    by_cases hxid : (x.id == oid) = true
    · rw [if_pos hxid, hmem x hx hxid]
      exact hbounds
    · rw [if_neg hxid]
      exact hP2 x hx
  · intro o2 ho2 hsell hactive
    rw [List.mem_map] at ho2
    obtain ⟨x, hx, rfl⟩ := ho2
    by_cases hxid : (x.id == oid) = true
    · rw [if_pos hxid, hmem x hx hxid] at hsell hactive ⊢
      obtain ⟨hs0, ha0⟩ := hact hsell hactive
      rw [huser, hstock]
      exact hP3 o0 ho0mem hs0 ha0
    · rw [if_neg hxid] at hsell hactive ⊢
      exact hP3 x hx hsell hactive
  · intro o2 ho2
    rw [List.mem_map] at ho2
    obtain ⟨x, hx, rfl⟩ := ho2
    by_cases hxid : (x.id == oid) = true
    · rw [if_pos hxid, hids x]
      exact hP4 x hx
    · rw [if_neg hxid]
      exact hP4 x hx
  · exact pairwise_ids_update orders oid f hids hP5

/-- Invariant transfer for a keyed portfolio-row update whose new hold
still covers the outstanding sell reservation of the pair. -/
theorem InvD_update_portfolio (orders : List Order) (pfs : List PortfolioRow) (nid : Nat)
    (uid sid : Nat) (g : PortfolioRow → PortfolioRow) (p0 : PortfolioRow)
    (hinv : InvD orders pfs nid)
    (hfind : pfs.find? (fun p => p.user_id == uid && p.stock_id == sid) = some p0)
    (hkeys : ∀ x, (g x).user_id = x.user_id ∧ (g x).stock_id = x.stock_id)
    (hbound : 0 ≤ (g p0).hold_quantity ∧ (g p0).hold_quantity ≤ (g p0).quantity)
    (hout : outstandingL orders p0.user_id p0.stock_id ≤ (g p0).hold_quantity) :
    InvD orders
      (pfs.map (fun p => if p.user_id == uid && p.stock_id == sid then g p else p)) nid := by
  obtain ⟨hP1, hP2, hP3, hP4, hP5, hP6⟩ := hinv
  have hp0mem : p0 ∈ pfs := List.mem_of_find?_eq_some hfind
  have hp0key : p0.user_id = uid ∧ p0.stock_id = sid := by
    have hk := List.find?_some hfind
    simp only [Bool.and_eq_true, beq_iff_eq] at hk
    exact hk
  have hmem : ∀ p ∈ pfs, (p.user_id == uid && p.stock_id == sid) = true → p = p0 := by
    intro p hp hpk
    simp only [Bool.and_eq_true, beq_iff_eq] at hpk
    exact eq_of_mem_of_same_key pfs hP6 p p0 hp hp0mem
      (by rw [hpk.1, hp0key.1]) (by rw [hpk.2, hp0key.2])
  have hkeys2 : ∀ x : PortfolioRow,
      ((if x.user_id == uid && x.stock_id == sid then g x else x)).user_id = x.user_id ∧
      ((if x.user_id == uid && x.stock_id == sid then g x else x)).stock_id = x.stock_id := by
    intro x
    split
    · exact hkeys x
    · exact ⟨rfl, rfl⟩
  refine ⟨?_, hP2, ?_, hP4, hP5, ?_⟩
  · intro p hp
    rw [List.mem_map] at hp
    obtain ⟨x, hx, rfl⟩ := hp
    by_cases hk : (x.user_id == uid && x.stock_id == sid) = true
    · rw [if_pos hk, hmem x hx hk]
      refine ⟨hbound.1, hbound.2, ?_⟩
      rw [(hkeys p0).1, (hkeys p0).2]
      exact hout
    · rw [if_neg hk]
      exact hP1 x hx
  · intro o ho hsell hactive
    have h0 := hP3 o ho hsell hactive
    rw [findKey_isSome_map pfs _ hkeys2 o.user_id o.stock_id]
    exact h0
  · exact pairwise_keys_update pfs uid sid g hkeys hP6

/-- Invariant transfer for inserting a fresh portfolio row whose key is
not yet present. -/
theorem InvD_append_portfolio (orders : List Order) (pfs : List PortfolioRow) (nid : Nat)
    (p : PortfolioRow) (hinv : InvD orders pfs nid)
    (habsent : pfs.find? (fun q => q.user_id == p.user_id && q.stock_id == p.stock_id) = none)
    (hbound : 0 ≤ p.hold_quantity ∧ p.hold_quantity ≤ p.quantity)
    (hout : outstandingL orders p.user_id p.stock_id ≤ p.hold_quantity) :
    InvD orders (pfs ++ [p]) nid := by
  obtain ⟨hP1, hP2, hP3, hP4, hP5, hP6⟩ := hinv
  refine ⟨?_, hP2, ?_, hP4, hP5, ?_⟩
  · intro q hq
    rcases List.mem_append.mp hq with h | h
    · exact hP1 q h
    · have hqp : q = p := by simpa using h
      subst hqp
      exact ⟨hbound.1, hbound.2, hout⟩
  · intro o ho hsell hactive
    have h0 := hP3 o ho hsell hactive
    rw [Option.isSome_iff_exists] at h0
    obtain ⟨y, hy⟩ := h0
    rw [Option.isSome_iff_exists]
    exact ⟨y, find?_append_some pfs p _ y hy⟩
  · rw [List.pairwise_append]
    refine ⟨hP6, by simp, ?_⟩
    intro a ha b hb
    have hbp : b = p := by simpa using hb
    subst hbp
    have hne := List.find?_eq_none.mp habsent a ha
    intro hcon
    apply hne
    simp only [Bool.and_eq_true, beq_iff_eq]
    exact ⟨hcon.1, hcon.2⟩

/-- A pair with no portfolio row has no outstanding sell reservation:
contrapositive of the third invariant clause. -/
theorem outstandingL_zero_of_no_portfolio (orders : List Order) (pfs : List PortfolioRow)
    (nid : Nat) (uid sid : Nat) (hinv : InvD orders pfs nid)
    (hnone : pfs.find? (fun q => q.user_id == uid && q.stock_id == sid) = none) :
    outstandingL orders uid sid = 0 := by
  obtain ⟨hP1, hP2, hP3, hP4, hP5, hP6⟩ := hinv
  apply outstandingL_zero
  intro o ho
  unfold sellTerm
  split
  · rename_i hc
    simp only [Bool.and_eq_true, beq_iff_eq] at hc
    obtain ⟨⟨⟨hu, hs⟩, ht⟩, ha⟩ := hc
    exfalso
    have h3 := hP3 o ho ht ha
    rw [hu, hs, hnone] at h3
    simp at h3
  · rfl

/-- Invariant transfer for inserting a fresh buy order with a valid fill
bound: no reservation is added. -/
theorem InvD_append_buy_order (orders : List Order) (pfs : List PortfolioRow) (nid : Nat)
    (o : Order) (hinv : InvD orders pfs nid)
    (hbuy : o.order_type = .buy) (hid : o.id = nid)
    (hfq : 0 ≤ o.filled_quantity ∧ o.filled_quantity ≤ o.quantity) :
    InvD (orders ++ [o]) pfs (nid + 1) := by
  obtain ⟨hP1, hP2, hP3, hP4, hP5, hP6⟩ := hinv
  refine ⟨?_, ?_, ?_, ?_, ?_, hP6⟩
  · intro p hp
    obtain ⟨h1, h2, h3⟩ := hP1 p hp
    refine ⟨h1, h2, ?_⟩
    rw [outstandingL_append, sellTerm_of_buy _ _ o hbuy]
    omega
  · intro x hx
    rcases List.mem_append.mp hx with h | h
    · exact hP2 x h
    · have hxo : x = o := by simpa using h
      subst hxo
      exact hfq
  · intro x hx hsell hactive
    rcases List.mem_append.mp hx with h | h
    · exact hP3 x h hsell hactive
    · have hxo : x = o := by simpa using h
      subst hxo
      rw [hbuy] at hsell
      exact absurd hsell (by simp)
  · intro x hx
    rcases List.mem_append.mp hx with h | h
    · have := hP4 x h
      omega
    · have hxo : x = o := by simpa using h
      subst hxo
      omega
  · rw [List.pairwise_append]
    refine ⟨hP5, by simp, ?_⟩
    intro a ha b hb
    have hbo : b = o := by simpa using hb
    subst hbo
    have := hP4 a ha
    omega

/-- Invariant transfer for inserting a fresh active sell order whose
reservation is covered by the (already raised) hold of its pair. -/
theorem InvD_append_active_sell (orders : List Order) (pfs : List PortfolioRow) (nid : Nat)
    (o : Order) (hinv : InvD orders pfs nid)
    (hid : o.id = nid)
    (hfq : 0 ≤ o.filled_quantity ∧ o.filled_quantity ≤ o.quantity)
    (hsome : (pfs.find? (fun p => p.user_id == o.user_id && p.stock_id == o.stock_id)).isSome)
    (hcover : ∀ p ∈ pfs, p.user_id = o.user_id → p.stock_id = o.stock_id →
      outstandingL orders p.user_id p.stock_id + sellTerm p.user_id p.stock_id o ≤
        p.hold_quantity) :
    InvD (orders ++ [o]) pfs (nid + 1) := by
  obtain ⟨hP1, hP2, hP3, hP4, hP5, hP6⟩ := hinv
  refine ⟨?_, ?_, ?_, ?_, ?_, hP6⟩
  · intro p hp
    obtain ⟨h1, h2, h3⟩ := hP1 p hp
    refine ⟨h1, h2, ?_⟩
    rw [outstandingL_append]
    by_cases hpair : p.user_id = o.user_id ∧ p.stock_id = o.stock_id
    · exact hcover p hp hpair.1 hpair.2
    · rw [sellTerm_of_ne_pair p.user_id p.stock_id o
        (fun hc => hpair ⟨hc.1.symm, hc.2.symm⟩)]
      omega
  · intro x hx
    rcases List.mem_append.mp hx with h | h
    · exact hP2 x h
    · have hxo : x = o := by simpa using h
      subst hxo
      exact hfq
  · intro x hx hsell hactive
    rcases List.mem_append.mp hx with h | h
    · exact hP3 x h hsell hactive
    · have hxo : x = o := by simpa using h
      subst hxo
      exact hsome
  · intro x hx
    rcases List.mem_append.mp hx with h | h
    · have := hP4 x h
      omega
    · have hxo : x = o := by simpa using h
      subst hxo
      omega
  · rw [List.pairwise_append]
    refine ⟨hP5, by simp, ?_⟩
    intro a ha b hb
    have hbo : b = o := by simpa using hb
    subst hbo
    have := hP4 a ha
    omega

/-- `cancel_order` preserves the invariant on its success path: the
cancelled order's reservation disappears, and the SELL release is
guarded by `hold_quantity >= release_quantity`. -/
theorem cancel_order_inv (s : EngineState) (oid uid : Nat) (s2 : EngineState)
    (hinv : Inv s) (h : OrderService.cancel_order s oid uid = .ok s2) : Inv s2 := by
  have hinvD : InvD s.orders s.portfolios s.next_id := hinv
  unfold OrderService.cancel_order at h
  cases hfo : findOrderStockOwned s oid uid with
  | none =>
    rw [hfo] at h
    exact absurd h (by simp)
  | some pr =>
    obtain ⟨order, stk⟩ := pr
    rw [hfo] at h
    dsimp only at h
    obtain ⟨hford, hfstk, huser⟩ := findOrderStockOwned_elim hfo
    unfold findOrder at hford
    by_cases hst : (order.status == OrderStatus.initial || order.status == OrderStatus.pending ||
        order.status == OrderStatus.failed || order.status == OrderStatus.retrying) = true
    case neg =>
      rw [if_neg hst] at h
      exact absurd h (by simp)
    rw [if_pos hst] at h
    have hactive : isActiveStatus order.status = true := hst
    have hmem : order ∈ s.orders := List.mem_of_find?_eq_some hford
    have hOB := hinvD.2.1 order hmem
    have hordersInv : InvD
        (s.orders.map (fun x => if x.id == oid then
          { x with status := OrderStatus.cancelled } else x)) s.portfolios s.next_id := by
      refine InvD_update_order s.orders s.portfolios s.next_id oid
        (fun x => { x with status := OrderStatus.cancelled }) order hinvD hford
        (fun x => rfl) rfl rfl hOB ?_ ?_
      · intro uid' sid'
        rw [sellTerm_of_inactive uid' sid' ({ order with status := OrderStatus.cancelled })
          (by rfl)]
        exact sellTerm_nonneg uid' sid' order hOB
      · intro _ hac
        simp [isActiveStatus] at hac
    cases hot : order.order_type with
    | buy =>
      rw [hot] at h
      dsimp only at h
      cases hu : findUser s uid with
      | some u =>
        rw [hu] at h
        dsimp only at h
        simp only [Except.ok.injEq] at h
        subst h
        show InvD _ _ _
        dsimp only [appendHistory, updateOrderRow, updateUserRow]
        exact hordersInv
      | none =>
        rw [hu] at h
        dsimp only at h
        simp only [Except.ok.injEq] at h
        subst h
        show InvD _ _ _
        dsimp only [appendHistory, updateOrderRow]
        exact hordersInv
    | sell =>
      rw [hot] at h
      dsimp only at h
      cases hp : findPortfolio s uid order.stock_id with
      | none =>
        rw [hp] at h
        dsimp only at h
        simp only [Except.ok.injEq] at h
        subst h
        show InvD _ _ _
        dsimp only [appendHistory, updateOrderRow]
        exact hordersInv
      | some p =>
        rw [hp] at h
        dsimp only at h
        unfold findPortfolio at hp
        have hpkey := List.find?_some hp
        simp only [Bool.and_eq_true, beq_iff_eq] at hpkey
        have hpmem : p ∈ s.portfolios := List.mem_of_find?_eq_some hp
        have hPB := hinvD.1 p hpmem
        by_cases hge : p.hold_quantity ≥ order.quantity - order.filled_quantity
        · rw [if_pos hge] at h
          simp only [Except.ok.injEq] at h
          subst h
          show InvD _ _ _
          dsimp only [appendHistory, updateOrderRow, updatePortfolioRow]
          refine InvD_update_portfolio _ s.portfolios s.next_id uid order.stock_id
            (fun q => { q with
              hold_quantity := q.hold_quantity - (order.quantity - order.filled_quantity) })
            p hordersInv hp (fun q => ⟨rfl, rfl⟩)
            ⟨by dsimp only; omega, by dsimp only; omega⟩ ?_
          dsimp only
          rw [outstandingL_update s.orders oid _ p.user_id p.stock_id hinvD.2.2.2.2.1
            order hford]
          rw [sellTerm_of_inactive p.user_id p.stock_id
            ({ order with status := OrderStatus.cancelled }) (by rfl)]
          rw [sellTerm_of_sell_active p.user_id p.stock_id order hot hactive
            ⟨by rw [huser, hpkey.1], hpkey.2.symm⟩]
          have hout0 := hPB.2.2
          omega
        · rw [if_neg hge] at h
          simp only [Except.ok.injEq] at h
          subst h
          show InvD _ _ _
          dsimp only [appendHistory, updateOrderRow]
          exact hordersInv

theorem mem_update_self (l : List Order) (oid : Nat) (f : Order → Order)
    (o : Order) (hmem : o ∈ l.map (fun x => if x.id == oid then f x else x))
    (hid : o.id = oid) :
    ∃ x ∈ l, x.id = oid ∧ o = f x := by
  rw [List.mem_map] at hmem
  obtain ⟨x, hx, heq⟩ := hmem
  by_cases hb : (x.id == oid) = true
  · rw [if_pos hb] at heq
    exact ⟨x, hx, by simpa using hb, heq.symm⟩
  · rw [if_neg hb] at heq
    subst heq
    exact absurd (by simp [hid]) hb

/-- `auto_cancel_order` preserves the invariant whenever the pending
order at `oid` (if any) is still non-terminal — which holds at both
call sites, where only `retry_count`/`FAILED` were just written. -/
theorem auto_cancel_order_inv (s0 s : EngineState) (oid : Nat)
    (hinv0 : Inv s0) (hinv : Inv s)
    (hactive : ∀ o ∈ s.orders, o.id = oid → isActiveStatus o.status = true) :
    Inv (KafkaConsumerContext.auto_cancel_order s0 s oid) := by
  have hinvD : InvD s.orders s.portfolios s.next_id := hinv
  unfold KafkaConsumerContext.auto_cancel_order
  cases hfo : findOrderStock s oid with
  | none => exact hinv
  | some pr =>
    obtain ⟨order, stk⟩ := pr
    dsimp only
    obtain ⟨hford, hfstk⟩ := findOrderStock_elim hfo
    unfold findOrder at hford
    have hmem : order ∈ s.orders := List.mem_of_find?_eq_some hford
    have hoid : order.id = oid := by simpa using List.find?_some hford
    have hact : isActiveStatus order.status = true := hactive order hmem hoid
    have hOB := hinvD.2.1 order hmem
    have hordersInv : InvD
        (s.orders.map (fun x => if x.id == oid then
          { x with status := OrderStatus.cancelled } else x)) s.portfolios s.next_id := by
      refine InvD_update_order s.orders s.portfolios s.next_id oid
        (fun x => { x with status := OrderStatus.cancelled }) order hinvD hford
        (fun x => rfl) rfl rfl hOB ?_ ?_
      · intro uid' sid'
        rw [sellTerm_of_inactive uid' sid' ({ order with status := OrderStatus.cancelled })
          (by rfl)]
        exact sellTerm_nonneg uid' sid' order hOB
      · intro _ hac
        simp [isActiveStatus] at hac
    cases hot : order.order_type with
    | buy =>
      dsimp only
      cases hu : findUser s order.user_id with
      | some u =>
        dsimp only
        exact hinv0
      | none =>
        dsimp only
        show InvD _ _ _
        dsimp only [appendHistory, updateOrderRow]
        exact hordersInv
    | sell =>
      dsimp only
      cases hp : findPortfolio s order.user_id order.stock_id with
      | none =>
        dsimp only
        show InvD _ _ _
        dsimp only [appendHistory, updateOrderRow]
        exact hordersInv
      | some p =>
        dsimp only
        unfold findPortfolio at hp
        have hpkey := List.find?_some hp
        simp only [Bool.and_eq_true, beq_iff_eq] at hpkey
        have hpmem : p ∈ s.portfolios := List.mem_of_find?_eq_some hp
        have hPB := hinvD.1 p hpmem
        by_cases hge : p.hold_quantity ≥ order.quantity - order.filled_quantity
        · rw [if_pos hge]
          show InvD _ _ _
          dsimp only [appendHistory, updateOrderRow, updatePortfolioRow]
          refine InvD_update_portfolio _ s.portfolios s.next_id order.user_id order.stock_id
            (fun q => { q with
              hold_quantity := q.hold_quantity - (order.quantity - order.filled_quantity) })
            p hordersInv hp (fun q => ⟨rfl, rfl⟩)
            ⟨by dsimp only; omega, by dsimp only; omega⟩ ?_
          dsimp only
          rw [outstandingL_update s.orders oid _ p.user_id p.stock_id hinvD.2.2.2.2.1
            order hford]
          rw [sellTerm_of_inactive p.user_id p.stock_id
            ({ order with status := OrderStatus.cancelled }) (by rfl)]
          rw [sellTerm_of_sell_active p.user_id p.stock_id order hot hact
            ⟨hpkey.1.symm, hpkey.2.symm⟩]
          have hout0 := hPB.2.2
          omega
        · rw [if_neg hge]
          show InvD _ _ _
          dsimp only [appendHistory, updateOrderRow]
          exact hordersInv

/-- `reset_order_processing` preserves the invariant: it only zeroes
`retry_count` and moves one active status to another. -/
theorem reset_order_processing_inv (s : EngineState) (oid : Nat) (s2 : EngineState)
    (hinv : Inv s) (h : KafkaConsumerContext.reset_order_processing s oid = .ok s2) :
    Inv s2 := by
  have hinvD : InvD s.orders s.portfolios s.next_id := hinv
  unfold KafkaConsumerContext.reset_order_processing at h
  cases hfo : findOrder s oid with
  | none =>
    rw [hfo] at h
    simp only [Except.ok.injEq] at h
    subst h
    exact hinv
  | some order =>
    rw [hfo] at h
    dsimp only at h
    by_cases hst : (order.status == OrderStatus.pending ||
        order.status == OrderStatus.retrying) = true
    · rw [if_pos hst] at h
      simp only [Except.ok.injEq] at h
      subst h
      show InvD _ _ _
      dsimp only [appendHistory, updateOrderRow]
      unfold findOrder at hfo
      have hmem := List.mem_of_find?_eq_some hfo
      have hOB := hinvD.2.1 order hmem
      have hactive : isActiveStatus order.status = true := by
        simp only [Bool.or_eq_true, beq_iff_eq] at hst
        rcases hst with h1 | h1 <;> rw [h1] <;> rfl
      refine InvD_update_order s.orders s.portfolios s.next_id oid
        (fun x => { x with retry_count := 0, status := OrderStatus.pending }) order hinvD hfo
        (fun x => rfl) rfl rfl hOB ?_ ?_
      · intro uid' sid'
        refine sellTerm_le_of_fields uid' sid' order _ rfl rfl rfl ?_ (le_refl _)
        rw [hactive]
        rfl
      · intro hs _
        exact ⟨hs, hactive⟩
    · rw [if_neg hst] at h
      simp only [Except.ok.injEq] at h
      subst h
      exact hinv

/-- `create_buy_order` preserves the invariant: the new order is a BUY
with zero fill, so no reservation is added. -/
theorem create_buy_order_inv (s : EngineState) (uid : Nat)
    (req : OrderService.OrderCreateRequest) (s2 : EngineState)
    (hwf : WFCreate req) (hinv : Inv s)
    (h : OrderService.create_buy_order s uid req = .ok s2) : Inv s2 := by
  have hinvD : InvD s.orders s.portfolios s.next_id := hinv
  unfold OrderService.create_buy_order at h
  cases hcs : OrderService.check_stock_validity s req.stock_id with
  | error e =>
    rw [hcs] at h
    exact absurd h (by simp)
  | ok pr =>
    rw [hcs] at h
    dsimp only at h
    cases hcb : OrderService.check_user_balance s uid (req.price * (req.quantity : Rat)) with
    | error e =>
      rw [hcb] at h
      exact absurd h (by simp)
    | ok u =>
      rw [hcb] at h
      dsimp only at h
      simp only [Except.ok.injEq] at h
      subst h
      show InvD _ _ _
      dsimp only [appendHistory, updateOrderRow, updateUserRow]
      rw [List.map_append]
      rw [update_map_eq_of_no_match s.orders s.next_id _
        (fun x hx => by have := hinvD.2.2.2.1 x hx; omega)]
      simp only [List.map_cons, List.map_nil, beq_self_eq_true, if_true]
      exact InvD_append_buy_order s.orders s.portfolios s.next_id _ hinvD rfl rfl
        ⟨le_refl 0, le_of_lt hwf.2⟩

/-- `create_sell_order` preserves the invariant: the hold is raised by
the new order's quantity under the availability guard, covering the new
reservation. -/
theorem create_sell_order_inv (s : EngineState) (uid : Nat)
    (req : OrderService.OrderCreateRequest) (s2 : EngineState)
    (hwf : WFCreate req) (hinv : Inv s)
    (h : OrderService.create_sell_order s uid req = .ok s2) : Inv s2 := by
  have hinvD : InvD s.orders s.portfolios s.next_id := hinv
  unfold OrderService.create_sell_order at h
  cases hcs : OrderService.check_stock_validity s req.stock_id with
  | error e =>
    rw [hcs] at h
    exact absurd h (by simp)
  | ok pr =>
    rw [hcs] at h
    dsimp only at h
    cases hch : OrderService.check_user_holdings s uid req.stock_id req.quantity with
    | error e =>
      rw [hch] at h
      exact absurd h (by simp)
    | ok p =>
      rw [hch] at h
      dsimp only at h
      simp only [Except.ok.injEq] at h
      subst h
      have hfacts : findPortfolio s uid req.stock_id = some p ∧
          ¬(p.quantity - p.hold_quantity < req.quantity) := by
        unfold OrderService.check_user_holdings at hch
        cases hfp : findPortfolio s uid req.stock_id with
        | none =>
          rw [hfp] at hch
          exact absurd hch (by simp)
        | some q =>
          rw [hfp] at hch
          dsimp only at hch
          by_cases hlt : q.quantity - q.hold_quantity < req.quantity
          · rw [if_pos hlt] at hch
            exact absurd hch (by simp)
          · rw [if_neg hlt] at hch
            simp only [Except.ok.injEq] at hch
            subst hch
            exact ⟨rfl, hlt⟩
      obtain ⟨hfp, hlt⟩ := hfacts
      unfold findPortfolio at hfp
      have hpmem : p ∈ s.portfolios := List.mem_of_find?_eq_some hfp
      have hpkey := List.find?_some hfp
      simp only [Bool.and_eq_true, beq_iff_eq] at hpkey
      have hPB := hinvD.1 p hpmem
      show InvD _ _ _
      dsimp only [appendHistory, updateOrderRow, updatePortfolioRow]
      rw [List.map_append]
      rw [update_map_eq_of_no_match s.orders s.next_id _
        (fun x hx => by have := hinvD.2.2.2.1 x hx; omega)]
      simp only [List.map_cons, List.map_nil, beq_self_eq_true, if_true]
      have hkeys : ∀ x : PortfolioRow,
          ((fun q : PortfolioRow =>
            { q with hold_quantity := q.hold_quantity + req.quantity }) x).user_id =
            x.user_id ∧
          ((fun q : PortfolioRow =>
            { q with hold_quantity := q.hold_quantity + req.quantity }) x).stock_id =
            x.stock_id := fun x => ⟨rfl, rfl⟩
      have hkeys2 : ∀ x : PortfolioRow,
          ((if x.user_id == uid && x.stock_id == req.stock_id then
            { x with hold_quantity := x.hold_quantity + req.quantity } else x)).user_id =
            x.user_id ∧
          ((if x.user_id == uid && x.stock_id == req.stock_id then
            { x with hold_quantity := x.hold_quantity + req.quantity } else x)).stock_id =
            x.stock_id := by
        intro x
        by_cases hc : (x.user_id == uid && x.stock_id == req.stock_id) = true
        · rw [if_pos hc]
          exact ⟨rfl, rfl⟩
        · rw [if_neg hc]
          exact ⟨rfl, rfl⟩
      have hmid : InvD s.orders
          (s.portfolios.map (fun q => if q.user_id == uid && q.stock_id == req.stock_id then
            { q with hold_quantity := q.hold_quantity + req.quantity } else q))
          s.next_id := by
        refine InvD_update_portfolio s.orders s.portfolios s.next_id uid req.stock_id
          (fun q => { q with hold_quantity := q.hold_quantity + req.quantity }) p hinvD hfp
          hkeys ⟨by dsimp only; have := hwf.2; omega, by dsimp only; omega⟩ ?_
        dsimp only
        have := hwf.2
        omega
      refine InvD_append_active_sell s.orders _ s.next_id _ hmid rfl
        ⟨le_refl 0, le_of_lt hwf.2⟩ ?_ ?_
      · dsimp only
        rw [findKey_isSome_map s.portfolios _ hkeys2 uid req.stock_id, hfp]
        rfl
      · intro p2 hp2 hu2 hs2
        rw [List.mem_map] at hp2
        obtain ⟨x, hx, heq⟩ := hp2
        by_cases hk : (x.user_id == uid && x.stock_id == req.stock_id) = true
        · rw [if_pos hk] at heq
          have hkk : x.user_id = uid ∧ x.stock_id = req.stock_id := by
            simp only [Bool.and_eq_true, beq_iff_eq] at hk
            exact hk
          have hxp : x = p :=
            eq_of_mem_of_same_key s.portfolios hinvD.2.2.2.2.2 x p hx hpmem
              (by rw [hkk.1, hpkey.1]) (by rw [hkk.2, hpkey.2])
          rw [← heq]
          dsimp only
          have hsT := sellTerm_of_sell_active x.user_id x.stock_id
            ({ id := s.next_id, user_id := uid, stock_id := req.stock_id,
               order_type := OrderType.sell, status := OrderStatus.pending, price := req.price,
               quantity := req.quantity, filled_quantity := 0,
               total_amount := req.price * (req.quantity : Rat), retry_count := 0 } : Order)
            rfl rfl ⟨hkk.1.symm, hkk.2.symm⟩
          rw [hsT]
          rw [hxp]
          dsimp only
          have h1 := hPB.2.2
          omega
        · rw [if_neg hk] at heq
          rw [← heq]
          exfalso
          apply hk
          rw [← heq] at hu2 hs2
          simp only [Bool.and_eq_true, beq_iff_eq]
          exact ⟨hu2, hs2⟩

/-- Invariant transfer for the fill write
`filled_quantity += executed_quantity`. -/
theorem InvD_fill (orders : List Order) (pfs : List PortfolioRow) (nid oid : Nat)
    (order : Order) (hinv : InvD orders pfs nid)
    (hford : orders.find? (fun x => x.id == oid) = some order) :
    InvD (orders.map (fun x => if x.id == oid then
      { x with filled_quantity := x.filled_quantity + (order.quantity - order.filled_quantity) }
      else x)) pfs nid := by
  have hmem := List.mem_of_find?_eq_some hford
  have hOB := hinv.2.1 order hmem
  refine InvD_update_order orders pfs nid oid
    (fun x => { x with filled_quantity := x.filled_quantity +
      (order.quantity - order.filled_quantity) }) order hinv hford (fun x => rfl) rfl rfl
    ?_ ?_ ?_
  · have hb : 0 ≤ order.filled_quantity + (order.quantity - order.filled_quantity) ∧
        order.filled_quantity + (order.quantity - order.filled_quantity) ≤ order.quantity := by
      omega
    exact hb
  · intro uid' sid'
    refine sellTerm_le_of_fields uid' sid' order _ rfl rfl rfl rfl ?_
    have hb : order.quantity -
        (order.filled_quantity + (order.quantity - order.filled_quantity)) ≤
        order.quantity - order.filled_quantity := by omega
    exact hb
  · intro hs ha
    exact ⟨hs, ha⟩

/-- Invariant transfer for the full-fill write (fill plus
`status := SUCCESS`). -/
theorem InvD_fill_success (orders : List Order) (pfs : List PortfolioRow) (nid oid : Nat)
    (order : Order) (hinv : InvD orders pfs nid)
    (hford : orders.find? (fun x => x.id == oid) = some order) :
    InvD (orders.map (fun x => if x.id == oid then
      { x with filled_quantity := x.filled_quantity + (order.quantity - order.filled_quantity),
               status := OrderStatus.success }
      else x)) pfs nid := by
  have hmem := List.mem_of_find?_eq_some hford
  have hOB := hinv.2.1 order hmem
  refine InvD_update_order orders pfs nid oid
    (fun x => { x with filled_quantity := x.filled_quantity +
      (order.quantity - order.filled_quantity), status := OrderStatus.success }) order hinv
    hford (fun x => rfl) rfl rfl ?_ ?_ ?_
  · have hb : 0 ≤ order.filled_quantity + (order.quantity - order.filled_quantity) ∧
        order.filled_quantity + (order.quantity - order.filled_quantity) ≤ order.quantity := by
      omega
    exact hb
  · intro uid' sid'
    have hsT := sellTerm_of_inactive uid' sid'
      ({ order with filled_quantity := order.filled_quantity +
        (order.quantity - order.filled_quantity), status := OrderStatus.success }) (by rfl)
    exact le_trans hsT.le (sellTerm_nonneg uid' sid' order hOB)
  · intro _ ha
    simp [isActiveStatus] at ha

/-- Invariant transfer for the missing-price write
(`status := FAILED`, `retry_count += 1`): `FAILED` is still
non-terminal, so the reservation is unchanged. -/
theorem InvD_mark_failed (orders : List Order) (pfs : List PortfolioRow) (nid oid : Nat)
    (order : Order) (hinv : InvD orders pfs nid)
    (hford : orders.find? (fun x => x.id == oid) = some order)
    (hactive : isActiveStatus order.status = true) :
    InvD (orders.map (fun x => if x.id == oid then
      { x with status := OrderStatus.failed, retry_count := x.retry_count + 1 }
      else x)) pfs nid := by
  have hmem := List.mem_of_find?_eq_some hford
  have hOB := hinv.2.1 order hmem
  refine InvD_update_order orders pfs nid oid
    (fun x => { x with status := OrderStatus.failed, retry_count := x.retry_count + 1 }) order
    hinv hford (fun x => rfl) rfl rfl hOB ?_ ?_
  · intro uid' sid'
    refine sellTerm_le_of_fields uid' sid' order _ rfl rfl rfl ?_ (le_refl _)
    rw [hactive]
    rfl
  · intro hs _
    exact ⟨hs, hactive⟩

/-- Invariant transfer for the ineligible-fill retry bump
(`retry_count += 1` only). -/
theorem InvD_bump_retry (orders : List Order) (pfs : List PortfolioRow) (nid oid : Nat)
    (order : Order) (hinv : InvD orders pfs nid)
    (hford : orders.find? (fun x => x.id == oid) = some order) :
    InvD (orders.map (fun x => if x.id == oid then
      { x with retry_count := x.retry_count + 1 } else x)) pfs nid := by
  have hmem := List.mem_of_find?_eq_some hford
  have hOB := hinv.2.1 order hmem
  refine InvD_update_order orders pfs nid oid
    (fun x => { x with retry_count := x.retry_count + 1 }) order hinv hford (fun x => rfl)
    rfl rfl hOB ?_ ?_
  · intro uid' sid'
    exact sellTerm_le_of_fields uid' sid' order _ rfl rfl rfl rfl (le_refl _)
  · intro hs ha
    exact ⟨hs, ha⟩

/-- Invariant transfer for the below-threshold retry write
(`retry_count += 1` composed with `status := RETRYING`). -/
theorem InvD_mark_retrying (orders : List Order) (pfs : List PortfolioRow) (nid oid : Nat)
    (order : Order) (hinv : InvD orders pfs nid)
    (hford : orders.find? (fun x => x.id == oid) = some order)
    (hactive : isActiveStatus order.status = true) :
    InvD (orders.map (fun x => if x.id == oid then
      { x with retry_count := x.retry_count + 1, status := OrderStatus.retrying }
      else x)) pfs nid := by
  have hmem := List.mem_of_find?_eq_some hford
  have hOB := hinv.2.1 order hmem
  refine InvD_update_order orders pfs nid oid
    (fun x => { x with retry_count := x.retry_count + 1, status := OrderStatus.retrying })
    order hinv hford (fun x => rfl) rfl rfl hOB ?_ ?_
  · intro uid' sid'
    refine sellTerm_le_of_fields uid' sid' order _ rfl rfl rfl ?_ (le_refl _)
    rw [hactive]
    rfl
  · intro hs _
    exact ⟨hs, hactive⟩

/-- `update_order` preserves the invariant: BUY updates touch only the
balance; the SELL hold is raised (under the availability guard) exactly
when the quantity grows, and the reservation shrinks otherwise. -/
theorem update_order_inv (s : EngineState) (oid uid : Nat)
    (request : OrderService.OrderUpdateRequest) (s2 : EngineState)
    (hwf : WFUpdate request) (hinv : Inv s)
    (h : OrderService.update_order s oid uid request = .ok s2) : Inv s2 := by
  have hinvD : InvD s.orders s.portfolios s.next_id := hinv
  unfold OrderService.update_order at h
  cases hfo : findOrderStockOwned s oid uid with
  | none =>
    rw [hfo] at h
    exact absurd h (by simp)
  | some pr =>
    obtain ⟨order, stk⟩ := pr
    rw [hfo] at h
    dsimp only at h
    obtain ⟨hford, hfstk, huser⟩ := findOrderStockOwned_elim hfo
    unfold findOrder at hford
    have hmem : order ∈ s.orders := List.mem_of_find?_eq_some hford
    have hOB := hinvD.2.1 order hmem
    by_cases hactiveB : (order.status == OrderStatus.initial ||
        order.status == OrderStatus.pending || order.status == OrderStatus.failed ||
        order.status == OrderStatus.retrying) = true
    case neg =>
      have hx : (order.status == OrderStatus.initial || order.status == OrderStatus.pending ||
          order.status == OrderStatus.failed || order.status == OrderStatus.retrying) = false := by
        revert hactiveB
        cases order.status == OrderStatus.initial || order.status == OrderStatus.pending ||
          order.status == OrderStatus.failed || order.status == OrderStatus.retrying <;> simp
      rw [if_pos (by rw [hx]; rfl)] at h
      exact absurd h (by simp)
    rw [if_neg (by rw [hactiveB]; simp)] at h
    have hactive : isActiveStatus order.status = true := hactiveB
    by_cases hfg : order.filled_quantity > 0
    · rw [if_pos hfg] at h
      exact absurd h (by simp)
    rw [if_neg hfg] at h
    have hf0 : order.filled_quantity = 0 := by omega
    by_cases hsome : (request.price.isSome || request.quantity.isSome) = true
    case neg =>
      rw [if_neg hsome] at h
      simp only [Except.ok.injEq] at h
      subst h
      exact hinv
    rw [if_pos hsome] at h
    try dsimp only at h
    cases hot : order.order_type with
    | buy =>
      rw [hot] at h
      dsimp only at h
      have hq0 : (0 : Int) ≤ request.quantity.getD order.quantity := by
        cases hq : request.quantity with
        | none =>
          simp only [Option.getD_none]
          omega
        | some q =>
          simp only [Option.getD_some]
          exact le_of_lt (hwf.2 q hq)
      have hgoal : InvD
          (s.orders.map (fun x => if x.id == oid then
            { x with
              price := request.price.getD order.price,
              quantity := request.quantity.getD order.quantity,
              total_amount := request.price.getD order.price *
                ((request.quantity.getD order.quantity : Int) : Rat) } else x))
          s.portfolios s.next_id := by
        refine InvD_update_order s.orders s.portfolios s.next_id oid
          (fun x => { x with
            price := request.price.getD order.price,
            quantity := request.quantity.getD order.quantity,
            total_amount := request.price.getD order.price *
              ((request.quantity.getD order.quantity : Int) : Rat) })
          order hinvD hford (fun x => rfl) rfl rfl ?_ ?_ ?_
        · have hb : 0 ≤ order.filled_quantity ∧
              order.filled_quantity ≤ request.quantity.getD order.quantity := by omega
          exact hb
        · intro uid' sid'
          exact sellTerm_le_of_buy uid' sid' order _ rfl hot
        · intro hs _
          exact absurd (hot.symm.trans hs) (by decide)
      by_cases hpos : request.price.getD order.price *
          ((request.quantity.getD order.quantity : Int) : Rat) - order.total_amount > 0
      · rw [if_pos hpos] at h
        cases hu : findUser s uid with
        | none =>
          rw [hu] at h
          exact absurd h (by simp)
        | some u =>
          rw [hu] at h
          dsimp only at h
          by_cases hbal : u.balance < request.price.getD order.price *
              ((request.quantity.getD order.quantity : Int) : Rat) - order.total_amount
          · rw [if_pos hbal] at h
            exact absurd h (by simp)
          · rw [if_neg hbal] at h
            dsimp only at h
            simp only [Except.ok.injEq] at h
            subst h
            show InvD _ _ _
            dsimp only [appendHistory, updateOrderRow, updateUserRow]
            exact hgoal
      · rw [if_neg hpos] at h
        by_cases hneg : request.price.getD order.price *
            ((request.quantity.getD order.quantity : Int) : Rat) - order.total_amount < 0
        · rw [if_pos hneg] at h
          cases hu : findUser s uid with
          | none =>
            rw [hu] at h
            dsimp only at h
            simp only [Except.ok.injEq] at h
            subst h
            show InvD _ _ _
            dsimp only [appendHistory, updateOrderRow]
            exact hgoal
          | some u =>
            rw [hu] at h
            dsimp only at h
            simp only [Except.ok.injEq] at h
            subst h
            show InvD _ _ _
            dsimp only [appendHistory, updateOrderRow, updateUserRow]
            exact hgoal
        · rw [if_neg hneg] at h
          dsimp only at h
          simp only [Except.ok.injEq] at h
          subst h
          show InvD _ _ _
          dsimp only [appendHistory, updateOrderRow]
          exact hgoal
    | sell =>
      rw [hot] at h
      dsimp only at h
      cases hrq : request.quantity with
      | none =>
        rw [hrq] at h
        dsimp only at h
        simp only [Option.getD_none, Except.ok.injEq] at h
        subst h
        show InvD _ _ _
        dsimp only [appendHistory, updateOrderRow]
        refine InvD_update_order s.orders s.portfolios s.next_id oid
          (fun x => { x with
            price := request.price.getD order.price,
            quantity := order.quantity,
            total_amount := request.price.getD order.price *
              ((order.quantity : Int) : Rat) })
          order hinvD hford (fun x => rfl) rfl rfl hOB ?_ ?_
        · intro uid' sid'
          exact sellTerm_le_of_fields uid' sid' order _ rfl rfl rfl rfl (le_refl _)
        · intro hs ha
          exact ⟨hs, ha⟩
      | some rq =>
        rw [hrq] at h
        dsimp only at h
        simp only [Option.getD_some] at h
        have hrqpos : (0 : Int) < rq := hwf.2 rq hrq
        by_cases hgrow : rq > order.quantity
        case neg =>
          rw [if_neg hgrow] at h
          dsimp only at h
          simp only [Except.ok.injEq] at h
          subst h
          show InvD _ _ _
          dsimp only [appendHistory, updateOrderRow]
          refine InvD_update_order s.orders s.portfolios s.next_id oid
            (fun x => { x with
              price := request.price.getD order.price,
              quantity := rq,
              total_amount := request.price.getD order.price * ((rq : Int) : Rat) })
            order hinvD hford (fun x => rfl) rfl rfl ?_ ?_ ?_
          · have hb : 0 ≤ order.filled_quantity ∧ order.filled_quantity ≤ rq := by omega
            exact hb
          · intro uid' sid'
            refine sellTerm_le_of_fields uid' sid' order _ rfl rfl rfl rfl ?_
            have hb : rq - order.filled_quantity ≤ order.quantity - order.filled_quantity := by
              omega
            exact hb
          · intro hs ha
            exact ⟨hs, ha⟩
        case pos =>
          rw [if_pos hgrow] at h
          try dsimp only at h
          cases hp : findPortfolio s uid order.stock_id with
          | none =>
            rw [hp] at h
            exact absurd h (by simp)
          | some p =>
            rw [hp] at h
            dsimp only at h
            unfold findPortfolio at hp
            have hpmem : p ∈ s.portfolios := List.mem_of_find?_eq_some hp
            have hpkey := List.find?_some hp
            simp only [Bool.and_eq_true, beq_iff_eq] at hpkey
            have hPB := hinvD.1 p hpmem
            by_cases havail : p.quantity - p.hold_quantity + order.quantity < rq
            · rw [if_pos havail] at h
              exact absurd h (by simp)
            · rw [if_neg havail] at h
              dsimp only at h
              simp only [Except.ok.injEq] at h
              subst h
              show InvD _ _ _
              dsimp only [appendHistory, updateOrderRow, updatePortfolioRow]
              have hmid : InvD s.orders
                  (s.portfolios.map (fun q => if q.user_id == uid && q.stock_id == order.stock_id
                    then { q with hold_quantity := q.hold_quantity + (rq - order.quantity) }
                    else q))
                  s.next_id := by
                refine InvD_update_portfolio s.orders s.portfolios s.next_id uid order.stock_id
                  (fun q => { q with hold_quantity := q.hold_quantity + (rq - order.quantity) })
                  p hinvD hp (fun q => ⟨rfl, rfl⟩)
                  ⟨by dsimp only; omega, by dsimp only; omega⟩ ?_
                dsimp only
                have h1 := hPB.2.2
                omega
              refine InvD_update_order_gen s.orders _ s.next_id oid
                (fun x => { x with
                  price := request.price.getD order.price,
                  quantity := rq,
                  total_amount := request.price.getD order.price * ((rq : Int) : Rat) })
                order hmid hford (fun x => rfl) rfl rfl ?_ ?_ ?_
              · have hb : 0 ≤ order.filled_quantity ∧ order.filled_quantity ≤ rq := by omega
                exact hb
              · intro p2 hp2
                rw [List.mem_map] at hp2
                obtain ⟨x, hx, heq⟩ := hp2
                rw [outstandingL_update s.orders oid _ p2.user_id p2.stock_id
                  hinvD.2.2.2.2.1 order hford]
                try dsimp only
                by_cases hk : (x.user_id == uid && x.stock_id == order.stock_id) = true
                · rw [if_pos hk] at heq
                  have hkk : x.user_id = uid ∧ x.stock_id = order.stock_id := by
                    simp only [Bool.and_eq_true, beq_iff_eq] at hk
                    exact hk
                  have hxp : x = p :=
                    eq_of_mem_of_same_key s.portfolios hinvD.2.2.2.2.2 x p hx hpmem
                      (by rw [hkk.1, hpkey.1]) (by rw [hkk.2, hpkey.2])
                  subst hxp
                  rw [← heq]
                  dsimp only
                  have hpair : order.user_id = x.user_id ∧ order.stock_id = x.stock_id :=
                    ⟨huser.trans hkk.1.symm, hkk.2.symm⟩
                  have hsT1 := sellTerm_of_sell_active x.user_id x.stock_id order hot hactive
                    hpair
                  have hsT2 := sellTerm_of_sell_active x.user_id x.stock_id
                    ({ id := order.id, user_id := order.user_id, stock_id := order.stock_id,
                       order_type := order.order_type, status := order.status,
                       price := request.price.getD order.price, quantity := rq,
                       filled_quantity := order.filled_quantity,
                       total_amount := request.price.getD order.price * ((rq : Int) : Rat),
                       retry_count := order.retry_count } : Order) hot hactive hpair
                  rw [hsT1, hsT2]
                  dsimp only
                  have h1 := hPB.2.2
                  omega
                · rw [if_neg hk] at heq
                  subst heq
                  have hnp : ¬(order.user_id = x.user_id ∧ order.stock_id = x.stock_id) := by
                    intro hc
                    apply hk
                    simp only [Bool.and_eq_true, beq_iff_eq]
                    exact ⟨hc.1.symm.trans huser, hc.2.symm⟩
                  have hsT1 := sellTerm_of_ne_pair x.user_id x.stock_id order hnp
                  have hsT2 := sellTerm_of_ne_pair x.user_id x.stock_id
                    ({ id := order.id, user_id := order.user_id, stock_id := order.stock_id,
                       order_type := order.order_type, status := order.status,
                       price := request.price.getD order.price, quantity := rq,
                       filled_quantity := order.filled_quantity,
                       total_amount := request.price.getD order.price * ((rq : Int) : Rat),
                       retry_count := order.retry_count } : Order) hnp
                  rw [hsT1, hsT2]
                  have h1 := (hinvD.1 x hx).2.2
                  omega
              · intro hs ha
                exact ⟨hs, ha⟩

/-- `OrderService.process_order` preserves the invariant along every
success path: fills move the reservation and the holding together, the
missing-price and retry writes keep it, and the threshold cascade goes
through `cancel_order`. -/
theorem process_order_service_inv (s : EngineState) (oid : Nat) (s2 : EngineState)
    (hinv : Inv s) (h : OrderService.process_order s oid = .ok s2) : Inv s2 := by
  have hinvD : InvD s.orders s.portfolios s.next_id := hinv
  unfold OrderService.process_order at h
  cases hfo : findOrderStock s oid with
  | none =>
    rw [hfo] at h
    exact absurd h (by simp)
  | some pr =>
    obtain ⟨order, stk⟩ := pr
    rw [hfo] at h
    dsimp only at h
    obtain ⟨hford, hfstk⟩ := findOrderStock_elim hfo
    unfold findOrder at hford
    have hmem : order ∈ s.orders := List.mem_of_find?_eq_some hford
    have hOB := hinvD.2.1 order hmem
    by_cases hstB : (order.status == OrderStatus.pending ||
        order.status == OrderStatus.retrying) = true
    case neg =>
      have hx : (order.status == OrderStatus.pending ||
          order.status == OrderStatus.retrying) = false := by
        revert hstB
        cases order.status == OrderStatus.pending || order.status == OrderStatus.retrying <;>
          simp
      rw [if_pos (by rw [hx]; rfl)] at h
      exact absurd h (by simp)
    rw [if_neg (by rw [hstB]; simp)] at h
    have hactive : isActiveStatus order.status = true := by
      have hst2 := hstB
      simp only [Bool.or_eq_true, beq_iff_eq] at hst2
      rcases hst2 with h1 | h1 <;> rw [h1] <;> rfl
    try dsimp only at h
    cases hpr : findStockPrice s order.stock_id with
    | none =>
      rw [hpr] at h
      dsimp only at h
      have hfailInvD : InvD
          (s.orders.map (fun x => if x.id == oid then
            { x with status := OrderStatus.failed, retry_count := x.retry_count + 1 }
            else x)) s.portfolios s.next_id :=
        InvD_mark_failed s.orders s.portfolios s.next_id oid order hinvD hford hactive
      by_cases hret : order.retry_count + 1 ≥ 3
      · rw [if_pos hret] at h
        refine cancel_order_inv _ oid order.user_id s2 ?_ h
        show InvD _ _ _
        dsimp only [appendHistory, updateOrderRow]
        exact hfailInvD
      · rw [if_neg hret] at h
        simp only [Except.ok.injEq] at h
        subst h
        show InvD _ _ _
        dsimp only [appendHistory, updateOrderRow]
        exact hfailInvD
    | some price_data =>
      rw [hpr] at h
      dsimp only at h
      by_cases hexec : ((order.order_type == OrderType.buy &&
          decide (order.price ≥ price_data.current_price)) ||
          (order.order_type == OrderType.sell &&
          decide (order.price ≤ price_data.current_price))) = true
      · rw [if_pos hexec] at h
        try dsimp only at h
        cases hot : order.order_type with
        | buy =>
          rw [hot] at h
          dsimp only at h
          rw [findPortfolio_appendTransaction] at h
          cases hfp : findPortfolio s order.user_id order.stock_id with
          | none =>
            rw [hfp] at h
            dsimp only at h
            unfold findPortfolio at hfp
            have hpfInv : InvD s.orders
                (s.portfolios ++
                  [{ user_id := order.user_id, stock_id := order.stock_id,
                     quantity := order.quantity - order.filled_quantity,
                     avg_purchase_price := price_data.current_price,
                     total_purchase_amount := price_data.current_price *
                       ((order.quantity - order.filled_quantity : Int) : Rat),
                     hold_quantity := 0 }]) s.next_id := by
              refine InvD_append_portfolio s.orders s.portfolios s.next_id _ hinvD hfp ?_ ?_
              · have hb : (0 : Int) ≤ 0 ∧ (0 : Int) ≤ order.quantity - order.filled_quantity := by
                  omega
                exact hb
              · exact le_of_eq (outstandingL_zero_of_no_portfolio s.orders s.portfolios
                  s.next_id order.user_id order.stock_id hinvD hfp)
            by_cases hfull : order.filled_quantity +
                (order.quantity - order.filled_quantity) ≥ order.quantity
            · rw [if_pos hfull] at h
              simp only [Except.ok.injEq] at h
              subst h
              show InvD _ _ _
              dsimp only [appendHistory, updateOrderRow, appendPortfolio, appendTransaction]
              rw [updateOrder_map_map s.orders oid
                (fun o => { o with filled_quantity := o.filled_quantity +
                  (order.quantity - order.filled_quantity) })
                (fun o => { o with status := OrderStatus.success }) (fun x => rfl)]
              exact InvD_fill_success s.orders _ s.next_id oid order hpfInv hford
            · rw [if_neg hfull] at h
              simp only [Except.ok.injEq] at h
              subst h
              show InvD _ _ _
              dsimp only [updateOrderRow, appendPortfolio, appendTransaction]
              exact InvD_fill s.orders _ s.next_id oid order hpfInv hford
          | some p =>
            rw [hfp] at h
            dsimp only at h
            unfold findPortfolio at hfp
            have hpmem : p ∈ s.portfolios := List.mem_of_find?_eq_some hfp
            have hPB := hinvD.1 p hpmem
            have hpfInv : InvD s.orders
                (s.portfolios.map (fun q =>
                  if q.user_id == order.user_id && q.stock_id == order.stock_id then
                    { q with
                      quantity := p.quantity + (order.quantity - order.filled_quantity),
                      total_purchase_amount := p.total_purchase_amount +
                        price_data.current_price *
                          ((order.quantity - order.filled_quantity : Int) : Rat),
                      avg_purchase_price := (p.total_purchase_amount +
                        price_data.current_price *
                          ((order.quantity - order.filled_quantity : Int) : Rat)) /
                        ((p.quantity + (order.quantity - order.filled_quantity) : Int) : Rat) }
                  else q)) s.next_id := by
              refine InvD_update_portfolio s.orders s.portfolios s.next_id order.user_id
                order.stock_id _ p hinvD hfp (fun q => ⟨rfl, rfl⟩)
                ⟨by dsimp only; omega, by dsimp only; omega⟩ ?_
              dsimp only
              exact hPB.2.2
            by_cases hfull : order.filled_quantity +
                (order.quantity - order.filled_quantity) ≥ order.quantity
            · rw [if_pos hfull] at h
              simp only [Except.ok.injEq] at h
              subst h
              show InvD _ _ _
              dsimp only [appendHistory, updateOrderRow, updatePortfolioRow, appendTransaction]
              rw [updateOrder_map_map s.orders oid
                (fun o => { o with filled_quantity := o.filled_quantity +
                  (order.quantity - order.filled_quantity) })
                (fun o => { o with status := OrderStatus.success }) (fun x => rfl)]
              exact InvD_fill_success s.orders _ s.next_id oid order hpfInv hford
            · rw [if_neg hfull] at h
              simp only [Except.ok.injEq] at h
              subst h
              show InvD _ _ _
              dsimp only [updateOrderRow, updatePortfolioRow, appendTransaction]
              exact InvD_fill s.orders _ s.next_id oid order hpfInv hford
        | sell =>
          rw [hot] at h
          dsimp only at h
          rw [findPortfolio_appendTransaction] at h
          cases hfp : findPortfolio s order.user_id order.stock_id with
          | none =>
            rw [hfp] at h
            dsimp only at h
            by_cases hfull : order.filled_quantity +
                (order.quantity - order.filled_quantity) ≥ order.quantity
            · rw [if_pos hfull] at h
              simp only [Except.ok.injEq] at h
              subst h
              show InvD _ _ _
              dsimp only [appendHistory, updateOrderRow, appendTransaction]
              rw [updateOrder_map_map s.orders oid
                (fun o => { o with filled_quantity := o.filled_quantity +
                  (order.quantity - order.filled_quantity) })
                (fun o => { o with status := OrderStatus.success }) (fun x => rfl)]
              exact InvD_fill_success s.orders s.portfolios s.next_id oid order hinvD hford
            · rw [if_neg hfull] at h
              simp only [Except.ok.injEq] at h
              subst h
              show InvD _ _ _
              dsimp only [updateOrderRow, appendTransaction]
              exact InvD_fill s.orders s.portfolios s.next_id oid order hinvD hford
          | some p =>
            rw [hfp] at h
            dsimp only at h
            rw [findUser_updatePortfolioRow, findUser_appendTransaction] at h
            unfold findPortfolio at hfp
            have hpmem : p ∈ s.portfolios := List.mem_of_find?_eq_some hfp
            have hpkey := List.find?_some hfp
            simp only [Bool.and_eq_true, beq_iff_eq] at hpkey
            have hPB := hinvD.1 p hpmem
            have hsE : sellTerm p.user_id p.stock_id order =
                order.quantity - order.filled_quantity :=
              sellTerm_of_sell_active p.user_id p.stock_id order hot hactive
                ⟨hpkey.1.symm, hpkey.2.symm⟩
            have hle1 : sellTerm p.user_id p.stock_id order ≤
                outstandingL s.orders p.user_id p.stock_id :=
              sellTerm_le_outstandingL s.orders p.user_id p.stock_id order hmem hinvD.2.1
            have hout0 := hPB.2.2
            cases hu : findUser s order.user_id with
            | some u =>
              rw [hu] at h
              dsimp only at h
              by_cases hfull : order.filled_quantity +
                  (order.quantity - order.filled_quantity) ≥ order.quantity
              · rw [if_pos hfull] at h
                simp only [Except.ok.injEq] at h
                subst h
                show InvD _ _ _
                dsimp only [appendHistory, updateOrderRow, updateUserRow, updatePortfolioRow,
                  appendTransaction]
                rw [updateOrder_map_map s.orders oid
                  (fun o => { o with filled_quantity := o.filled_quantity +
                    (order.quantity - order.filled_quantity) })
                  (fun o => { o with status := OrderStatus.success }) (fun x => rfl)]
                refine InvD_update_portfolio _ s.portfolios s.next_id order.user_id
                  order.stock_id _ p
                  (InvD_fill_success s.orders s.portfolios s.next_id oid order hinvD hford)
                  hfp (fun q => ⟨rfl, rfl⟩)
                  ⟨by dsimp only; omega, by dsimp only; omega⟩ ?_
                dsimp only
                rw [outstandingL_update s.orders oid _ p.user_id p.stock_id
                  hinvD.2.2.2.2.1 order hford]
                have hsT2 := sellTerm_of_inactive p.user_id p.stock_id
                  ({ order with filled_quantity := order.filled_quantity +
                    (order.quantity - order.filled_quantity), status := OrderStatus.success })
                  (by rfl)
                rw [hsT2, hsE]
                omega
              · rw [if_neg hfull] at h
                simp only [Except.ok.injEq] at h
                subst h
                show InvD _ _ _
                dsimp only [updateOrderRow, updateUserRow, updatePortfolioRow,
                  appendTransaction]
                refine InvD_update_portfolio _ s.portfolios s.next_id order.user_id
                  order.stock_id _ p
                  (InvD_fill s.orders s.portfolios s.next_id oid order hinvD hford)
                  hfp (fun q => ⟨rfl, rfl⟩)
                  ⟨by dsimp only; omega, by dsimp only; omega⟩ ?_
                dsimp only
                rw [outstandingL_update s.orders oid _ p.user_id p.stock_id
                  hinvD.2.2.2.2.1 order hford]
                have hsT2 := sellTerm_of_sell_active p.user_id p.stock_id
                  ({ order with filled_quantity := order.filled_quantity +
                    (order.quantity - order.filled_quantity) }) hot hactive
                  ⟨hpkey.1.symm, hpkey.2.symm⟩
                rw [hsT2, hsE]
                dsimp only
                omega
            | none =>
              rw [hu] at h
              dsimp only at h
              by_cases hfull : order.filled_quantity +
                  (order.quantity - order.filled_quantity) ≥ order.quantity
              · rw [if_pos hfull] at h
                simp only [Except.ok.injEq] at h
                subst h
                show InvD _ _ _
                dsimp only [appendHistory, updateOrderRow, updatePortfolioRow,
                  appendTransaction]
                rw [updateOrder_map_map s.orders oid
                  (fun o => { o with filled_quantity := o.filled_quantity +
                    (order.quantity - order.filled_quantity) })
                  (fun o => { o with status := OrderStatus.success }) (fun x => rfl)]
                refine InvD_update_portfolio _ s.portfolios s.next_id order.user_id
                  order.stock_id _ p
                  (InvD_fill_success s.orders s.portfolios s.next_id oid order hinvD hford)
                  hfp (fun q => ⟨rfl, rfl⟩)
                  ⟨by dsimp only; omega, by dsimp only; omega⟩ ?_
                dsimp only
                rw [outstandingL_update s.orders oid _ p.user_id p.stock_id
                  hinvD.2.2.2.2.1 order hford]
                have hsT2 := sellTerm_of_inactive p.user_id p.stock_id
                  ({ order with filled_quantity := order.filled_quantity +
                    (order.quantity - order.filled_quantity), status := OrderStatus.success })
                  (by rfl)
                rw [hsT2, hsE]
                omega
              · rw [if_neg hfull] at h
                simp only [Except.ok.injEq] at h
                subst h
                show InvD _ _ _
                dsimp only [updateOrderRow, updatePortfolioRow, appendTransaction]
                refine InvD_update_portfolio _ s.portfolios s.next_id order.user_id
                  order.stock_id _ p
                  (InvD_fill s.orders s.portfolios s.next_id oid order hinvD hford)
                  hfp (fun q => ⟨rfl, rfl⟩)
                  ⟨by dsimp only; omega, by dsimp only; omega⟩ ?_
                dsimp only
                rw [outstandingL_update s.orders oid _ p.user_id p.stock_id
                  hinvD.2.2.2.2.1 order hford]
                have hsT2 := sellTerm_of_sell_active p.user_id p.stock_id
                  ({ order with filled_quantity := order.filled_quantity +
                    (order.quantity - order.filled_quantity) }) hot hactive
                  ⟨hpkey.1.symm, hpkey.2.symm⟩
                rw [hsT2, hsE]
                dsimp only
                omega
      · rw [if_neg hexec] at h
        try dsimp only at h
        have hretryInvD : InvD
            (s.orders.map (fun x => if x.id == oid then
              { x with retry_count := x.retry_count + 1 } else x)) s.portfolios s.next_id :=
          InvD_bump_retry s.orders s.portfolios s.next_id oid order hinvD hford
        by_cases hret : order.retry_count + 1 ≥ 3
        · rw [if_pos hret] at h
          refine cancel_order_inv _ oid order.user_id s2 ?_ h
          show InvD _ _ _
          dsimp only [updateOrderRow]
          exact hretryInvD
        · rw [if_neg hret] at h
          try dsimp only at h
          simp only [Except.ok.injEq] at h
          subst h
          show InvD _ _ _
          dsimp only [appendHistory, updateOrderRow]
          rw [updateOrder_map_map s.orders oid
            (fun o => { o with retry_count := o.retry_count + 1 })
            (fun o => { o with status := OrderStatus.retrying }) (fun x => rfl)]
          exact InvD_mark_retrying s.orders s.portfolios s.next_id oid order hinvD hford
            hactive

/-- `KafkaConsumerContext.process_order` preserves the invariant along
every success path; the threshold cascade goes through
`auto_cancel_order` with a still-non-terminal order row. -/
theorem process_order_consumer_inv (s : EngineState) (oid : Nat) (s2 : EngineState)
    (hinv : Inv s) (h : KafkaConsumerContext.process_order s oid = .ok s2) : Inv s2 := by
  have hinvD : InvD s.orders s.portfolios s.next_id := hinv
  unfold KafkaConsumerContext.process_order at h
  cases hfo : findOrderStock s oid with
  | none =>
    rw [hfo] at h
    simp only [Except.ok.injEq] at h
    subst h
    exact hinv
  | some pr =>
    obtain ⟨order, stk⟩ := pr
    rw [hfo] at h
    dsimp only at h
    obtain ⟨hford, hfstk⟩ := findOrderStock_elim hfo
    unfold findOrder at hford
    have hmem : order ∈ s.orders := List.mem_of_find?_eq_some hford
    have hoid : order.id = oid := by simpa using List.find?_some hford
    have hOB := hinvD.2.1 order hmem
    by_cases hstB : (order.status == OrderStatus.pending ||
        order.status == OrderStatus.retrying) = true
    case neg =>
      have hx : (order.status == OrderStatus.pending ||
          order.status == OrderStatus.retrying) = false := by
        revert hstB
        cases order.status == OrderStatus.pending || order.status == OrderStatus.retrying <;>
          simp
      rw [if_pos (by rw [hx]; rfl)] at h
      simp only [Except.ok.injEq] at h
      subst h
      exact hinv
    rw [if_neg (by rw [hstB]; simp)] at h
    have hactive : isActiveStatus order.status = true := by
      have hst2 := hstB
      simp only [Bool.or_eq_true, beq_iff_eq] at hst2
      rcases hst2 with h1 | h1 <;> rw [h1] <;> rfl
    try dsimp only at h
    cases hpr : findStockPrice s order.stock_id with
    | none =>
      rw [hpr] at h
      dsimp only at h
      have hfailInvD : InvD
          (s.orders.map (fun x => if x.id == oid then
            { x with status := OrderStatus.failed, retry_count := x.retry_count + 1 }
            else x)) s.portfolios s.next_id :=
        InvD_mark_failed s.orders s.portfolios s.next_id oid order hinvD hford hactive
      by_cases hret : order.retry_count + 1 ≥ 3
      · rw [if_pos hret] at h
        simp only [Except.ok.injEq] at h
        subst h
        refine auto_cancel_order_inv s _ oid hinv ?_ ?_
        · show InvD _ _ _
          dsimp only [appendHistory, updateOrderRow]
          exact hfailInvD
        · intro o hmo hido
          dsimp only [appendHistory, updateOrderRow] at hmo
          obtain ⟨x, hx, hxid, hxeq⟩ := mem_update_self s.orders oid _ o hmo hido
          rw [hxeq]
          rfl
      · rw [if_neg hret] at h
        simp only [Except.ok.injEq] at h
        subst h
        show InvD _ _ _
        dsimp only [appendHistory, updateOrderRow]
        exact hfailInvD
    | some price_data =>
      rw [hpr] at h
      dsimp only at h
      by_cases hexec : ((order.order_type == OrderType.buy &&
          decide (order.price ≥ price_data.current_price)) ||
          (order.order_type == OrderType.sell &&
          decide (order.price ≤ price_data.current_price))) = true
      · rw [if_pos hexec] at h
        try dsimp only at h
        cases hot : order.order_type with
        | buy =>
          rw [hot] at h
          dsimp only at h
          rw [findPortfolio_appendTransaction] at h
          cases hfp : findPortfolio s order.user_id order.stock_id with
          | none =>
            rw [hfp] at h
            dsimp only at h
            unfold findPortfolio at hfp
            have hpfInv : InvD s.orders
                (s.portfolios ++
                  [{ user_id := order.user_id, stock_id := order.stock_id,
                     quantity := order.quantity - order.filled_quantity,
                     avg_purchase_price := price_data.current_price,
                     total_purchase_amount := price_data.current_price *
                       ((order.quantity - order.filled_quantity : Int) : Rat),
                     hold_quantity := 0 }]) s.next_id := by
              refine InvD_append_portfolio s.orders s.portfolios s.next_id _ hinvD hfp ?_ ?_
              · have hb : (0 : Int) ≤ 0 ∧ (0 : Int) ≤ order.quantity - order.filled_quantity := by
                  omega
                exact hb
              · exact le_of_eq (outstandingL_zero_of_no_portfolio s.orders s.portfolios
                  s.next_id order.user_id order.stock_id hinvD hfp)
            by_cases hfull : order.filled_quantity +
                (order.quantity - order.filled_quantity) ≥ order.quantity
            · rw [if_pos hfull] at h
              simp only [Except.ok.injEq] at h
              subst h
              show InvD _ _ _
              dsimp only [appendHistory, updateOrderRow, appendPortfolio, appendTransaction]
              rw [updateOrder_map_map s.orders oid
                (fun o => { o with filled_quantity := o.filled_quantity +
                  (order.quantity - order.filled_quantity) })
                (fun o => { o with status := OrderStatus.success }) (fun x => rfl)]
              exact InvD_fill_success s.orders _ s.next_id oid order hpfInv hford
            · rw [if_neg hfull] at h
              simp only [Except.ok.injEq] at h
              subst h
              show InvD _ _ _
              dsimp only [updateOrderRow, appendPortfolio, appendTransaction]
              exact InvD_fill s.orders _ s.next_id oid order hpfInv hford
          | some p =>
            rw [hfp] at h
            dsimp only at h
            unfold findPortfolio at hfp
            have hpmem : p ∈ s.portfolios := List.mem_of_find?_eq_some hfp
            have hPB := hinvD.1 p hpmem
            have hpfInv : InvD s.orders
                (s.portfolios.map (fun q =>
                  if q.user_id == order.user_id && q.stock_id == order.stock_id then
                    { q with
                      quantity := p.quantity + (order.quantity - order.filled_quantity),
                      total_purchase_amount := p.total_purchase_amount +
                        price_data.current_price *
                          ((order.quantity - order.filled_quantity : Int) : Rat),
                      avg_purchase_price := (p.total_purchase_amount +
                        price_data.current_price *
                          ((order.quantity - order.filled_quantity : Int) : Rat)) /
                        ((p.quantity + (order.quantity - order.filled_quantity) : Int) : Rat) }
                  else q)) s.next_id := by
              refine InvD_update_portfolio s.orders s.portfolios s.next_id order.user_id
                order.stock_id _ p hinvD hfp (fun q => ⟨rfl, rfl⟩)
                ⟨by dsimp only; omega, by dsimp only; omega⟩ ?_
              dsimp only
              exact hPB.2.2
            by_cases hfull : order.filled_quantity +
                (order.quantity - order.filled_quantity) ≥ order.quantity
            · rw [if_pos hfull] at h
              simp only [Except.ok.injEq] at h
              subst h
              show InvD _ _ _
              dsimp only [appendHistory, updateOrderRow, updatePortfolioRow, appendTransaction]
              rw [updateOrder_map_map s.orders oid
                (fun o => { o with filled_quantity := o.filled_quantity +
                  (order.quantity - order.filled_quantity) })
                (fun o => { o with status := OrderStatus.success }) (fun x => rfl)]
              exact InvD_fill_success s.orders _ s.next_id oid order hpfInv hford
            · rw [if_neg hfull] at h
              simp only [Except.ok.injEq] at h
              subst h
              show InvD _ _ _
              dsimp only [updateOrderRow, updatePortfolioRow, appendTransaction]
              exact InvD_fill s.orders _ s.next_id oid order hpfInv hford
        | sell =>
          rw [hot] at h
          dsimp only at h
          rw [findPortfolio_appendTransaction] at h
          cases hfp : findPortfolio s order.user_id order.stock_id with
          | none =>
            rw [hfp] at h
            dsimp only at h
            by_cases hfull : order.filled_quantity +
                (order.quantity - order.filled_quantity) ≥ order.quantity
            · rw [if_pos hfull] at h
              simp only [Except.ok.injEq] at h
              subst h
              show InvD _ _ _
              dsimp only [appendHistory, updateOrderRow, appendTransaction]
              rw [updateOrder_map_map s.orders oid
                (fun o => { o with filled_quantity := o.filled_quantity +
                  (order.quantity - order.filled_quantity) })
                (fun o => { o with status := OrderStatus.success }) (fun x => rfl)]
              exact InvD_fill_success s.orders s.portfolios s.next_id oid order hinvD hford
            · rw [if_neg hfull] at h
              simp only [Except.ok.injEq] at h
              subst h
              show InvD _ _ _
              dsimp only [updateOrderRow, appendTransaction]
              exact InvD_fill s.orders s.portfolios s.next_id oid order hinvD hford
          | some p =>
            rw [hfp] at h
            dsimp only at h
            rw [findUser_updatePortfolioRow, findUser_appendTransaction] at h
            unfold findPortfolio at hfp
            have hpmem : p ∈ s.portfolios := List.mem_of_find?_eq_some hfp
            have hpkey := List.find?_some hfp
            simp only [Bool.and_eq_true, beq_iff_eq] at hpkey
            have hPB := hinvD.1 p hpmem
            have hsE : sellTerm p.user_id p.stock_id order =
                order.quantity - order.filled_quantity :=
              sellTerm_of_sell_active p.user_id p.stock_id order hot hactive
                ⟨hpkey.1.symm, hpkey.2.symm⟩
            have hle1 : sellTerm p.user_id p.stock_id order ≤
                outstandingL s.orders p.user_id p.stock_id :=
              sellTerm_le_outstandingL s.orders p.user_id p.stock_id order hmem hinvD.2.1
            have hout0 := hPB.2.2
            cases hu : findUser s order.user_id with
            | some u =>
              rw [hu] at h
              exact absurd h (by simp)
            | none =>
              rw [hu] at h
              dsimp only at h
              by_cases hfull : order.filled_quantity +
                  (order.quantity - order.filled_quantity) ≥ order.quantity
              · rw [if_pos hfull] at h
                simp only [Except.ok.injEq] at h
                subst h
                show InvD _ _ _
                dsimp only [appendHistory, updateOrderRow, updatePortfolioRow,
                  appendTransaction]
                rw [updateOrder_map_map s.orders oid
                  (fun o => { o with filled_quantity := o.filled_quantity +
                    (order.quantity - order.filled_quantity) })
                  (fun o => { o with status := OrderStatus.success }) (fun x => rfl)]
                refine InvD_update_portfolio _ s.portfolios s.next_id order.user_id
                  order.stock_id _ p
                  (InvD_fill_success s.orders s.portfolios s.next_id oid order hinvD hford)
                  hfp (fun q => ⟨rfl, rfl⟩)
                  ⟨by dsimp only; omega, by dsimp only; omega⟩ ?_
                dsimp only
                rw [outstandingL_update s.orders oid _ p.user_id p.stock_id
                  hinvD.2.2.2.2.1 order hford]
                have hsT2 := sellTerm_of_inactive p.user_id p.stock_id
                  ({ order with filled_quantity := order.filled_quantity +
                    (order.quantity - order.filled_quantity), status := OrderStatus.success })
                  (by rfl)
                rw [hsT2, hsE]
                omega
              · rw [if_neg hfull] at h
                simp only [Except.ok.injEq] at h
                subst h
                show InvD _ _ _
                dsimp only [updateOrderRow, updatePortfolioRow, appendTransaction]
                refine InvD_update_portfolio _ s.portfolios s.next_id order.user_id
                  order.stock_id _ p
                  (InvD_fill s.orders s.portfolios s.next_id oid order hinvD hford)
                  hfp (fun q => ⟨rfl, rfl⟩)
                  ⟨by dsimp only; omega, by dsimp only; omega⟩ ?_
                dsimp only
                rw [outstandingL_update s.orders oid _ p.user_id p.stock_id
                  hinvD.2.2.2.2.1 order hford]
                have hsT2 := sellTerm_of_sell_active p.user_id p.stock_id
                  ({ order with filled_quantity := order.filled_quantity +
                    (order.quantity - order.filled_quantity) }) hot hactive
                  ⟨hpkey.1.symm, hpkey.2.symm⟩
                rw [hsT2, hsE]
                dsimp only
                omega
      · rw [if_neg hexec] at h
        try dsimp only at h
        have hretryInvD : InvD
            (s.orders.map (fun x => if x.id == oid then
              { x with retry_count := x.retry_count + 1 } else x)) s.portfolios s.next_id :=
          InvD_bump_retry s.orders s.portfolios s.next_id oid order hinvD hford
        by_cases hret : order.retry_count + 1 ≥ 3
        · rw [if_pos hret] at h
          simp only [Except.ok.injEq] at h
          subst h
          refine auto_cancel_order_inv s _ oid hinv ?_ ?_
          · show InvD _ _ _
            dsimp only [updateOrderRow]
            exact hretryInvD
          · intro o hmo hido
            dsimp only [updateOrderRow] at hmo
            obtain ⟨x, hx, hxid, hxeq⟩ := mem_update_self s.orders oid _ o hmo hido
            have hxo : x = order := eq_of_mem_of_same_id s.orders hinvD.2.2.2.2.1 x order
              hx hmem (hxid.trans hoid.symm)
            rw [hxeq, hxo]
            exact hactive
        · rw [if_neg hret] at h
          try dsimp only at h
          simp only [Except.ok.injEq] at h
          subst h
          show InvD _ _ _
          dsimp only [appendHistory, updateOrderRow]
          rw [updateOrder_map_map s.orders oid
            (fun o => { o with retry_count := o.retry_count + 1 })
            (fun o => { o with status := OrderStatus.retrying }) (fun x => rfl)]
          exact InvD_mark_retrying s.orders s.portfolios s.next_id oid order hinvD hford
            hactive

/-- Every engine operation, run through its `@transaction` wrapper,
preserves the invariant (an erroring operation commits nothing). -/
theorem stepOp_inv (s : EngineState) (op : EngineOp) (hwf : WFOp op) (hinv : Inv s) :
    Inv (stepOp s op) := by
  cases op with
  | createBuy uid req =>
    show Inv (transactionRun (fun st => OrderService.create_buy_order st uid req) s).2
    cases hres : OrderService.create_buy_order s uid req with
    | error e =>
      rw [transactionRun_snd_error _ s e hres]
      exact hinv
    | ok s2 =>
      rw [transactionRun_snd_ok _ s s2 hres]
      exact create_buy_order_inv s uid req s2 hwf hinv hres
  | createSell uid req =>
    show Inv (transactionRun (fun st => OrderService.create_sell_order st uid req) s).2
    cases hres : OrderService.create_sell_order s uid req with
    | error e =>
      rw [transactionRun_snd_error _ s e hres]
      exact hinv
    | ok s2 =>
      rw [transactionRun_snd_ok _ s s2 hres]
      exact create_sell_order_inv s uid req s2 hwf hinv hres
  | cancel oid uid =>
    show Inv (transactionRun (fun st => OrderService.cancel_order st oid uid) s).2
    cases hres : OrderService.cancel_order s oid uid with
    | error e =>
      rw [transactionRun_snd_error _ s e hres]
      exact hinv
    | ok s2 =>
      rw [transactionRun_snd_ok _ s s2 hres]
      exact cancel_order_inv s oid uid s2 hinv hres
  | update oid uid req =>
    show Inv (transactionRun (fun st => OrderService.update_order st oid uid req) s).2
    cases hres : OrderService.update_order s oid uid req with
    | error e =>
      rw [transactionRun_snd_error _ s e hres]
      exact hinv
    | ok s2 =>
      rw [transactionRun_snd_ok _ s s2 hres]
      exact update_order_inv s oid uid req s2 hwf hinv hres
  | processService oid =>
    show Inv (transactionRun (fun st => OrderService.process_order st oid) s).2
    cases hres : OrderService.process_order s oid with
    | error e =>
      rw [transactionRun_snd_error _ s e hres]
      exact hinv
    | ok s2 =>
      rw [transactionRun_snd_ok _ s s2 hres]
      exact process_order_service_inv s oid s2 hinv hres
  | processConsumer oid =>
    show Inv (transactionRun (fun st => KafkaConsumerContext.process_order st oid) s).2
    cases hres : KafkaConsumerContext.process_order s oid with
    | error e =>
      rw [transactionRun_snd_error _ s e hres]
      exact hinv
    | ok s2 =>
      rw [transactionRun_snd_ok _ s s2 hres]
      exact process_order_consumer_inv s oid s2 hinv hres
  | resetProcessing oid =>
    show Inv (transactionRun (fun st => KafkaConsumerContext.reset_order_processing st oid) s).2
    cases hres : KafkaConsumerContext.reset_order_processing s oid with
    | error e =>
      rw [transactionRun_snd_error _ s e hres]
      exact hinv
    | ok s2 =>
      rw [transactionRun_snd_ok _ s s2 hres]
      exact reset_order_processing_inv s oid s2 hinv hres

/-- The invariant is inductive over arbitrary sequences of
schema-validated engine operations. -/
theorem runOps_inv (ops : List EngineOp) (s : EngineState)
    (hinv : Inv s) (hwf : ∀ op ∈ ops, WFOp op) : Inv (runOps s ops) := by
  induction ops generalizing s with
  | nil => exact hinv
  | cons op ops ih =>
    show Inv (ops.foldl stepOp (stepOp s op))
    exact ih (stepOp s op) (stepOp_inv s op (hwf op (by simp)) hinv)
      (fun o ho => hwf o (by simp [ho]))

/-- C8: for every Portfolio row and after every engine operation
(sell-order creation, order update, cancellation, fill processing —
any sequence of schema-validated gateway calls and queue deliveries,
each through its `@transaction` wrapper, starting from a database
satisfying the engine invariant), the bound
`0 <= hold_quantity <= quantity` holds. -/
theorem c8_hold_bound_invariant (s : EngineState) (ops : List EngineOp)
    (hinv : Inv s) (hwf : ∀ op ∈ ops, WFOp op) :
    HoldBound (runOps s ops) := by
  have h := runOps_inv ops s hinv hwf
  intro p hp
  exact ⟨(h.1 p hp).1, (h.1 p hp).2.1⟩

/-- Witness for C8: a user holding 10 unencumbered ACME shares places a
sell order for 5 and the consumer processes it; the hold bound holds in
the resulting committed state, with both hypotheses discharged at the
concrete input. -/
theorem c8_witness :
    Inv (mkState [] [user1 1000] [pf17 10 0] [price100]) ∧
    HoldBound (runOps (mkState [] [user1 1000] [pf17 10 0] [price100])
      [EngineOp.createSell 1 ⟨7, 100, 5⟩, EngineOp.processConsumer 100]) :=
  ⟨by unfold Inv InvD; decide,
   c8_hold_bound_invariant (mkState [] [user1 1000] [pf17 10 0] [price100])
     [EngineOp.createSell 1 ⟨7, 100, 5⟩, EngineOp.processConsumer 100]
     (by unfold Inv InvD; decide)
     (by
       intro op hop
       simp only [List.mem_cons, List.not_mem_nil, or_false] at hop
       rcases hop with rfl | rfl
       · exact ⟨by norm_num, by norm_num⟩
       · exact trivial)⟩

end StockService
